import Mathlib

/-!
Kafka CLI tool (`src/src/kafka_cli.c`): embedding and checked properties.

The C program is embedded as pure functions.  Strings are `String`s (a C string
never holds a NUL, so reading a buffer as a C string cuts it at the first NUL),
`int` values are `Int`s, and every call that reaches the outside world (the
console, the log file, the client library, the keyboard) is recorded as an
`Event` in a trace.  What the outside world answers is read from a `World`.

Platform: the code has `#ifdef _WIN32` branches; the embedding follows the
`#else` (POSIX) branches.
-/

namespace KafkaCli

/-! ## Constants of the source -/

def VERSION : String := "1.0.0"
def DEFAULT_INI_FILE : String := "kafka_cli.ini"
def MAX_LINE_LENGTH : Nat := 1024
def MAX_KEY_LENGTH : Nat := 256
def MAX_VALUE_LENGTH : Nat := 768
def MAX_INI_FILES : Nat := 20
def MAX_FILENAME_LENGTH : Nat := 256
def LOGS_DIR : String := "logs"

/-- Value of `RD_KAFKA_CONF_OK` in `rdkafka.h`. -/
def RD_KAFKA_CONF_OK : Int := 0
/-- Value of `RD_KAFKA_RESP_ERR_NO_ERROR` in `rdkafka.h`. -/
def RD_KAFKA_RESP_ERR_NO_ERROR : Int := 0
/-- Value of `RD_KAFKA_RESP_ERR__PARTITION_EOF` in `rdkafka.h`. -/
def RD_KAFKA_RESP_ERR__PARTITION_EOF : Int := -191
/-- Value of `RD_KAFKA_PARTITION_UA` in `rdkafka.h`. -/
def RD_KAFKA_PARTITION_UA : Int := -1

/-! ## C library functions used by the source -/

/-- C `isspace` in the "C" locale: space, `\t`, `\n`, `\v`, `\f`, `\r`. -/
def isspace (c : Char) : Bool :=
  c = ' ' || c = Char.ofNat 9 || c = Char.ofNat 10 || c = Char.ofNat 11 ||
    c = Char.ofNat 12 || c = Char.ofNat 13

/-- Reading a `char` buffer as a C string: everything before the first NUL. -/
def c_str (buf : List Char) : List Char :=
  buf.takeWhile (fun c => c ≠ Char.ofNat 0)

/-- The effect of `p = strchr(s, ch); if (p) *p = 0;` on the C string `s`. -/
def cut_at (ch : Char) (s : List Char) : List Char :=
  s.takeWhile (fun c => c ≠ ch)

/-- Result of `strchr(s, ch)`: `none` when `ch` does not occur, otherwise the
text before the first occurrence and the text after it. -/
def strchr_split (ch : Char) : List Char → Option (List Char × List Char)
  | [] => none
  | c :: cs =>
    if c = ch then some ([], cs)
    else match strchr_split ch cs with
      | none => none
      | some (before, after) => some (c :: before, after)

/-- Accumulates the leading decimal digits of a string, as `strtol` does. -/
def strtol_digits (acc : Nat) : List Char → Nat
  | [] => acc
  | c :: cs =>
    if c.isDigit then strtol_digits (acc * 10 + (c.toNat - 48)) cs else acc

def LONG_MAX : Int := 2 ^ 63 - 1
def LONG_MIN : Int := -(2 ^ 63)

/-- Conversion of a `long` to `int` (two's complement, 32 bits). -/
def long_to_int (v : Int) : Int :=
  (v + 2 ^ 31) % 2 ^ 32 - 2 ^ 31

/-- C `atoi`, as `(int) strtol(s, NULL, 10)` with a 64-bit `long`: leading
white space is skipped, one optional sign is read, then the decimal digits;
a string without digits gives 0.  The C standard leaves a value outside `int`
undefined; the saturating `strtol` followed by the narrowing conversion is
what glibc does. -/
def atoi (s : String) : Int :=
  match s.data.dropWhile isspace with
  | '-' :: ds => long_to_int (max (-(strtol_digits 0 ds : Int)) LONG_MIN)
  | '+' :: ds => long_to_int (min (strtol_digits 0 ds : Int) LONG_MAX)
  | ds => long_to_int (min (strtol_digits 0 ds : Int) LONG_MAX)

/-- One call of `fgets(line, size, file)` on the unread part of a file:
`none` at end of file, otherwise the characters stored (at most `size - 1`,
stopping after a newline) and what is left unread. -/
def fgets_go : Nat → List Char → List Char × List Char
  | 0, rest => ([], rest)
  | _ + 1, [] => ([], [])
  | n + 1, c :: cs =>
    if c = Char.ofNat 10 then ([c], cs)
    else ((fgets_go n cs).1.cons c, (fgets_go n cs).2)

def fgets (size : Nat) (unread : List Char) : Option (List Char × List Char) :=
  match unread with
  | [] => none
  | _ :: _ => some (fgets_go (size - 1) unread)

/-- C `printf("%d", n)`. -/
def fmt_d (n : Int) : String := toString n

/-! ## Configuration -/

/-- The `Config` structure of the source. -/
structure Config where
  brokers : String
  topic : String
  security_protocol : String
  ssl_ca_location : String
  ssl_certificate_location : String
  ssl_key_location : String
  ssl_key_password : String
  ssl_skip_certificate_verify : Int
  producer_batch_size : Int
  producer_linger_ms : Int
  producer_ack : Int
  consumer_group_id : String
  consumer_auto_offset_reset : String
  consumer_session_timeout_ms : Int
  consumer_enable_auto_commit : String
  verbose : Int
  message_count : Int
  deriving DecidableEq, Repr

/-- The config after `memset(&config, 0, sizeof(config))` in `main`. -/
def Config.zeroed : Config :=
  { brokers := "", topic := "", security_protocol := "", ssl_ca_location := "",
    ssl_certificate_location := "", ssl_key_location := "", ssl_key_password := "",
    ssl_skip_certificate_verify := 0, producer_batch_size := 0, producer_linger_ms := 0,
    producer_ack := 0, consumer_group_id := "", consumer_auto_offset_reset := "",
    consumer_session_timeout_ms := 0, consumer_enable_auto_commit := "",
    verbose := 0, message_count := 0 }

/-! ## Events -/

/-- A message handed out by `rd_kafka_consumer_poll`. -/
structure Message where
  err : Int
  topic : String
  partition : Int
  offset : Int
  key : String
  payload : String
  errstr : String
  deriving DecidableEq, Repr

/-- A delivery report served to `dr_msg_cb`. -/
structure Delivery where
  err : Int
  partition : Int
  offset : Int
  deriving DecidableEq, Repr

/-- What the program does to the outside world, in order. -/
inductive Event where
  /-- One line `[timestamp] [level] text` printed by `log_message`; `to_file`
  tells whether the same line was also written to the open log file. -/
  | log (level : String) (text : String) (to_file : Bool)
  | print_usage (program : String)
  | print_version (library_version : String)
  | mkdir_logs
  | open_log (path : String) (opened : Bool)
  | close_log
  | wait_for_key_press
  | tui_goodbye
  | tui_no_ini_files
  | conf_new
  | conf_set (name : String) (value : String) (res : Int)
  | conf_set_dr_msg_cb
  | conf_set_callback_arg
  | conf_destroy
  | kafka_new (producer : Bool) (created : Bool)
  | producev (topic : String) (payload : String) (key : Option String) (err : Int)
  | kafka_poll (timeout_ms : Int)
  | usleep (usec : Nat)
  | flush (timeout_ms : Int) (err : Int)
  | install_signal_handlers
  | signal (sig : Int)
  | subscribe (topic : String) (partition : Int) (err : Int)
  | consumer_poll (timeout_ms : Int)
  | offset_store (topic : String) (partition : Int) (offset : Int)
  | message_destroy
  | consumer_close
  | kafka_destroy
  deriving DecidableEq, Repr

/-- One call of `rd_kafka_consumer_poll`: the message it returns (`none` for
NULL, a timeout) and the signal, if any, that `stop_consumer` handled while the
call was waiting. -/
structure PollStep where
  signal : Option Int
  msg : Option Message
  deriving DecidableEq, Repr

/-- The answers of the outside world. -/
structure World where
  /-- Content of the file a path names, `none` when `fopen(path, "r")` fails. -/
  read_file : String → Option String
  /-- Whether `fopen(path, "w")` of the log file succeeds. -/
  log_file_opens : String → Bool
  /-- The start time as `strftime` formats it with `%Y%m%d_%H%M%S`. -/
  datetime : String
  /-- Names `readdir` lists in the current directory, `none` when `opendir` fails. -/
  dir_entries : Option (List String)
  /-- Characters `getchar` reads; after the last one it returns `EOF`. -/
  keys : List Int
  /-- Result of `rd_kafka_version_str`. -/
  version_str : String
  /-- Result of `rd_kafka_conf_set` for a property name and value. -/
  conf_set_res : String → String → Int
  /-- The `errstr` that `rd_kafka_conf_set` writes when it fails. -/
  conf_set_errstr : String → String → String
  /-- Whether `rd_kafka_new` returns a handle, and its `errstr` otherwise. -/
  new_ok : Bool
  new_errstr : String
  /-- `rd_kafka_err2str`. -/
  err2str : Int → String
  /-- Result of the i-th `rd_kafka_producev` call (from 0). -/
  producev_err : Nat → Int
  /-- Value of `time(NULL)` in the i-th iteration of the produce loop. -/
  time_at : Nat → Int
  /-- Delivery reports served by the i-th `rd_kafka_poll` call. -/
  poll_reports : Nat → List Delivery
  /-- Delivery reports served during `rd_kafka_flush`, and its result. -/
  flush_reports : List Delivery
  flush_err : Int
  /-- Result of `rd_kafka_subscribe`. -/
  subscribe_err : Int
  /-- Results of the successive `rd_kafka_consumer_poll` calls. -/
  polls : List PollStep

/-! ## Logging -/

/-- `log_message`: nothing when the level is `DEBUG` and `verbose` is 0,
otherwise one line on the console and, when the log file is open (`lf`), the
same line in the file. -/
def log_message (lf : Bool) (verbose : Int) (level : String) (text : String) : List Event :=
  if verbose = 0 ∧ level = "DEBUG" then [] else [Event.log level text lf]

/-! ## trim_whitespace and parse_ini_file -/

/-- `trim_whitespace`: skips leading white space; when something is left, moves
`end` back from the last character while `end > str` and it is white space,
and cuts the string after `end`. -/
def trim_whitespace (str : List Char) : List Char :=
  match str.dropWhile isspace with
  | [] => []
  | c :: rest => c :: (rest.reverse.dropWhile isspace).reverse

/-- `strncpy(field, value, MAX_VALUE_LENGTH - 1)` into a field of
`MAX_VALUE_LENGTH` bytes whose last byte is 0 (the config was zeroed by
`main`, and nothing ever writes the last byte): the field then reads as the
first `MAX_VALUE_LENGTH - 1` characters of `value`. -/
def strncpy_field (value : List Char) : String :=
  String.mk (value.take (MAX_VALUE_LENGTH - 1))

/-- The defaults `parse_ini_file` writes before it opens the file. -/
def set_defaults (config : Config) : Config :=
  { config with
    brokers := "localhost:9092"
    topic := "test-topic"
    security_protocol := "SSL"
    ssl_ca_location := ""
    ssl_certificate_location := ""
    ssl_key_location := ""
    ssl_key_password := ""
    ssl_skip_certificate_verify := 0
    producer_batch_size := 16384
    producer_linger_ms := 5
    producer_ack := 1
    consumer_group_id := "kafka-cli-consumer"
    consumer_auto_offset_reset := "earliest"
    consumer_session_timeout_ms := 45000
    consumer_enable_auto_commit := "true"
    verbose := 0
    message_count := 10 }

/-- The key and value of one line read by `fgets`, as the loop body of
`parse_ini_file` finds them; `none` when the line is skipped (`continue`). -/
def split_key_value (line : List Char) : Option (String × List Char) :=
  let trimmed := trim_whitespace (cut_at '#' (cut_at ';' (c_str line)))
  if trimmed.length = 0 then none
  else if trimmed.head? = some '[' then none
  else match strchr_split '=' trimmed with
    | none => none
    | some (before, after) =>
      some (String.mk (trim_whitespace before), trim_whitespace after)

/-- The `if / else if` chain of `parse_ini_file` on a key and its value. -/
def assign_key (key : String) (value : List Char) (config : Config) : Config :=
  if key = "brokers" then { config with brokers := strncpy_field value }
  else if key = "topic" then { config with topic := strncpy_field value }
  else if key = "security_protocol" then
    { config with security_protocol := strncpy_field value }
  else if key = "ssl_ca_location" then
    { config with ssl_ca_location := strncpy_field value }
  else if key = "ssl_certificate_location" then
    { config with ssl_certificate_location := strncpy_field value }
  else if key = "ssl_key_location" then
    { config with ssl_key_location := strncpy_field value }
  else if key = "ssl_key_password" then
    { config with ssl_key_password := strncpy_field value }
  else if key = "ssl_skip_certificate_verify" then
    { config with ssl_skip_certificate_verify := atoi (String.mk value) }
  else if key = "producer_batch_size" then
    { config with producer_batch_size := atoi (String.mk value) }
  else if key = "producer_linger_ms" then
    { config with producer_linger_ms := atoi (String.mk value) }
  else if key = "producer_ack" then
    { config with producer_ack := atoi (String.mk value) }
  else if key = "consumer_group_id" then
    { config with consumer_group_id := strncpy_field value }
  else if key = "consumer_auto_offset_reset" then
    { config with consumer_auto_offset_reset := strncpy_field value }
  else if key = "consumer_session_timeout_ms" then
    { config with consumer_session_timeout_ms := atoi (String.mk value) }
  else if key = "consumer_enable_auto_commit" then
    { config with consumer_enable_auto_commit := strncpy_field value }
  else if key = "verbose" then { config with verbose := atoi (String.mk value) }
  else if key = "message_count" then
    { config with message_count := atoi (String.mk value) }
  else config

/-- One iteration of the `while (fgets(...))` loop of `parse_ini_file`. -/
def parse_ini_line (line : List Char) (config : Config) : Config :=
  match split_key_value line with
  | none => config
  | some (key, value) => assign_key key value config

/-- The `while (fgets(line, sizeof(line), file))` loop.  Every `fgets` call
that returns a line consumes at least one character, so `fuel` equal to the
length of the unread text is enough to reach the end of the file. -/
def parse_ini_lines : Nat → List Char → Config → Config
  | 0, _, config => config
  | fuel + 1, unread, config =>
    match fgets MAX_LINE_LENGTH unread with
    | none => config
    | some (line, rest) => parse_ini_lines fuel rest (parse_ini_line line config)

/-- `parse_ini_file`: the returned `int`, the config it leaves, and the log
lines it prints. -/
def parse_ini_file (w : World) (lf : Bool) (filename : String) (config : Config) :
    Int × Config × List Event :=
  let config := set_defaults config
  match w.read_file filename with
  | none =>
    (0, config,
      log_message lf 1 "WARNING"
        ("Cannot open config file '" ++ filename ++ "', using defaults"))
  | some content =>
    (0, parse_ini_lines content.length content.data config,
      log_message lf 1 "INFO" ("Loading configuration from: " ++ filename))

/-- `print_config`: the masked dump of the configuration. -/
def print_config (lf : Bool) (config : Config) : List Event :=
  log_message lf 1 "CONFIG" "=== Configuration ===" ++
  log_message lf 1 "CONFIG" ("Brokers: " ++ config.brokers) ++
  log_message lf 1 "CONFIG" ("Topic: " ++ config.topic) ++
  log_message lf 1 "CONFIG" ("Security Protocol: " ++ config.security_protocol) ++
  log_message lf 1 "CONFIG" ("CA Location: " ++
    (if config.ssl_ca_location.length > 0 then config.ssl_ca_location else "(not set)")) ++
  log_message lf 1 "CONFIG" ("Certificate Location: " ++
    (if config.ssl_certificate_location.length > 0 then config.ssl_certificate_location
     else "(not set)")) ++
  log_message lf 1 "CONFIG" ("Key Location: " ++
    (if config.ssl_key_location.length > 0 then config.ssl_key_location else "(not set)")) ++
  log_message lf 1 "CONFIG" ("Key Password: " ++
    (if config.ssl_key_password.length > 0 then "***" else "(not set)")) ++
  log_message lf 1 "CONFIG" ("Message Count: " ++ fmt_d config.message_count) ++
  log_message lf 1 "CONFIG" ("Verbose: " ++ fmt_d config.verbose) ++
  log_message lf 1 "CONFIG" ("Auto Commit: " ++ config.consumer_enable_auto_commit) ++
  log_message lf 1 "CONFIG" ("Skip Certificate Verify: " ++
    (if config.ssl_skip_certificate_verify ≠ 0 then "true" else "false")) ++
  log_message lf 1 "CONFIG" "====================="

/-! ## Log file -/

/-- The character `sanitize_filename` stores for `c`. -/
def sanitize_char (c : Char) : Char :=
  if ('a' ≤ c ∧ c ≤ 'z') ∨ ('A' ≤ c ∧ c ≤ 'Z') ∨ ('0' ≤ c ∧ c ≤ '9') ∨ c = '-' ∨ c = '_'
  then c else '_'

/-- The loop of `sanitize_filename` from index `j` on, with `limit = size - 1`. -/
def sanitize_loop (limit : Nat) : List Char → Nat → List Char
  | [], _ => []
  | c :: cs, j =>
    if j < limit then sanitize_char c :: sanitize_loop limit cs (j + 1) else []

/-- `sanitize_filename(dst, src, size)`: the string left in `dst`.  `size` is
a `size_t`, so `size - 1` is taken modulo 2^64. -/
def sanitize_filename (src : List Char) (size : Nat) : List Char :=
  sanitize_loop ((size + 2 ^ 64 - 1) % 2 ^ 64) src 0

/-- The `filepath` that `init_log_file` builds: `snprintf` cuts the file name
to `MAX_FILENAME_LENGTH - 1` characters. -/
def log_file_path (datetime : String) (topic : String) (mode : String) : String :=
  let sanitized_topic := String.mk (sanitize_filename topic.data 256)
  let filename :=
    String.mk ((sanitized_topic ++ "_" ++ mode ++ "_" ++ datetime ++ ".log").data.take
      (MAX_FILENAME_LENGTH - 1))
  LOGS_DIR ++ "/" ++ filename

/-- `init_log_file`: whether the log file is open afterwards, and the events
(when the file opens, its header is written with the event `open_log`). -/
def init_log_file (w : World) (topic : String) (mode : String) : Bool × List Event :=
  let filepath := log_file_path w.datetime topic mode
  (w.log_file_opens filepath,
    [Event.mkdir_logs, Event.open_log filepath (w.log_file_opens filepath)])

/-- `close_log_file`: writes the footer and closes the file when it is open. -/
def close_log_file (lf : Bool) : List Event :=
  if lf then [Event.close_log] else []

/-! ## Creating the client -/

/-- Outcome of a function that returns a handle or NULL: whether a handle
was returned, and the events up to the return. -/
abbrev Attempt := Bool × List Event

/-- Events that happen, followed by the rest of the function. -/
def emit (events : List Event) (rest : Attempt) : Attempt :=
  (rest.1, events ++ rest.2)

/-- The pattern `if (rd_kafka_conf_set(conf, name, value, errstr, ...) !=
RD_KAFKA_CONF_OK) { log ERROR; rd_kafka_conf_destroy(conf); return NULL; }`
followed by the rest of the function. -/
def checked_conf_set (w : World) (lf : Bool) (name : String) (value : String)
    (failure : String) (rest : Attempt) : Attempt :=
  if w.conf_set_res name value ≠ RD_KAFKA_CONF_OK then
    (false,
      Event.conf_set name value (w.conf_set_res name value) ::
        (log_message lf 1 "ERROR" (failure ++ ": " ++ w.conf_set_errstr name value) ++
          [Event.conf_destroy]))
  else emit [Event.conf_set name value (w.conf_set_res name value)] rest

/-- The pattern `if (rd_kafka_conf_set(...) != RD_KAFKA_CONF_OK) { log WARNING }`
of the two debug settings: a failure is logged and the function goes on. -/
def warned_conf_set (w : World) (lf : Bool) (name : String) (value : String)
    (failure : String) : List Event :=
  Event.conf_set name value (w.conf_set_res name value) ::
    (if w.conf_set_res name value ≠ RD_KAFKA_CONF_OK then
      log_message lf 1 "WARNING" (failure ++ ": " ++ w.conf_set_errstr name value)
     else [])

/-- `rd_kafka_conf_set(conf, name, value, NULL, 0)` with the result ignored. -/
def unchecked_conf_set (w : World) (name : String) (value : String) : Event :=
  Event.conf_set name value (w.conf_set_res name value)

/-- The `if (config->verbose) { ... }` block that opens both create functions. -/
def configure_debug (w : World) (lf : Bool) (config : Config) : List Event :=
  if config.verbose ≠ 0 then
    warned_conf_set w lf "debug" "all" "Failed to set debug" ++
      warned_conf_set w lf "log_level" "7" "Failed to set log_level"
  else []

/-- The pattern `if (cond) { checked rd_kafka_conf_set; log INFO or WARNING }`
of the optional mTLS settings, followed by the rest of the function. -/
def optional_setting (cond : Bool) (w : World) (lf : Bool) (name : String) (value : String)
    (failure : String) (success_log : List Event) (rest : Attempt) : Attempt :=
  if cond then checked_conf_set w lf name value failure (emit success_log rest) else rest

/-- The block `/* Configure mTLS authentication */`, which is the same text in
`create_producer` and in `create_consumer`, followed by the rest of the
function. -/
def configure_mtls (w : World) (lf : Bool) (config : Config) (rest : Attempt) : Attempt :=
  if config.security_protocol = "SSL" then
    emit (log_message lf 1 "INFO" "Configuring mTLS authentication...") <|
    checked_conf_set w lf "security.protocol" "SSL" "Failed to set security.protocol" <|
    optional_setting (decide (config.ssl_ca_location.length > 0)) w lf
      "ssl.ca.location" config.ssl_ca_location "Failed to set ssl.ca.location"
      (log_message lf 1 "INFO" ("CA certificate configured: " ++ config.ssl_ca_location)) <|
    optional_setting (decide (config.ssl_certificate_location.length > 0)) w lf
      "ssl.certificate.location" config.ssl_certificate_location
      "Failed to set ssl.certificate.location"
      (log_message lf 1 "INFO"
        ("Client certificate configured: " ++ config.ssl_certificate_location)) <|
    optional_setting (decide (config.ssl_key_location.length > 0)) w lf
      "ssl.key.location" config.ssl_key_location "Failed to set ssl.key.location"
      (log_message lf 1 "INFO" ("Client key configured: " ++ config.ssl_key_location)) <|
    optional_setting (decide (config.ssl_key_password.length > 0)) w lf
      "ssl.key.password" config.ssl_key_password "Failed to set ssl.key.password"
      (log_message lf 1 "INFO" "Key password configured") <|
    optional_setting (decide (config.ssl_skip_certificate_verify ≠ 0)) w lf
      "enable.ssl.certificate.verification" "false"
      "Failed to disable SSL certificate verification"
      (log_message lf 1 "WARNING"
        "SSL certificate verification is DISABLED - use only for testing!") <|
    rest
  else rest

/-- The call of `rd_kafka_new` that ends both create functions. -/
def kafka_new (w : World) (lf : Bool) (producer : Bool) (failure : String)
    (success : String) : Attempt :=
  if w.new_ok then
    (true, Event.kafka_new producer true :: log_message lf 1 "INFO" success)
  else
    (false,
      Event.kafka_new producer false ::
        (log_message lf 1 "ERROR" (failure ++ ": " ++ w.new_errstr) ++ [Event.conf_destroy]))

/-- `create_producer`: whether a handle is returned (not NULL), and the events. -/
def create_producer (w : World) (lf : Bool) (config : Config) : Attempt :=
  emit [Event.conf_new] <|
  emit (configure_debug w lf config) <|
  checked_conf_set w lf "bootstrap.servers" config.brokers
    "Failed to set bootstrap.servers" <|
  configure_mtls w lf config <|
  emit [unchecked_conf_set w "batch.size" (fmt_d config.producer_batch_size),
        unchecked_conf_set w "linger.ms" (fmt_d config.producer_linger_ms),
        unchecked_conf_set w "acks" (fmt_d config.producer_ack),
        Event.conf_set_dr_msg_cb, Event.conf_set_callback_arg] <|
  kafka_new w lf true "Failed to create producer" "Producer created successfully"

/-- `create_consumer`: whether a handle is returned (not NULL), and the events. -/
def create_consumer (w : World) (lf : Bool) (config : Config) : Attempt :=
  emit [Event.conf_new] <|
  emit (configure_debug w lf config) <|
  checked_conf_set w lf "bootstrap.servers" config.brokers
    "Failed to set bootstrap.servers" <|
  configure_mtls w lf config <|
  checked_conf_set w lf "group.id" config.consumer_group_id "Failed to set group.id" <|
  checked_conf_set w lf "auto.offset.reset" config.consumer_auto_offset_reset
    "Failed to set auto.offset.reset" <|
  checked_conf_set w lf "session.timeout.ms" (fmt_d config.consumer_session_timeout_ms)
    "Failed to set session.timeout.ms" <|
  checked_conf_set w lf "enable.auto.commit" config.consumer_enable_auto_commit
    "Failed to set enable.auto.commit" <|
  emit (log_message lf 1 "INFO"
    ("Auto commit enabled: " ++ config.consumer_enable_auto_commit)) <|
  kafka_new w lf false "Failed to create consumer"
    ("Consumer created successfully (Group ID: " ++ config.consumer_group_id ++ ")")

/-! ## Producing -/

/-- `dr_msg_cb` on one delivery report. -/
def dr_msg_cb (w : World) (lf : Bool) (config : Config) (report : Delivery) : List Event :=
  if report.err ≠ 0 then
    log_message lf config.verbose "ERROR"
      ("Message delivery failed: " ++ w.err2str report.err)
  else
    log_message lf config.verbose "DEBUG"
      ("Message delivered to partition " ++ fmt_d report.partition ++ " at offset " ++
        fmt_d report.offset)

/-- The delivery reports a library call serves, each through `dr_msg_cb`. -/
def serve_reports (w : World) (lf : Bool) (config : Config) : List Delivery → List Event
  | [] => []
  | r :: rs => dr_msg_cb w lf config r ++ serve_reports w lf config rs

/-- The text `snprintf` builds for the message of iteration `i` (from 0). -/
def message_text (w : World) (i : Nat) : String :=
  "Test message " ++ fmt_d (i + 1) ++ " from Kafka CLI at " ++ fmt_d (w.time_at i)

/-- The body of the `for` loop of `produce_messages` for index `i`. -/
def produce_iteration (w : World) (lf : Bool) (config : Config) (i : Nat) : List Event :=
  [Event.producev config.topic (message_text w i) none (w.producev_err i)] ++
  (if w.producev_err i ≠ 0 then
    log_message lf 1 "ERROR"
      ("Failed to produce message " ++ fmt_d (i + 1) ++ ": " ++ w.err2str (w.producev_err i))
   else
    log_message lf config.verbose "INFO"
      ("Produced message " ++ fmt_d (i + 1) ++ "/" ++ fmt_d config.message_count ++ ": " ++
        message_text w i)) ++
  [Event.kafka_poll 0] ++ serve_reports w lf config (w.poll_reports i) ++
  [Event.usleep 10000]

/-- The loop `for (i = 0; i < config->message_count; i++)` from index `i` on,
with `remaining` iterations to go. -/
def produce_loop (w : World) (lf : Bool) (config : Config) : Nat → Nat → List Event
  | 0, _ => []
  | remaining + 1, i =>
    produce_iteration w lf config i ++ produce_loop w lf config remaining (i + 1)

/-- `produce_messages`: the returned `int` and the events. -/
def produce_messages (w : World) (lf : Bool) (config : Config) : Int × List Event :=
  (0,
    log_message lf 1 "INFO"
      ("Starting to produce " ++ fmt_d config.message_count ++ " messages to topic '" ++
        config.topic ++ "'...") ++
    produce_loop w lf config config.message_count.toNat 0 ++
    log_message lf 1 "INFO" "Flushing messages..." ++
    [Event.flush 10000 w.flush_err] ++ serve_reports w lf config w.flush_reports ++
    log_message lf 1 "INFO"
      ("Produced " ++ fmt_d config.message_count ++ " messages successfully"))

/-! ## Consuming -/

/-- `stop_consumer`, the signal handler, while `global_kafka_handle` is set
(`handle_set`); besides these events it sets `run` to 0. -/
def stop_consumer (lf : Bool) (handle_set : Bool) (sig : Int) : List Event :=
  log_message lf 1 "INFO" ("Received signal " ++ fmt_d sig ++ ", shutting down...") ++
    (if handle_set then [Event.consumer_close] else [])

/-- The condition of the `while` loop of `consume_messages`. -/
def loop_cond (config : Config) (run : Bool) (msg_count : Int) : Bool :=
  run && (config.message_count == 0 || decide (msg_count < config.message_count))

/-- The body of the `while` loop of `consume_messages` after
`rd_kafka_consumer_poll` has returned `polled`: the new `msg_count` and the
events. -/
def poll_body (lf : Bool) (config : Config) (msg_count : Int) (polled : Option Message) :
    Int × List Event :=
  match polled with
  | none => (msg_count, [])
  | some m =>
    if m.err ≠ 0 then
      if m.err = RD_KAFKA_RESP_ERR__PARTITION_EOF then
        (msg_count,
          log_message lf config.verbose "DEBUG" "Reached end of partition" ++
            [Event.message_destroy])
      else
        (msg_count,
          log_message lf 1 "ERROR" ("Consumer error: " ++ m.errstr) ++
            [Event.message_destroy])
    else
      (msg_count + 1,
        log_message lf 1 "INFO" ("Received message " ++ fmt_d (msg_count + 1) ++ ":") ++
        log_message lf 1 "INFO" ("  Topic: " ++ m.topic) ++
        log_message lf 1 "INFO" ("  Partition: " ++ fmt_d m.partition) ++
        log_message lf 1 "INFO" ("  Offset: " ++ fmt_d m.offset) ++
        log_message lf 1 "INFO" ("  Key: " ++ m.key) ++
        log_message lf 1 "INFO" ("  Value: " ++ m.payload) ++
        [Event.offset_store m.topic m.partition m.offset, Event.message_destroy])

/-- The events of one poll: the call, a signal handled while it waits, and
the loop body on what it returned. -/
def poll_events (lf : Bool) (config : Config) (msg_count : Int) (p : PollStep) : List Event :=
  [Event.consumer_poll 1000] ++
  (match p.signal with
   | none => []
   | some sig => Event.signal sig :: stop_consumer lf true sig) ++
  (poll_body lf config msg_count p.msg).2

/-- The `while` loop of `consume_messages` on the successive poll results, from
the state (`run`, `msg_count`): the final `msg_count` and the events, or
`none` when the loop is still polling after the last recorded poll result. -/
def consume_loop (lf : Bool) (config : Config) :
    List PollStep → Bool → Int → Option (Int × List Event)
  | [], run, msg_count =>
    if loop_cond config run msg_count then none else some (msg_count, [])
  | p :: ps, run, msg_count =>
    if loop_cond config run msg_count then
      match consume_loop lf config ps (run && p.signal.isNone)
          (poll_body lf config msg_count p.msg).1 with
      | none => none
      | some (final, events) => some (final, poll_events lf config msg_count p ++ events)
    else some (msg_count, [])

/-- `consume_messages`: the returned `int` and the events, or `none` when the
poll loop does not end on the recorded poll results. -/
def consume_messages (w : World) (lf : Bool) (config : Config) : Option (Int × List Event) :=
  if w.subscribe_err ≠ 0 then
    some (1,
      Event.subscribe config.topic RD_KAFKA_PARTITION_UA w.subscribe_err ::
        log_message lf 1 "ERROR"
          ("Failed to subscribe to topic: " ++ w.err2str w.subscribe_err))
  else
    match consume_loop lf config w.polls true 0 with
    | none => none
    | some (msg_count, events) =>
      some (0,
        [Event.subscribe config.topic RD_KAFKA_PARTITION_UA w.subscribe_err] ++
        log_message lf 1 "INFO" ("Subscribed to topic '" ++ config.topic ++ "'") ++
        log_message lf 1 "INFO" "Waiting for messages... (Press Ctrl+C to stop)" ++
        events ++
        log_message lf 1 "INFO" ("Consumed " ++ fmt_d msg_count ++ " messages"))

/-! ## Text menus (POSIX branches) -/

/-- C `getchar` on the characters still to be read: `EOF` (-1) at the end. -/
def getchar : List Int → Int × List Int
  | [] => (-1, [])
  | k :: ks => (k, ks)

/-- The `while (1)` loop of `show_main_menu` with `selected` highlighted:
the value returned and the unread keys, or `none` when the loop never
returns (at end of input `getchar` gives `EOF` for ever).  Every iteration
on unread keys consumes one, so `fuel` above their number is enough. -/
def show_main_menu_loop : Nat → List Int → Int → Option (Int × List Int)
  | 0, _, _ => none
  | fuel + 1, keys, selected =>
    match keys with
    | [] => none
    | key :: ks =>
      if key = 27 then
        let key2 := (getchar (getchar ks).2).1
        let ks2 := (getchar (getchar ks).2).2
        if key2 = 65 then
          show_main_menu_loop fuel ks2 (if selected - 1 < 0 then 3 - 1 else selected - 1)
        else if key2 = 66 then
          show_main_menu_loop fuel ks2 (if selected + 1 ≥ 3 then 0 else selected + 1)
        else show_main_menu_loop fuel ks2 selected
      else if key = 10 then some (selected + 1, ks)
      else if 49 ≤ key ∧ key ≤ 51 then some (key - 48, ks)
      else show_main_menu_loop fuel ks selected

/-- `show_main_menu`. -/
def show_main_menu (keys : List Int) : Option (Int × List Int) :=
  show_main_menu_loop (keys.length + 1) keys 0

/-- The `while (1)` loop of `show_ini_selector` with `selected` highlighted. -/
def show_ini_selector_loop (file_count : Int) : Nat → List Int → Int → Option (Int × List Int)
  | 0, _, _ => none
  | fuel + 1, keys, selected =>
    match keys with
    | [] => none
    | key :: ks =>
      if key = 27 then
        if (getchar ks).1 = 91 then
          let key2 := (getchar (getchar ks).2).1
          let ks2 := (getchar (getchar ks).2).2
          if key2 = 65 then
            show_ini_selector_loop file_count fuel ks2
              (if selected - 1 < 0 then file_count - 1 else selected - 1)
          else if key2 = 66 then
            show_ini_selector_loop file_count fuel ks2
              (if selected + 1 ≥ file_count then 0 else selected + 1)
          else show_ini_selector_loop file_count fuel ks2 selected
        else some (-1, (getchar ks).2)
      else if key = 10 then some (selected, ks)
      else if 49 ≤ key ∧ key ≤ 57 then
        if key - 49 < file_count then some (key - 49, ks)
        else show_ini_selector_loop file_count fuel ks selected
      else show_ini_selector_loop file_count fuel ks selected

/-- One pass of the `while (1)` body of `show_ini_selector` once `getchar`
has returned `key`, with `ks` still unread and `selected` highlighted: the
function returns (left: the value and the unread keys) or goes round again
(right: the unread keys and the highlighted index). -/
def ini_selector_step (file_count : Int) (key : Int) (ks : List Int) (selected : Int) :
    (Int × List Int) ⊕ (List Int × Int) :=
  if key = 27 then
    if (getchar ks).1 = 91 then
      if (getchar (getchar ks).2).1 = 65 then
        Sum.inr ((getchar (getchar ks).2).2,
          if selected - 1 < 0 then file_count - 1 else selected - 1)
      else if (getchar (getchar ks).2).1 = 66 then
        Sum.inr ((getchar (getchar ks).2).2,
          if selected + 1 ≥ file_count then 0 else selected + 1)
      else Sum.inr ((getchar (getchar ks).2).2, selected)
    else Sum.inl (-1, (getchar ks).2)
  else if key = 10 then Sum.inl (selected, ks)
  else if 49 ≤ key ∧ key ≤ 57 then
    if key - 49 < file_count then Sum.inl (key - 49, ks) else Sum.inr (ks, selected)
  else Sum.inr (ks, selected)

/-- `show_ini_selector`. -/
def show_ini_selector (file_count : Int) (keys : List Int) : Option (Int × List Int) :=
  show_ini_selector_loop file_count (keys.length + 1) keys 0

/-- C `strstr(haystack, needle) != NULL`. -/
def strstr_found (needle : List Char) : List Char → Bool
  | [] => needle.isEmpty
  | c :: cs => needle.isPrefixOf (c :: cs) || strstr_found needle cs

/-- `find_ini_files`: the names stored, in `readdir` order; the loop stops
at `MAX_INI_FILES` and `strncpy` keeps `MAX_FILENAME_LENGTH - 1` characters. -/
def find_ini_files (w : World) : List String :=
  match w.dir_entries with
  | none => []
  | some entries =>
    ((entries.filter (fun name => strstr_found ".ini".data name.data)).take MAX_INI_FILES).map
      (fun name => String.mk (name.data.take (MAX_FILENAME_LENGTH - 1)))

/-- `run_tui`: the returned `int`, the selected file, the selected mode and
the events; `none` when a menu never returns. -/
def run_tui (w : World) : Option (Int × String × Int × List Event) :=
  match show_main_menu w.keys with
  | none => none
  | some (selected_mode, keys) =>
    if selected_mode = 3 then some (0, "", selected_mode, [Event.tui_goodbye])
    else
      let ini_files := find_ini_files w
      if ini_files.length = 0 then
        some (1, DEFAULT_INI_FILE, selected_mode, [Event.tui_no_ini_files])
      else if ini_files.length = 1 then
        some (1, ini_files.headD "", selected_mode, [])
      else
        match show_ini_selector ini_files.length keys with
        | none => none
        | some (ini_index, _) =>
          if ini_index < 0 then some (0, "", selected_mode, [])
          else some (1, ini_files.getD ini_index.toNat "", selected_mode, [])

/-! ## main -/

/-- What `main` leaves behind: its exit code and the events, in order. -/
structure Outcome where
  exit_code : Int
  trace : List Event
  deriving DecidableEq, Repr

/-- The local variables of `main` that the argument loop sets. -/
structure Args where
  config : Config
  config_file : Option String
  command : Option String
  is_producer : Bool
  is_consumer : Bool
  deriving DecidableEq, Repr

/-- The locals of `main` before the arguments are read. -/
def Args.initial : Args :=
  { config := Config.zeroed, config_file := none, command := none,
    is_producer := false, is_consumer := false }

/-- The loop `for (i = 1; i < argc; i++)` over `argv[i], ..., argv[argc-1]`:
either `main` returns inside the loop (left: the outcome) or the loop ends
(right: the locals). -/
def parse_args (program : String) (version_str : String) :
    List String → Args → Outcome ⊕ Args
  | [], st => Sum.inr st
  | arg :: rest, st =>
    if arg = "-h" then Sum.inl ⟨0, [Event.print_usage program]⟩
    else if arg = "-V" then Sum.inl ⟨0, [Event.print_version version_str]⟩
    else if arg = "-v" then
      parse_args program version_str rest { st with config := { st.config with verbose := 1 } }
    else
      match rest with
      | [] =>
        if arg = "produce" then Sum.inr { st with is_producer := true, command := some "produce" }
        else if arg = "consume" then
          Sum.inr { st with is_consumer := true, command := some "consume" }
        else Sum.inr st
      | operand :: rest2 =>
        if arg = "-c" then
          parse_args program version_str rest2 { st with config_file := some operand }
        else if arg = "-m" then
          parse_args program version_str rest2
            { st with config := { st.config with message_count := atoi operand } }
        else if arg = "produce" then
          parse_args program version_str (operand :: rest2)
            { st with is_producer := true, command := some "produce" }
        else if arg = "consume" then
          parse_args program version_str (operand :: rest2)
            { st with is_consumer := true, command := some "consume" }
        else parse_args program version_str (operand :: rest2) st

/-- The loop `/* Override verbose from command line */`. -/
def override_verbose (args : List String) (config : Config) : Config :=
  if "-v" ∈ args then { config with verbose := 1 } else config

/-- The block `/* Validate mTLS configuration */`: the text of the ERROR
line of the first check that fails, `none` when validation passes. -/
def validate_mtls (config : Config) : Option String :=
  if config.security_protocol = "SSL" then
    if config.ssl_ca_location.length = 0 then
      some "mTLS is enabled but ssl_ca_location is not set"
    else if config.ssl_certificate_location.length = 0 then
      some "mTLS is enabled but ssl_certificate_location is not set"
    else if config.ssl_key_location.length = 0 then
      some "mTLS is enabled but ssl_key_location is not set"
    else none
  else none

/-- The part of `main` from `/* Create Kafka client */` to the end, with the
log file state `lf`. -/
def run_client (w : World) (lf : Bool) (st : Args) (config : Config) : Option Outcome :=
  if st.is_producer then
    let created := create_producer w lf config
    if ¬ created.1 then
      some ⟨1, created.2 ++ close_log_file lf ++ [Event.wait_for_key_press]⟩
    else
      some ⟨0,
        created.2 ++ (produce_messages w lf config).2 ++ [Event.kafka_destroy] ++
        log_message lf 1 "INFO" "Application finished" ++ close_log_file lf ++
        [Event.wait_for_key_press]⟩
  else if st.is_consumer then
    let created := create_consumer w lf config
    if ¬ created.1 then
      some ⟨1, created.2 ++ close_log_file lf ++ [Event.wait_for_key_press]⟩
    else
      match consume_messages w lf config with
      | none => none
      | some (_, events) =>
        some ⟨0,
          created.2 ++ events ++ log_message lf 1 "INFO" "Closing consumer..." ++
          [Event.consumer_close, Event.kafka_destroy] ++
          log_message lf 1 "INFO" "Application finished" ++ close_log_file lf ++
          [Event.wait_for_key_press]⟩
  else
    some ⟨0,
      log_message lf 1 "INFO" "Application finished" ++ close_log_file lf ++
      [Event.wait_for_key_press]⟩

/-- The config `main` works with once `parse_ini_file` has returned and the
verbose override has run. -/
def loaded_config (w : World) (argv : List String) (st : Args) : Config :=
  override_verbose argv.tail
    (parse_ini_file w false (st.config_file.getD DEFAULT_INI_FILE) st.config).2.1

/-- The part of `main` after the arguments (or the menus) have been read. -/
def main_after_args (w : World) (argv : List String) (st : Args) : Option Outcome :=
  match st.command with
  | none => some ⟨1, [Event.print_usage (argv.headD "")]⟩
  | some command =>
    let parsed := parse_ini_file w false (st.config_file.getD DEFAULT_INI_FILE) st.config
    if parsed.1 ≠ 0 then some ⟨1, Event.print_version w.version_str :: parsed.2.2⟩
    else
      let config := loaded_config w argv st
      let lf := (init_log_file w config.topic command).1
      let head :=
        Event.print_version w.version_str :: parsed.2.2 ++
          (init_log_file w config.topic command).2 ++ print_config lf config
      match validate_mtls config with
      | some text =>
        some ⟨1,
          head ++ log_message lf 1 "ERROR" text ++ close_log_file lf ++
          [Event.wait_for_key_press]⟩
      | none =>
        match run_client w lf st config with
        | none => none
        | some out =>
          some ⟨out.exit_code,
            head ++ (if st.is_consumer then [Event.install_signal_handlers] else []) ++
            out.trace⟩

/-- The first part of `main`, which reads the invocation from the menus
(`argc == 1`) or from the arguments: `main` returns there (left), or goes on
with the events so far and its locals (right); `none` when a menu never
returns. -/
def read_invocation (w : World) (argv : List String) : Option (Outcome ⊕ (List Event × Args)) :=
  if argv.length = 1 then
    match run_tui w with
    | none => none
    | some (ret, tui_ini_file, tui_mode, events) =>
      if ret = 0 then some (Sum.inl ⟨0, events⟩)
      else if tui_mode = 1 then
        some (Sum.inr (events,
          { Args.initial with
            config_file := some tui_ini_file, is_producer := true, command := some "produce" }))
      else if tui_mode = 2 then
        some (Sum.inr (events,
          { Args.initial with
            config_file := some tui_ini_file, is_consumer := true, command := some "consume" }))
      else some (Sum.inr (events, { Args.initial with config_file := some tui_ini_file }))
  else
    match parse_args (argv.headD "") w.version_str argv.tail Args.initial with
    | Sum.inl out => some (Sum.inl out)
    | Sum.inr st => some (Sum.inr ([], st))

/-- `main(argc, argv)` with `argc = argv.length`: the outcome, or `none` when
the run never ends (a menu at end of input, or the poll loop still polling
after the last recorded poll result). -/
def main (w : World) (argv : List String) : Option Outcome :=
  match read_invocation w argv with
  | none => none
  | some (Sum.inl out) => some out
  | some (Sum.inr (events, st)) =>
    match main_after_args w argv st with
    | none => none
    | some out => some ⟨out.exit_code, events ++ out.trace⟩

/-! ## Reading a trace -/

/-- Calls of the client library on a configuration object or on a handle:
everything `create_producer`, `create_consumer`, `produce_messages`,
`consume_messages` and the teardown do through the library. -/
def Event.is_client_call : Event → Bool
  | Event.conf_new => true
  | Event.conf_set _ _ _ => true
  | Event.conf_set_dr_msg_cb => true
  | Event.conf_set_callback_arg => true
  | Event.conf_destroy => true
  | Event.kafka_new _ _ => true
  | Event.producev _ _ _ _ => true
  | Event.kafka_poll _ => true
  | Event.flush _ _ => true
  | Event.subscribe _ _ _ => true
  | Event.consumer_poll _ => true
  | Event.offset_store _ _ _ => true
  | Event.message_destroy => true
  | Event.consumer_close => true
  | Event.kafka_destroy => true
  | _ => false

/-- Library calls that only `produce_messages` and `consume_messages` make. -/
def Event.is_run_call : Event → Bool
  | Event.producev _ _ _ _ => true
  | Event.kafka_poll _ => true
  | Event.flush _ _ => true
  | Event.subscribe _ _ _ => true
  | Event.consumer_poll _ => true
  | Event.offset_store _ _ _ => true
  | Event.message_destroy => true
  | _ => false

/-- The call `rd_kafka_producev`. -/
def Event.is_producev : Event → Bool
  | Event.producev _ _ _ _ => true
  | _ => false

/-- A call of `rd_kafka_conf_set` on the property `acks`. -/
def Event.sets_acks : Event → Bool
  | Event.conf_set name _ _ => name = "acks"
  | _ => false

/-- Log lines of level `ERROR`. -/
def Event.is_error_log : Event → Bool
  | Event.log level _ _ => level = "ERROR"
  | _ => false

/-- The call `rd_kafka_new`. -/
def Event.is_kafka_new : Event → Bool
  | Event.kafka_new _ _ => true
  | _ => false

/-- What `create_producer` and `create_consumer` may do for a config: log
lines, and calls on the configuration object in which certificate
verification is touched only to set it to `false` under a nonzero skip flag,
the security protocol is set only to `SSL`, the CA, certificate and key
locations only to the configured values, the key password only to the
configured non-empty password, and `acks` only to the configured
`producer_ack`. -/
def Event.is_setup (config : Config) (lf : Bool) : Event → Prop
  | Event.log _ _ to_file => to_file = lf
  | Event.conf_new => True
  | Event.conf_set name value _ =>
    (name = "enable.ssl.certificate.verification" →
      value = "false" ∧ config.ssl_skip_certificate_verify ≠ 0) ∧
    (name = "security.protocol" → value = "SSL") ∧
    (name = "ssl.ca.location" → value = config.ssl_ca_location) ∧
    (name = "ssl.certificate.location" → value = config.ssl_certificate_location) ∧
    (name = "ssl.key.location" → value = config.ssl_key_location) ∧
    (name = "ssl.key.password" →
      value = config.ssl_key_password ∧ config.ssl_key_password.length > 0) ∧
    (name = "acks" → value = fmt_d config.producer_ack)
  | Event.conf_set_dr_msg_cb => True
  | Event.conf_set_callback_arg => True
  | Event.conf_destroy => True
  | Event.kafka_new _ _ => True
  | _ => False

/-- The events of a trace that come before the first `rd_kafka_new`. -/
def before_new (trace : List Event) : List Event :=
  trace.takeWhile (fun e => !e.is_kafka_new)

/-- The field the mTLS validation of `main` reports, in the order CA
location, certificate location, key location. -/
def first_missing_field (config : Config) : String :=
  if config.ssl_ca_location.length = 0 then "ssl_ca_location"
  else if config.ssl_certificate_location.length = 0 then "ssl_certificate_location"
  else "ssl_key_location"

/-- The event `x` comes before `rd_kafka_new` whenever the trace reaches
`rd_kafka_new`. -/
def set_before_new (x : Event) (trace : List Event) : Prop :=
  (∃ e ∈ trace, e.is_kafka_new = true) → x ∈ before_new trace

/-- The successful call that disables certificate verification. -/
def verification_disabled : Event :=
  Event.conf_set "enable.ssl.certificate.verification" "false" RD_KAFKA_CONF_OK

/-- The WARNING line about disabled certificate verification. -/
def disabled_warning (lf : Bool) : Event :=
  Event.log "WARNING" "SSL certificate verification is DISABLED - use only for testing!" lf

/-- A trace that disables certificate verification also carries the WARNING. -/
def warns_when_disabled (lf : Bool) (trace : List Event) : Prop :=
  verification_disabled ∈ trace → disabled_warning lf ∈ trace

/-- The create function for a mode: `create_producer` or `create_consumer`. -/
def create_client (producer : Bool) (w : World) (lf : Bool) (config : Config) : Attempt :=
  if producer then create_producer w lf config else create_consumer w lf config

/-- The lines the `fgets` loop of `parse_ini_file` reads from a text, with
the fuel of `parse_ini_lines`. -/
def fgets_lines : Nat → List Char → List (List Char)
  | 0, _ => []
  | fuel + 1, unread =>
    match fgets MAX_LINE_LENGTH unread with
    | none => []
    | some (line, rest) => line :: fgets_lines fuel rest

/-- The lines of a text, each with the newline that ends it; the last one
has none when the text does not end in a newline. -/
def text_lines : List Char → List (List Char)
  | [] => []
  | c :: cs =>
    if c = Char.ofNat 10 then [c] :: text_lines cs
    else
      match text_lines cs with
      | [] => [[c]]
      | line :: rest => (c :: line) :: rest

/-- The keys a config file has: the key of every line of the text that is a
key-value line (after comment removal, not empty, no section header, with
an `=`). -/
def line_keys (content : String) : List String :=
  (text_lines content.data).filterMap (fun line => (split_key_value line).map Prod.fst)

/-- The keys `parse_ini_file` finds in a config file: the key of every piece
that one `fgets` call reads (a line, or a part of a line that is longer than
the buffer) and that the loop does not skip. -/
def ini_keys (content : String) : List String :=
  (fgets_lines content.length content.data).filterMap
    (fun line => (split_key_value line).map Prod.fst)

/-- The call `rd_kafka_consumer_poll`. -/
def Event.is_consumer_poll : Event → Bool
  | Event.consumer_poll _ => true
  | _ => false

/-- The call `rd_kafka_offset_store`. -/
def Event.is_offset_store : Event → Bool
  | Event.offset_store _ _ _ => true
  | _ => false

/-- The message of a poll when it is a successfully received one (a
message with no error), else `none`: timeouts and error events, the
partition end among them, carry none. -/
def PollStep.received (p : PollStep) : Option Message :=
  match p.msg with
  | none => none
  | some m => if m.err = 0 then some m else none

/-- The successfully received messages of a sequence of polls, in order. -/
def received (polls : List PollStep) : List Message :=
  polls.filterMap PollStep.received

/-- The (topic, partition, offset) triples a trace stores, in order. -/
def stored_offsets (trace : List Event) : List (String × Int × Int) :=
  trace.filterMap (fun e =>
    match e with
    | Event.offset_store topic partition offset => some (topic, partition, offset)
    | _ => none)

/-- The number of `rd_kafka_consumer_poll` calls in a trace. -/
def poll_calls (trace : List Event) : Nat :=
  (trace.filter Event.is_consumer_poll).length

/-- A poll that reports the end of a partition. -/
def eof_message : Message :=
  { err := RD_KAFKA_RESP_ERR__PARTITION_EOF, topic := "test-topic", partition := 0,
    offset := 7, key := "", payload := "", errstr := "Broker: No more messages" }

/-- A successfully received message at the given offset. -/
def good_message (offset : Int) : Message :=
  { err := 0, topic := "test-topic", partition := 0, offset := offset, key := "",
    payload := "hello", errstr := "" }

/-- Polls without signals: a timeout, a message, the partition end, an
error, a second message and a third one. -/
def sample_polls : List PollStep :=
  [⟨none, none⟩, ⟨none, some (good_message 5)⟩, ⟨none, some eof_message⟩,
   ⟨none, some { eof_message with err := -195, errstr := "Local: Broker transport failure" }⟩,
   ⟨none, some (good_message 6)⟩, ⟨none, some (good_message 7)⟩]

/-- The text `log_message` prints on the console for a line it emits, with
the timestamp `strftime` gave it: `printf("[%s] [%s] ", timestamp, level)`,
the formatted text, and a newline. -/
def console_line (timestamp : String) : Event → Option String
  | Event.log level text _ => some ("[" ++ timestamp ++ "] [" ++ level ++ "] " ++ text ++ "\n")
  | _ => none

/-- The text `log_message` writes to the log file for a line it emits: the
same `fprintf` calls with the same timestamp, made only when the file is
open. -/
def file_line (timestamp : String) : Event → Option String
  | Event.log level text true =>
    some ("[" ++ timestamp ++ "] [" ++ level ++ "] " ++ text ++ "\n")
  | _ => none

/-- The arguments after the program name hold a `-h` or a `-V` that the
left-to-right scan reaches: one that is not taken as the operand of a `-c`
or `-m` before it. -/
def reaches_help : List String → Bool
  | [] => false
  | arg :: rest =>
    if arg = "-h" ∨ arg = "-V" then true
    else if arg = "-c" ∨ arg = "-m" then
      match rest with
      | [] => false
      | _ :: rest2 => reaches_help rest2
    else reaches_help rest

/-- Events that load a config file, open the log file or call the client library. -/
def Event.is_startup_work : Event → Bool
  | Event.log _ _ _ => true
  | Event.mkdir_logs => true
  | Event.open_log _ _ => true
  | e => e.is_client_call

/-- The call `rd_kafka_flush`. -/
def Event.is_flush : Event → Bool
  | Event.flush _ _ => true
  | _ => false

/-- A call of `rd_kafka_producev` that returned no error. -/
def Event.is_produced : Event → Bool
  | Event.producev _ _ _ err => err = 0
  | _ => false

/-- An ASCII letter, a digit, `-` or `_`: the characters a sanitized file
name keeps. -/
def is_filename_char (c : Char) : Bool :=
  c.isAlpha || c.isDigit || c == '-' || c == '_'

/-- The key and value of every line of a config file that `parse_ini_file`
does not skip, in order. -/
def ini_entries (content : String) : List (String × List Char) :=
  (fgets_lines content.length content.data).filterMap split_key_value

/-- The value a config file gives a key: that of the last line with the key. -/
def ini_value (key : String) (content : String) : Option (List Char) :=
  (((ini_entries content).filter (fun kv => kv.1 = key)).getLast?).map Prod.snd

/-- The keys `parse_ini_file` finds in the file a path names (those of the
pieces `fgets` reads); none when it cannot be opened. -/
def file_keys (w : World) (filename : String) : List String :=
  match w.read_file filename with
  | none => []
  | some content => ini_keys content

/-- The 17 key names `parse_ini_file` compares a key with. -/
def recognised_keys : List String :=
  ["brokers", "topic", "security_protocol", "ssl_ca_location",
   "ssl_certificate_location", "ssl_key_location", "ssl_key_password",
   "ssl_skip_certificate_verify", "producer_batch_size", "producer_linger_ms",
   "producer_ack", "consumer_group_id", "consumer_auto_offset_reset",
   "consumer_session_timeout_ms", "consumer_enable_auto_commit", "verbose", "message_count"]

/-- The built-in defaults, as the specification of the config loader lists them. -/
def default_config : Config :=
  { brokers := "localhost:9092", topic := "test-topic", security_protocol := "SSL",
    ssl_ca_location := "", ssl_certificate_location := "", ssl_key_location := "",
    ssl_key_password := "", ssl_skip_certificate_verify := 0, producer_batch_size := 16384,
    producer_linger_ms := 5, producer_ack := 1, consumer_group_id := "kafka-cli-consumer",
    consumer_auto_offset_reset := "earliest", consumer_session_timeout_ms := 45000,
    consumer_enable_auto_commit := "true", verbose := 0, message_count := 10 }

/-- The field of a config that a key names: a string or an `int`; `none`
for a name that is not a key. -/
def Config.field (c : Config) (key : String) : Option (String ⊕ Int) :=
  if key = "brokers" then some (Sum.inl c.brokers)
  else if key = "topic" then some (Sum.inl c.topic)
  else if key = "security_protocol" then some (Sum.inl c.security_protocol)
  else if key = "ssl_ca_location" then some (Sum.inl c.ssl_ca_location)
  else if key = "ssl_certificate_location" then some (Sum.inl c.ssl_certificate_location)
  else if key = "ssl_key_location" then some (Sum.inl c.ssl_key_location)
  else if key = "ssl_key_password" then some (Sum.inl c.ssl_key_password)
  else if key = "ssl_skip_certificate_verify" then some (Sum.inr c.ssl_skip_certificate_verify)
  else if key = "producer_batch_size" then some (Sum.inr c.producer_batch_size)
  else if key = "producer_linger_ms" then some (Sum.inr c.producer_linger_ms)
  else if key = "producer_ack" then some (Sum.inr c.producer_ack)
  else if key = "consumer_group_id" then some (Sum.inl c.consumer_group_id)
  else if key = "consumer_auto_offset_reset" then some (Sum.inl c.consumer_auto_offset_reset)
  else if key = "consumer_session_timeout_ms" then some (Sum.inr c.consumer_session_timeout_ms)
  else if key = "consumer_enable_auto_commit" then some (Sum.inl c.consumer_enable_auto_commit)
  else if key = "verbose" then some (Sum.inr c.verbose)
  else if key = "message_count" then some (Sum.inr c.message_count)
  else none

/-- The text of a line up to, not including, its first `;` or `#`. -/
def before_comment (line : List Char) : List Char :=
  line.takeWhile (fun c => c ≠ ';' ∧ c ≠ '#')

/-- The text `trimmed` of the loop body of `parse_ini_file`: the line after
`/* Remove comments */` and `/* Trim whitespace */`. -/
def trimmed_line (line : List Char) : List Char :=
  trim_whitespace (cut_at '#' (cut_at ';' (c_str line)))

/-- The keys whose branch in `parse_ini_file` stores `atoi(value)`. -/
def int_keys : List String :=
  ["ssl_skip_certificate_verify", "producer_batch_size", "producer_linger_ms",
   "producer_ack", "consumer_session_timeout_ms", "verbose", "message_count"]

/-- What the branch of a recognised key stores for a value: `atoi(value)` in
an `int` field, the `strncpy` of the value in a string field. -/
def field_of_value (key : String) (value : List Char) : String ⊕ Int :=
  if key ∈ int_keys then Sum.inr (atoi (String.mk value)) else Sum.inl (strncpy_field value)

/-- The flags and the command of `main` are set together: a command is
known only when `is_producer` or `is_consumer` is set. -/
def Args.consistent (st : Args) : Prop :=
  st.command.isSome = true → (st.is_producer = true ∨ st.is_consumer = true)

/-! ## Concrete inputs -/

/-- A world with a broker that cannot be reached: every produce call, the
flush and the subscription fail.  `plain.ini` and `nocount.ini` select PLAINTEXT
(the second without a message count), `ack_all.ini` asks for
`producer_ack=all`, `mtls.ini` sets the three certificate paths and
`nocert.ini` leaves out the certificate. -/
def sample_world : World :=
  { read_file := fun path =>
      if path = "plain.ini" then some "security_protocol = PLAINTEXT\nmessage_count = 2\n"
      else if path = "ack_all.ini" then
        some "security_protocol = PLAINTEXT\nproducer_ack=all\nmessage_count = 1\n"
      else if path = "mtls.ini" then
        some ("[kafka]\nssl_ca_location = ca.pem\nssl_certificate_location = client.pem\n" ++
          "ssl_key_location = client.key\nssl_key_password = secret\n" ++
          "ssl_skip_certificate_verify = 1\n")
      else if path = "nocert.ini" then
        some "ssl_ca_location = ca.pem\nssl_key_location = client.key\n"
      else if path = "nocount.ini" then some "security_protocol = PLAINTEXT\n"
      else none
    log_file_opens := fun _ => true
    datetime := "20240102_030405"
    dir_entries := none
    keys := []
    version_str := "2.3.0"
    conf_set_res := fun _ _ => 0
    conf_set_errstr := fun _ _ => ""
    new_ok := true
    new_errstr := ""
    err2str := fun _ => "Local: Broker transport failure"
    producev_err := fun _ => -195
    time_at := fun _ => 1700000000
    poll_reports := fun _ => []
    flush_reports := []
    flush_err := -185
    subscribe_err := -195
    polls := [] }

/-- The sample world with a library that refuses to create a client. -/
def no_client_world : World :=
  { sample_world with new_ok := false, new_errstr := "Failed to create thread" }

/-- The sample world with a broker that answers: the subscription succeeds
and the polls are `sample_polls`. -/
def consumer_world : World :=
  { sample_world with subscribe_err := 0, polls := sample_polls }

/-- A world with a broker that answers and a config file `forever.ini` that
asks for an unbounded run (`message_count = 0`): the first poll returns a
message and SIGINT (2) arrives during the second poll, which times out. -/
def interrupted_world : World :=
  { sample_world with
    read_file := fun path =>
      if path = "forever.ini" then some "security_protocol = PLAINTEXT\nmessage_count = 0\n"
      else none
    subscribe_err := 0
    polls := [⟨none, some (good_message 5)⟩, ⟨some 2, none⟩] }

/-- A config file of one line: a comment of 1023 characters (`#` and 1022
blanks) with `text` after it on the same line. -/
def long_comment (text : String) : String :=
  String.mk ('#' :: List.replicate 1022 ' ') ++ text ++ "\n"

/-- The sample world with two config files of one long comment line each:
`skip.ini` with `ssl_skip_certificate_verify = 1` inside the comment and
`topic.ini` with `topic = hidden` inside it. -/
def long_comment_world : World :=
  { sample_world with
    read_file := fun path =>
      if path = "skip.ini" then some (long_comment "ssl_skip_certificate_verify = 1")
      else if path = "topic.ini" then some (long_comment "topic = hidden")
      else none }

/-- A consumer config that asks for two messages. -/
def consumer_config : Config :=
  { set_defaults Config.zeroed with message_count := 2 }

/-- A producer config that asks for two messages. -/
def producer_config : Config :=
  { set_defaults Config.zeroed with message_count := 2 }

/-- A world in which every produce call is accepted and the final flush
times out (`RD_KAFKA_RESP_ERR__TIMED_OUT`, -185). -/
def flush_timeout_world : World :=
  { sample_world with producev_err := fun _ => 0, flush_err := -185 }

/-- A world in which the first produce call fails and the others are accepted. -/
def first_fails_world : World :=
  { sample_world with
    producev_err := fun i => if i = 0 then -184 else 0
    err2str := fun _ => "Local: Queue full"
    flush_err := 0 }

/-- A topic of 300 characters. -/
def long_topic : String := String.mk (List.replicate 300 'a')

/-! # Properties -/

/-! ## Lists of events -/

theorem all_append {P : Event → Prop} {a b : List Event} (ha : ∀ e ∈ a, P e)
    (hb : ∀ e ∈ b, P e) : ∀ e ∈ a ++ b, P e := by
  intro e he
  rcases List.mem_append.mp he with h | h
  · exact ha e h
  · exact hb e h

theorem all_cons {P : Event → Prop} {x : Event} {l : List Event} (hx : P x)
    (hl : ∀ e ∈ l, P e) : ∀ e ∈ x :: l, P e := by
  intro e he
  rcases List.mem_cons.mp he with h | h
  · exact h ▸ hx
  · exact hl e h

theorem all_nil {P : Event → Prop} : ∀ e ∈ ([] : List Event), P e := by
  intro e he
  exact absurd he (List.not_mem_nil e)

theorem filter_eq_nil_of_forall (p : Event → Bool) (l : List Event)
    (h : ∀ e ∈ l, p e = false) : l.filter p = [] := by
  rw [List.filter_eq_nil_iff]
  intro e he
  simp [h e he]

theorem log_message_all {P : Event → Prop} (lf : Bool) (v : Int) (level text : String)
    (h : P (Event.log level text lf)) : ∀ e ∈ log_message lf v level text, P e := by
  unfold log_message
  split
  · exact all_nil
  · exact all_cons h all_nil

theorem log_message_one (lf : Bool) (level text : String) :
    log_message lf 1 level text = [Event.log level text lf] := by
  simp [log_message]

theorem not_client_not_run (e : Event) (h : e.is_client_call = false) :
    e.is_run_call = false := by
  cases e <;> simp_all [Event.is_client_call, Event.is_run_call]

theorem is_setup_not_run (c : Config) (lf : Bool) (e : Event) (h : e.is_setup c lf) :
    e.is_run_call = false := by
  cases e <;> simp_all [Event.is_setup, Event.is_run_call]

/-! ## The parts of main before the client is created -/

theorem parse_ini_file_ret (w : World) (lf : Bool) (f : String) (c : Config) :
    (parse_ini_file w lf f c).1 = 0 := by
  unfold parse_ini_file
  split <;> rfl

theorem parse_ini_file_events (w : World) (lf : Bool) (f : String) (c : Config) :
    ∀ e ∈ (parse_ini_file w lf f c).2.2,
      e.is_client_call = false ∧ e.is_error_log = false := by
  unfold parse_ini_file
  split <;> simp [log_message_one, Event.is_client_call, Event.is_error_log]

theorem init_log_file_events (w : World) (topic mode : String) :
    ∀ e ∈ (init_log_file w topic mode).2,
      e.is_client_call = false ∧ e.is_error_log = false := by
  simp [init_log_file, Event.is_client_call, Event.is_error_log]

theorem print_config_events (lf : Bool) (c : Config) :
    ∀ e ∈ print_config lf c, e.is_client_call = false ∧ e.is_error_log = false := by
  simp [print_config, log_message_one, Event.is_client_call, Event.is_error_log]

theorem close_log_file_events (lf : Bool) :
    ∀ e ∈ close_log_file lf, e.is_client_call = false ∧ e.is_error_log = false := by
  unfold close_log_file
  split <;> simp [Event.is_client_call, Event.is_error_log]

theorem run_tui_events (w : World) (ret : Int) (f : String) (m : Int) (events : List Event)
    (h : run_tui w = some (ret, f, m, events)) :
    events = [] ∨ events = [Event.tui_goodbye] ∨ events = [Event.tui_no_ini_files] := by
  unfold run_tui at h
  split at h
  · exact absurd h (by simp)
  · split at h
    · simp only [Option.some.injEq, Prod.mk.injEq] at h
      exact Or.inr (Or.inl h.2.2.2.symm)
    · simp only at h
      split at h
      · simp only [Option.some.injEq, Prod.mk.injEq] at h
        exact Or.inr (Or.inr h.2.2.2.symm)
      · split at h
        · simp only [Option.some.injEq, Prod.mk.injEq] at h
          exact Or.inl h.2.2.2.symm
        · split at h
          · exact absurd h (by simp)
          · split at h <;>
            · simp only [Option.some.injEq, Prod.mk.injEq] at h
              exact Or.inl h.2.2.2.symm

theorem parse_args_consistent (program version_str : String) (args : List String) (st : Args) :
    st.consistent → ∀ st2, parse_args program version_str args st = Sum.inr st2 →
      st2.consistent := by
  induction args, st using parse_args.induct program version_str <;> intro hst st2 h
  all_goals unfold parse_args at h
  all_goals simp only [*, if_true, if_false, reduceCtorEq, Sum.inr.injEq] at h
  all_goals first
    | exact h ▸ hst
    | (subst h; simp [Args.consistent])
    | (rename_i ih; exact ih hst st2 h)
    | (rename_i ih; exact ih (by simp [Args.consistent]) st2 h)

/-- What `main` knows once the invocation is read: the events so far are
menu output only, and the command and the mode flags agree. -/
theorem read_invocation_spec (w : World) (argv : List String) (events : List Event)
    (st : Args) (h : read_invocation w argv = some (Sum.inr (events, st))) :
    (∀ e ∈ events, e.is_client_call = false ∧ e.is_error_log = false) ∧ st.consistent := by
  unfold read_invocation at h
  split at h
  · split at h
    · exact absurd h (by simp)
    · rename_i ret f m evs hrun
      have hev := run_tui_events w ret f m evs hrun
      have hboth : events = evs ∧ st.consistent := by
        split at h
        · exact absurd h (by simp)
        · split at h
          · simp only [Option.some.injEq, Sum.inr.injEq, Prod.mk.injEq] at h
            exact ⟨h.1.symm, by rw [← h.2]; simp [Args.consistent]⟩
          · split at h <;>
            · simp only [Option.some.injEq, Sum.inr.injEq, Prod.mk.injEq] at h
              exact ⟨h.1.symm, by rw [← h.2]; simp [Args.consistent, Args.initial]⟩
      obtain ⟨hevents, hcons⟩ := hboth
      subst hevents
      refine ⟨?_, hcons⟩
      rcases hev with h1 | h1 | h1 <;> subst h1 <;>
        simp [Event.is_client_call, Event.is_error_log]
  · split at h
    · exact absurd h (by simp)
    · rename_i st2 hparse
      simp only [Option.some.injEq, Sum.inr.injEq, Prod.mk.injEq] at h
      rw [← h.1, ← h.2]
      exact ⟨all_nil, parse_args_consistent _ _ _ _ (by simp [Args.consistent, Args.initial])
        st2 hparse⟩

theorem validate_mtls_missing (c : Config) (hssl : c.security_protocol = "SSL")
    (hmissing : c.ssl_ca_location.length = 0 ∨ c.ssl_certificate_location.length = 0 ∨
      c.ssl_key_location.length = 0) :
    validate_mtls c =
      some ("mTLS is enabled but " ++ first_missing_field c ++ " is not set") := by
  unfold validate_mtls first_missing_field
  rw [if_pos hssl]
  by_cases h1 : c.ssl_ca_location.length = 0
  · simp only [h1, if_true]; rfl
  · by_cases h2 : c.ssl_certificate_location.length = 0
    · simp only [h1, h2, if_true, if_false]; rfl
    · have h3 : c.ssl_key_location.length = 0 := by tauto
      simp only [h1, h2, h3, if_true, if_false]; rfl

theorem validate_mtls_passes (c : Config) (hssl : c.security_protocol = "SSL")
    (h : validate_mtls c = none) :
    c.ssl_ca_location.length > 0 ∧ c.ssl_certificate_location.length > 0 ∧
      c.ssl_key_location.length > 0 := by
  unfold validate_mtls at h
  rw [if_pos hssl] at h
  by_cases h1 : c.ssl_ca_location.length = 0
  · simp [h1] at h
  · by_cases h2 : c.ssl_certificate_location.length = 0
    · simp [h1, h2] at h
    · by_cases h3 : c.ssl_key_location.length = 0
      · simp [h1, h2, h3] at h
      · omega

/-- The events of `main` from `print_version` to `print_config`. -/
theorem main_head_events (w : World) (argv : List String) (st : Args) (command : String) :
    ∀ e ∈ Event.print_version w.version_str ::
        (parse_ini_file w false (st.config_file.getD DEFAULT_INI_FILE) st.config).2.2 ++
        (init_log_file w (loaded_config w argv st).topic command).2 ++
        print_config (init_log_file w (loaded_config w argv st).topic command).1
          (loaded_config w argv st),
      e.is_client_call = false ∧ e.is_error_log = false :=
  all_append (all_append (all_cons ⟨rfl, rfl⟩ (parse_ini_file_events _ _ _ _))
    (init_log_file_events _ _ _)) (print_config_events _ _)

/-! ## Every event of a create function is a setup event -/

theorem emit_all {P : Event → Prop} {events : List Event} {rest : Attempt}
    (h1 : ∀ e ∈ events, P e) (h2 : ∀ e ∈ rest.2, P e) : ∀ e ∈ (emit events rest).2, P e :=
  all_append h1 h2

theorem checked_conf_set_all {P : Event → Prop} (w : World) (lf : Bool)
    (name value failure : String) {rest : Attempt}
    (hset : P (Event.conf_set name value (w.conf_set_res name value)))
    (hlog : ∀ text, P (Event.log "ERROR" text lf)) (hd : P Event.conf_destroy)
    (hrest : ∀ e ∈ rest.2, P e) :
    ∀ e ∈ (checked_conf_set w lf name value failure rest).2, P e := by
  unfold checked_conf_set
  split
  · exact all_cons hset (all_append (log_message_all _ _ _ _ (hlog _)) (all_cons hd all_nil))
  · exact emit_all (all_cons hset all_nil) hrest

theorem optional_setting_all {P : Event → Prop} (cond : Bool) (w : World) (lf : Bool)
    (name value failure : String) {success_log : List Event} {rest : Attempt}
    (hset : cond = true → P (Event.conf_set name value (w.conf_set_res name value)))
    (hlog : ∀ text, P (Event.log "ERROR" text lf)) (hd : P Event.conf_destroy)
    (hsuccess : ∀ e ∈ success_log, P e) (hrest : ∀ e ∈ rest.2, P e) :
    ∀ e ∈ (optional_setting cond w lf name value failure success_log rest).2, P e := by
  unfold optional_setting
  split
  · rename_i hc
    exact checked_conf_set_all _ _ _ _ _ (hset hc) hlog hd (emit_all hsuccess hrest)
  · exact hrest

theorem kafka_new_setup (w : World) (lf : Bool) (c : Config) (producer : Bool)
    (failure success : String) :
    ∀ e ∈ (kafka_new w lf producer failure success).2, e.is_setup c lf := by
  unfold kafka_new
  split
  · exact all_cons trivial (log_message_all _ _ _ _ rfl)
  · exact all_cons trivial (all_append (log_message_all _ _ _ _ rfl) (all_cons trivial all_nil))

theorem configure_debug_all {P : Event → Prop} (w : World) (lf : Bool) (c : Config)
    (hset : ∀ value res, P (Event.conf_set "debug" value res) ∧
      P (Event.conf_set "log_level" value res))
    (hlog : ∀ text, P (Event.log "WARNING" text lf)) :
    ∀ e ∈ configure_debug w lf c, P e := by
  unfold configure_debug warned_conf_set
  split
  · refine all_append (all_cons (hset _ _).1 ?_) (all_cons (hset _ _).2 ?_) <;>
    · split
      · exact log_message_all _ _ _ _ (hlog _)
      · exact all_nil
  · exact all_nil

theorem configure_debug_setup (w : World) (lf : Bool) (c : Config) :
    ∀ e ∈ configure_debug w lf c, e.is_setup c lf :=
  configure_debug_all w lf c (fun _ _ => by simp [Event.is_setup]) (fun _ => rfl)

theorem configure_mtls_setup (w : World) (lf : Bool) (c : Config) {rest : Attempt}
    (hrest : ∀ e ∈ rest.2, e.is_setup c lf) :
    ∀ e ∈ (configure_mtls w lf c rest).2, e.is_setup c lf := by
  unfold configure_mtls
  split
  · refine emit_all (log_message_all _ _ _ _ rfl) ?_
    refine checked_conf_set_all _ _ _ _ _ (by simp [Event.is_setup]) (fun _ => rfl) trivial ?_
    refine optional_setting_all _ _ _ _ _ _ (fun _ => by simp [Event.is_setup]) (fun _ => rfl)
      trivial (log_message_all _ _ _ _ rfl) ?_
    refine optional_setting_all _ _ _ _ _ _ (fun _ => by simp [Event.is_setup]) (fun _ => rfl)
      trivial (log_message_all _ _ _ _ rfl) ?_
    refine optional_setting_all _ _ _ _ _ _ (fun _ => by simp [Event.is_setup]) (fun _ => rfl)
      trivial (log_message_all _ _ _ _ rfl) ?_
    refine optional_setting_all _ _ _ _ _ _ (fun h => ?_) (fun _ => rfl)
      trivial (log_message_all _ _ _ _ rfl) ?_
    · simpa [Event.is_setup] using h
    refine optional_setting_all _ _ _ _ _ _ (fun h => ?_) (fun _ => rfl)
      trivial (log_message_all _ _ _ _ rfl) hrest
    simpa [Event.is_setup] using h
  · exact hrest

theorem create_producer_setup (w : World) (lf : Bool) (c : Config) :
    ∀ e ∈ (create_producer w lf c).2, e.is_setup c lf := by
  unfold create_producer
  refine emit_all (all_cons trivial all_nil) ?_
  refine emit_all (configure_debug_setup w lf c) ?_
  refine checked_conf_set_all _ _ _ _ _ (by simp [Event.is_setup]) (fun _ => rfl) trivial ?_
  refine configure_mtls_setup w lf c ?_
  refine emit_all ?_ (kafka_new_setup _ _ _ _ _ _)
  simp [unchecked_conf_set, Event.is_setup]

theorem create_consumer_setup (w : World) (lf : Bool) (c : Config) :
    ∀ e ∈ (create_consumer w lf c).2, e.is_setup c lf := by
  unfold create_consumer
  refine emit_all (all_cons trivial all_nil) ?_
  refine emit_all (configure_debug_setup w lf c) ?_
  refine checked_conf_set_all _ _ _ _ _ (by simp [Event.is_setup]) (fun _ => rfl) trivial ?_
  refine configure_mtls_setup w lf c ?_
  refine checked_conf_set_all _ _ _ _ _ (by simp [Event.is_setup]) (fun _ => rfl) trivial ?_
  refine checked_conf_set_all _ _ _ _ _ (by simp [Event.is_setup]) (fun _ => rfl) trivial ?_
  refine checked_conf_set_all _ _ _ _ _ (by simp [Event.is_setup]) (fun _ => rfl) trivial ?_
  refine checked_conf_set_all _ _ _ _ _ (by simp [Event.is_setup]) (fun _ => rfl) trivial ?_
  exact emit_all (log_message_all _ _ _ _ rfl) (kafka_new_setup _ _ _ _ _ _)

/-! ## What comes before rd_kafka_new -/

/-! ## The warning that goes with disabled verification -/

theorem emit_warns {lf : Bool} {events : List Event} {rest : Attempt}
    (h1 : verification_disabled ∉ events) (h2 : warns_when_disabled lf rest.2) :
    warns_when_disabled lf (emit events rest).2 := by
  intro h
  rcases List.mem_append.mp h with h | h
  · exact absurd h h1
  · exact List.mem_append_right _ (h2 h)

theorem log_message_not_disabled (lf : Bool) (v : Int) (level text : String) :
    verification_disabled ∉ log_message lf v level text := by
  intro h
  have := log_message_all (P := fun e => e ≠ verification_disabled) lf v level text
    (by simp [verification_disabled]) _ h
  exact this rfl

theorem checked_conf_set_warns {w : World} {lf : Bool} {name value failure : String}
    {rest : Attempt}
    (hname : name ≠ "enable.ssl.certificate.verification")
    (hrest : warns_when_disabled lf rest.2) :
    warns_when_disabled lf (checked_conf_set w lf name value failure rest).2 := by
  unfold checked_conf_set
  split
  · intro h
    simp only [List.mem_cons, List.mem_append, List.mem_singleton, List.not_mem_nil,
      or_false] at h
    rcases h with h | h | h
    · simp only [verification_disabled, Event.conf_set.injEq] at h
      exact absurd h.1.symm hname
    · exact absurd h (log_message_not_disabled _ _ _ _)
    · simp [verification_disabled] at h
  · refine emit_warns ?_ hrest
    simp only [List.mem_singleton, verification_disabled, Event.conf_set.injEq, not_and]
    intro h
    exact absurd h.symm hname

theorem optional_setting_warns {cond : Bool} {w : World} {lf : Bool}
    {name value failure : String} {success_log : List Event} {rest : Attempt}
    (hname : name ≠ "enable.ssl.certificate.verification")
    (hlog : verification_disabled ∉ success_log)
    (hrest : warns_when_disabled lf rest.2) :
    warns_when_disabled lf
      (optional_setting cond w lf name value failure success_log rest).2 := by
  unfold optional_setting
  split
  · exact checked_conf_set_warns hname (emit_warns hlog hrest)
  · exact hrest

/-- The block that disables verification: when the call succeeds, the WARNING follows. -/
theorem skip_verify_warns {cond : Bool} {w : World} {lf : Bool} {failure : String}
    {rest : Attempt} (hrest : warns_when_disabled lf rest.2) :
    warns_when_disabled lf
      (optional_setting cond w lf "enable.ssl.certificate.verification" "false" failure
        (log_message lf 1 "WARNING"
          "SSL certificate verification is DISABLED - use only for testing!") rest).2 := by
  unfold optional_setting
  split
  · unfold checked_conf_set
    split
    · rename_i hres
      intro h
      simp only [List.mem_cons, List.mem_append, List.mem_singleton, List.not_mem_nil,
        or_false] at h
      rcases h with h | h | h
      · simp only [verification_disabled, Event.conf_set.injEq] at h
        exact absurd h.2.2.symm hres
      · exact absurd h (log_message_not_disabled _ _ _ _)
      · simp [verification_disabled] at h
    · intro _
      simp [emit, log_message_one, disabled_warning]
  · exact hrest

theorem kafka_new_warns (w : World) (lf : Bool) (producer : Bool) (failure success : String) :
    warns_when_disabled lf (kafka_new w lf producer failure success).2 := by
  intro h
  have := kafka_new_setup w lf Config.zeroed producer failure success _ h
  simp [verification_disabled, Event.is_setup, Config.zeroed] at this

theorem configure_debug_not_disabled (w : World) (lf : Bool) (c : Config) :
    verification_disabled ∉ configure_debug w lf c := by
  intro h
  exact configure_debug_all (P := fun e => e ≠ verification_disabled) w lf c
    (fun _ _ => by simp [verification_disabled]) (fun _ => by simp [verification_disabled])
    _ h rfl

theorem configure_mtls_warns (w : World) (lf : Bool) (c : Config) {rest : Attempt}
    (hrest : warns_when_disabled lf rest.2) :
    warns_when_disabled lf (configure_mtls w lf c rest).2 := by
  unfold configure_mtls
  split
  · refine emit_warns (log_message_not_disabled _ _ _ _) ?_
    refine checked_conf_set_warns (by decide) ?_
    refine optional_setting_warns (by decide) (log_message_not_disabled _ _ _ _) ?_
    refine optional_setting_warns (by decide) (log_message_not_disabled _ _ _ _) ?_
    refine optional_setting_warns (by decide) (log_message_not_disabled _ _ _ _) ?_
    refine optional_setting_warns (by decide) (log_message_not_disabled _ _ _ _) ?_
    exact skip_verify_warns hrest
  · exact hrest

theorem create_producer_warns (w : World) (lf : Bool) (c : Config) :
    warns_when_disabled lf (create_producer w lf c).2 := by
  unfold create_producer
  refine emit_warns (by simp [verification_disabled]) ?_
  refine emit_warns (configure_debug_not_disabled w lf c) ?_
  refine checked_conf_set_warns (by decide) ?_
  refine configure_mtls_warns w lf c ?_
  refine emit_warns ?_ (kafka_new_warns _ _ _ _ _)
  simp [unchecked_conf_set, verification_disabled]

theorem create_consumer_warns (w : World) (lf : Bool) (c : Config) :
    warns_when_disabled lf (create_consumer w lf c).2 := by
  unfold create_consumer
  refine emit_warns (by simp [verification_disabled]) ?_
  refine emit_warns (configure_debug_not_disabled w lf c) ?_
  refine checked_conf_set_warns (by decide) ?_
  refine configure_mtls_warns w lf c ?_
  refine checked_conf_set_warns (by decide) ?_
  refine checked_conf_set_warns (by decide) ?_
  refine checked_conf_set_warns (by decide) ?_
  refine checked_conf_set_warns (by decide) ?_
  exact emit_warns (log_message_not_disabled _ _ _ _) (kafka_new_warns _ _ _ _ _)

/-! ## What is set before rd_kafka_new -/

theorem before_new_append {l1 : List Event} (l2 : List Event)
    (h : ∀ e ∈ l1, e.is_kafka_new = false) : before_new (l1 ++ l2) = l1 ++ before_new l2 := by
  unfold before_new
  exact List.takeWhile_append_of_pos (fun e he => by simp [h e he])

theorem log_message_no_new (lf : Bool) (v : Int) (level text : String) :
    ∀ e ∈ log_message lf v level text, e.is_kafka_new = false :=
  log_message_all _ _ _ _ rfl

theorem emit_before_here {x : Event} {events : List Event} {rest : Attempt}
    (hno : ∀ e ∈ events, e.is_kafka_new = false) (hx : x ∈ events) :
    set_before_new x (emit events rest).2 := by
  intro _
  show x ∈ before_new (events ++ rest.2)
  rw [before_new_append _ hno]
  exact List.mem_append_left _ hx

theorem emit_before_rest {x : Event} {events : List Event} {rest : Attempt}
    (hno : ∀ e ∈ events, e.is_kafka_new = false) (hrest : set_before_new x rest.2) :
    set_before_new x (emit events rest).2 := by
  intro h
  show x ∈ before_new (events ++ rest.2)
  rw [before_new_append _ hno]
  obtain ⟨e, he, hk⟩ := h
  rcases List.mem_append.mp he with h1 | h1
  · rw [hno e h1] at hk
    exact absurd hk (by simp)
  · exact List.mem_append_right _ (hrest ⟨e, h1, hk⟩)

theorem checked_conf_set_fails_no_new (w : World) (lf : Bool) (name value failure : String) :
    ∀ e ∈ Event.conf_set name value (w.conf_set_res name value) ::
        (log_message lf 1 "ERROR" (failure ++ ": " ++ w.conf_set_errstr name value) ++
          [Event.conf_destroy]),
      e.is_kafka_new = false :=
  all_cons rfl (all_append (log_message_no_new _ _ _ _) (all_cons rfl all_nil))

theorem checked_conf_set_before_here (w : World) (lf : Bool) (name value failure : String)
    (rest : Attempt) :
    set_before_new (Event.conf_set name value RD_KAFKA_CONF_OK)
      (checked_conf_set w lf name value failure rest).2 := by
  unfold checked_conf_set
  split
  · rintro ⟨e, he, hk⟩
    rw [checked_conf_set_fails_no_new w lf name value failure e he] at hk
    exact absurd hk (by simp)
  · rename_i hres
    have hres : w.conf_set_res name value = RD_KAFKA_CONF_OK := by
      simpa using hres
    rw [hres]
    exact emit_before_here (all_cons rfl all_nil) (List.mem_singleton.mpr rfl)

theorem checked_conf_set_before_rest {x : Event} (w : World) (lf : Bool)
    (name value failure : String) {rest : Attempt} (hrest : set_before_new x rest.2) :
    set_before_new x (checked_conf_set w lf name value failure rest).2 := by
  unfold checked_conf_set
  split
  · rintro ⟨e, he, hk⟩
    rw [checked_conf_set_fails_no_new w lf name value failure e he] at hk
    exact absurd hk (by simp)
  · exact emit_before_rest (all_cons rfl all_nil) hrest

theorem optional_setting_before_here {cond : Bool} (hc : cond = true) (w : World) (lf : Bool)
    (name value failure : String) (success_log : List Event) (rest : Attempt) :
    set_before_new (Event.conf_set name value RD_KAFKA_CONF_OK)
      (optional_setting cond w lf name value failure success_log rest).2 := by
  unfold optional_setting
  rw [if_pos hc]
  exact checked_conf_set_before_here _ _ _ _ _ _

theorem optional_setting_before_rest {x : Event} (cond : Bool) (w : World) (lf : Bool)
    (name value failure : String) {success_log : List Event} {rest : Attempt}
    (hlog : ∀ e ∈ success_log, e.is_kafka_new = false) (hrest : set_before_new x rest.2) :
    set_before_new x (optional_setting cond w lf name value failure success_log rest).2 := by
  unfold optional_setting
  split
  · exact checked_conf_set_before_rest _ _ _ _ _ (emit_before_rest hlog hrest)
  · exact hrest

theorem configure_mtls_before_rest {x : Event} (w : World) (lf : Bool) (c : Config)
    {rest : Attempt} (hrest : set_before_new x rest.2) :
    set_before_new x (configure_mtls w lf c rest).2 := by
  unfold configure_mtls
  split
  · refine emit_before_rest (log_message_no_new _ _ _ _) ?_
    refine checked_conf_set_before_rest _ _ _ _ _ ?_
    refine optional_setting_before_rest _ _ _ _ _ _ (log_message_no_new _ _ _ _) ?_
    refine optional_setting_before_rest _ _ _ _ _ _ (log_message_no_new _ _ _ _) ?_
    refine optional_setting_before_rest _ _ _ _ _ _ (log_message_no_new _ _ _ _) ?_
    refine optional_setting_before_rest _ _ _ _ _ _ (log_message_no_new _ _ _ _) ?_
    exact optional_setting_before_rest _ _ _ _ _ _ (log_message_no_new _ _ _ _) hrest
  · exact hrest

/-- The settings the mTLS block passes for a config. -/
theorem configure_mtls_before (w : World) (lf : Bool) (c : Config) (rest : Attempt)
    (hssl : c.security_protocol = "SSL") (x : Event)
    (hx : x = Event.conf_set "security.protocol" "SSL" RD_KAFKA_CONF_OK ∨
      (c.ssl_ca_location.length > 0 ∧
        x = Event.conf_set "ssl.ca.location" c.ssl_ca_location RD_KAFKA_CONF_OK) ∨
      (c.ssl_certificate_location.length > 0 ∧
        x = Event.conf_set "ssl.certificate.location" c.ssl_certificate_location
          RD_KAFKA_CONF_OK) ∨
      (c.ssl_key_location.length > 0 ∧
        x = Event.conf_set "ssl.key.location" c.ssl_key_location RD_KAFKA_CONF_OK) ∨
      (c.ssl_key_password.length > 0 ∧
        x = Event.conf_set "ssl.key.password" c.ssl_key_password RD_KAFKA_CONF_OK)) :
    set_before_new x (configure_mtls w lf c rest).2 := by
  unfold configure_mtls
  rw [if_pos hssl]
  refine emit_before_rest (log_message_no_new _ _ _ _) ?_
  rcases hx with hx | hx | hx | hx | hx
  · rw [hx]
    exact checked_conf_set_before_here _ _ _ _ _ _
  all_goals refine checked_conf_set_before_rest _ _ _ _ _ ?_
  · rw [hx.2]
    exact optional_setting_before_here (by simpa using hx.1) _ _ _ _ _ _ _
  all_goals refine optional_setting_before_rest _ _ _ _ _ _ (log_message_no_new _ _ _ _) ?_
  · rw [hx.2]
    exact optional_setting_before_here (by simpa using hx.1) _ _ _ _ _ _ _
  all_goals refine optional_setting_before_rest _ _ _ _ _ _ (log_message_no_new _ _ _ _) ?_
  · rw [hx.2]
    exact optional_setting_before_here (by simpa using hx.1) _ _ _ _ _ _ _
  all_goals refine optional_setting_before_rest _ _ _ _ _ _ (log_message_no_new _ _ _ _) ?_
  · rw [hx.2]
    exact optional_setting_before_here (by simpa using hx.1) _ _ _ _ _ _ _

theorem configure_debug_no_new (w : World) (lf : Bool) (c : Config) :
    ∀ e ∈ configure_debug w lf c, e.is_kafka_new = false :=
  configure_debug_all w lf c (fun _ _ => ⟨rfl, rfl⟩) (fun _ => rfl)

theorem create_producer_before_mtls (w : World) (lf : Bool) (c : Config) (x : Event)
    (h : ∀ rest, set_before_new x (configure_mtls w lf c rest).2) :
    set_before_new x (create_producer w lf c).2 := by
  unfold create_producer
  refine emit_before_rest (all_cons rfl all_nil) ?_
  refine emit_before_rest (configure_debug_no_new w lf c) ?_
  refine checked_conf_set_before_rest _ _ _ _ _ ?_
  exact h _

theorem create_consumer_before_mtls (w : World) (lf : Bool) (c : Config) (x : Event)
    (h : ∀ rest, set_before_new x (configure_mtls w lf c rest).2) :
    set_before_new x (create_consumer w lf c).2 := by
  unfold create_consumer
  refine emit_before_rest (all_cons rfl all_nil) ?_
  refine emit_before_rest (configure_debug_no_new w lf c) ?_
  refine checked_conf_set_before_rest _ _ _ _ _ ?_
  exact h _

/-- `create_producer` passes `acks` as the decimal text of `producer_ack`. -/
theorem create_producer_before_acks (w : World) (lf : Bool) (c : Config) :
    set_before_new
      (Event.conf_set "acks" (fmt_d c.producer_ack)
        (w.conf_set_res "acks" (fmt_d c.producer_ack)))
      (create_producer w lf c).2 := by
  unfold create_producer
  refine emit_before_rest (all_cons rfl all_nil) ?_
  refine emit_before_rest (configure_debug_no_new w lf c) ?_
  refine checked_conf_set_before_rest _ _ _ _ _ ?_
  refine configure_mtls_before_rest _ _ _ ?_
  refine emit_before_here ?_ ?_
  · simp [unchecked_conf_set, Event.is_kafka_new]
  · simp [unchecked_conf_set]

/-! ## main once validation has passed -/

theorem main_valid (w : World) (argv : List String) (events : List Event) (st : Args)
    (command : String) (hread : read_invocation w argv = some (Sum.inr (events, st)))
    (hcmd : st.command = some command)
    (hvalid : validate_mtls (loaded_config w argv st) = none) :
    main w argv =
      (run_client w (init_log_file w (loaded_config w argv st).topic command).1 st
          (loaded_config w argv st)).map
        (fun out => ⟨out.exit_code,
          events ++
            ((Event.print_version w.version_str ::
                (parse_ini_file w false (st.config_file.getD DEFAULT_INI_FILE) st.config).2.2 ++
                (init_log_file w (loaded_config w argv st).topic command).2 ++
                print_config (init_log_file w (loaded_config w argv st).topic command).1
                  (loaded_config w argv st)) ++
              (if st.is_consumer then [Event.install_signal_handlers] else []) ++
              out.trace)⟩) := by
  unfold main
  rw [hread]
  simp only
  unfold main_after_args
  rw [hcmd]
  simp only [parse_ini_file_ret, ne_eq, not_true_eq_false, if_false, hvalid]
  cases run_client w (init_log_file w (loaded_config w argv st).topic command).1 st
    (loaded_config w argv st) <;> rfl

/-- Before the client runs, `main` makes no call that produces or consumes. -/
theorem main_prelude_no_run (w : World) (argv : List String) (events : List Event) (st : Args)
    (command : String) (hread : read_invocation w argv = some (Sum.inr (events, st)))
    (tail : List Event) (htail : ∀ e ∈ tail, e.is_run_call = false) :
    ∀ e ∈ events ++
        ((Event.print_version w.version_str ::
            (parse_ini_file w false (st.config_file.getD DEFAULT_INI_FILE) st.config).2.2 ++
            (init_log_file w (loaded_config w argv st).topic command).2 ++
            print_config (init_log_file w (loaded_config w argv st).topic command).1
              (loaded_config w argv st)) ++
          (if st.is_consumer then [Event.install_signal_handlers] else []) ++ tail),
      e.is_run_call = false := by
  refine all_append
    (fun e he => not_client_not_run e ((read_invocation_spec w argv events st hread).1 e he).1)
    (all_append (all_append
      (fun e he => not_client_not_run e (main_head_events w argv st command e he).1) ?_) htail)
  split
  · exact all_cons rfl all_nil
  · exact all_nil

/-- The trace `main` leaves when the client cannot be created. -/
theorem no_client_tail_no_run (c : Config) (lf : Bool) (created : List Event)
    (h : ∀ e ∈ created, e.is_setup c lf) :
    ∀ e ∈ created ++ close_log_file lf ++ [Event.wait_for_key_press],
      e.is_run_call = false :=
  all_append (all_append (fun e he => is_setup_not_run c lf e (h e he))
    (fun e he => not_client_not_run e (close_log_file_events lf e he).1))
    (all_cons rfl all_nil)

/-! ## The poll loop -/

theorem consume_loop_done (lf : Bool) (config : Config) (polls : List PollStep) (run : Bool)
    (msg_count : Int) (h : loop_cond config run msg_count = false) :
    consume_loop lf config polls run msg_count = some (msg_count, []) := by
  cases polls <;> simp [consume_loop, h]

theorem consume_loop_step (lf : Bool) (config : Config) (p : PollStep) (ps : List PollStep)
    (run : Bool) (msg_count : Int) (h : loop_cond config run msg_count = true) :
    consume_loop lf config (p :: ps) run msg_count =
      (consume_loop lf config ps (run && p.signal.isNone)
          (poll_body lf config msg_count p.msg).1).map
        (fun r => (r.1, poll_events lf config msg_count p ++ r.2)) := by
  rw [consume_loop, if_pos h]
  cases consume_loop lf config ps (run && p.signal.isNone)
    (poll_body lf config msg_count p.msg).1 <;> rfl

/-! ## Counting in the poll loop -/

theorem poll_body_error (lf : Bool) (config : Config) (k : Int) (m : Message)
    (h : m.err ≠ 0) :
    ∃ v level text,
      poll_body lf config k (some m) = (k, log_message lf v level text ++ [Event.message_destroy]) := by
  by_cases h2 : m.err = RD_KAFKA_RESP_ERR__PARTITION_EOF
  · exact ⟨config.verbose, "DEBUG", "Reached end of partition", by
      simp only [poll_body, if_pos h, if_pos h2]⟩
  · exact ⟨1, "ERROR", "Consumer error: " ++ m.errstr, by
      simp only [poll_body, if_pos h, if_neg h2]⟩

theorem poll_body_good (lf : Bool) (config : Config) (k : Int) (m : Message) (h : m.err = 0) :
    poll_body lf config k (some m) =
      (k + 1,
        log_message lf 1 "INFO" ("Received message " ++ fmt_d (k + 1) ++ ":") ++
        log_message lf 1 "INFO" ("  Topic: " ++ m.topic) ++
        log_message lf 1 "INFO" ("  Partition: " ++ fmt_d m.partition) ++
        log_message lf 1 "INFO" ("  Offset: " ++ fmt_d m.offset) ++
        log_message lf 1 "INFO" ("  Key: " ++ m.key) ++
        log_message lf 1 "INFO" ("  Value: " ++ m.payload) ++
        [Event.offset_store m.topic m.partition m.offset, Event.message_destroy]) := by
  simp only [poll_body, h, ne_eq, not_true_eq_false, if_false]

theorem received_good (p : PollStep) (m : Message) (hm : p.msg = some m) (h : m.err = 0) :
    p.received = some m := by
  simp only [PollStep.received, hm, h, if_true]

theorem received_error (p : PollStep) (m : Message) (hm : p.msg = some m) (h : m.err ≠ 0) :
    p.received = none := by
  simp only [PollStep.received, hm, if_neg h]

theorem received_timeout (p : PollStep) (hm : p.msg = none) : p.received = none := by
  simp only [PollStep.received, hm]

theorem poll_body_count (lf : Bool) (config : Config) (k : Int) (p : PollStep) :
    (poll_body lf config k p.msg).1 = k + (if p.received.isSome then 1 else 0) := by
  cases hm : p.msg with
  | none => rw [received_timeout p hm]; simp [poll_body]
  | some m =>
    by_cases h : m.err = 0
    · rw [received_good p m hm h, poll_body_good lf config k m h]; simp
    · obtain ⟨v, level, text, hb⟩ := poll_body_error lf config k m h
      rw [received_error p m hm h, hb]; simp

theorem stored_offsets_append (a b : List Event) :
    stored_offsets (a ++ b) = stored_offsets a ++ stored_offsets b := by
  unfold stored_offsets
  exact List.filterMap_append _ _ _

theorem poll_calls_append (a b : List Event) :
    poll_calls (a ++ b) = poll_calls a + poll_calls b := by
  unfold poll_calls
  rw [List.filter_append, List.length_append]

theorem log_message_one_event (lf : Bool) (v : Int) (level text : String) :
    log_message lf v level text = [] ∨ log_message lf v level text = [Event.log level text lf] := by
  unfold log_message
  split
  · exact Or.inl rfl
  · exact Or.inr rfl

theorem stored_offsets_log (lf : Bool) (v : Int) (level text : String) :
    stored_offsets (log_message lf v level text) = [] := by
  rcases log_message_one_event lf v level text with h | h <;> rw [h] <;> rfl

theorem poll_calls_log (lf : Bool) (v : Int) (level text : String) :
    poll_calls (log_message lf v level text) = 0 := by
  rcases log_message_one_event lf v level text with h | h <;> rw [h] <;> rfl

theorem poll_body_stored (lf : Bool) (config : Config) (k : Int) (p : PollStep) :
    stored_offsets (poll_body lf config k p.msg).2 =
      p.received.toList.map (fun m => (m.topic, m.partition, m.offset)) := by
  cases hm : p.msg with
  | none => rw [received_timeout p hm]; rfl
  | some m =>
    by_cases h : m.err = 0
    · rw [received_good p m hm h, poll_body_good lf config k m h]
      simp only [stored_offsets_append, stored_offsets_log, List.nil_append]
      rfl
    · obtain ⟨v, level, text, hb⟩ := poll_body_error lf config k m h
      rw [received_error p m hm h, hb]
      simp only [stored_offsets_append, stored_offsets_log, List.nil_append]
      rfl

theorem poll_body_polls (lf : Bool) (config : Config) (k : Int) (msg : Option Message) :
    poll_calls (poll_body lf config k msg).2 = 0 := by
  cases msg with
  | none => rfl
  | some m =>
    by_cases h : m.err = 0
    · rw [poll_body_good lf config k m h]
      simp only [poll_calls_append, poll_calls_log]
      rfl
    · obtain ⟨v, level, text, hb⟩ := poll_body_error lf config k m h
      rw [hb]
      simp only [poll_calls_append, poll_calls_log]
      rfl

theorem poll_events_stored (lf : Bool) (config : Config) (k : Int) (p : PollStep)
    (hsig : p.signal = none) :
    stored_offsets (poll_events lf config k p) =
      p.received.toList.map (fun m => (m.topic, m.partition, m.offset)) := by
  unfold poll_events
  rw [hsig, stored_offsets_append, stored_offsets_append, poll_body_stored]
  rfl

theorem poll_events_polls (lf : Bool) (config : Config) (k : Int) (p : PollStep)
    (hsig : p.signal = none) : poll_calls (poll_events lf config k p) = 1 := by
  unfold poll_events
  rw [hsig, poll_calls_append, poll_calls_append, poll_body_polls]
  rfl

theorem received_cons (p : PollStep) (ps : List PollStep) :
    received (p :: ps) = p.received.toList ++ received ps := by
  unfold received
  cases h : p.received <;> simp [List.filterMap_cons, h]

theorem loop_cond_counting (config : Config) (k : Int) (hN : 0 < config.message_count) :
    loop_cond config true k = decide (k < config.message_count) := by
  unfold loop_cond
  have : (config.message_count == 0) = false := by
    simp only [beq_eq_false_iff_ne, ne_eq]
    omega
  simp [this]

/-- The poll loop from a count `k` below the limit, without signals: when it
ends, it has consumed a shortest run of polls that brings the count to the
limit. -/
theorem consume_loop_counts (lf : Bool) (config : Config) (hN : 0 < config.message_count)
    (polls : List PollStep) :
    ∀ (k : Int), k < config.message_count → (∀ p ∈ polls, p.signal = none) →
      ∀ final events, consume_loop lf config polls true k = some (final, events) →
        final = config.message_count ∧
        ∃ consumed rest last, polls = consumed ++ rest ∧ consumed.getLast? = some last ∧
          last.received.isSome = true ∧
          k + ((received consumed).length : Int) = config.message_count ∧
          poll_calls events = consumed.length ∧
          stored_offsets events =
            (received consumed).map (fun m => (m.topic, m.partition, m.offset)) := by
  induction polls with
  | nil =>
    intro k hk _ final events h
    have hc : loop_cond config true k = true := by
      rw [loop_cond_counting config k hN]; simpa using hk
    simp [consume_loop, hc] at h
  | cons p ps ih =>
    intro k hk hsig final events h
    have hc : loop_cond config true k = true := by
      rw [loop_cond_counting config k hN]; simpa using hk
    have hp : p.signal = none := hsig p (List.mem_cons_self _ _)
    rw [consume_loop_step lf config p ps true k hc, hp] at h
    simp only [Option.isNone_none, Bool.and_self] at h
    rw [poll_body_count] at h
    by_cases hdone : k + (if p.received.isSome then 1 else 0) < config.message_count
    · cases hrec : consume_loop lf config ps true (k + (if p.received.isSome then 1 else 0)) with
      | none => rw [hrec] at h; simp at h
      | some r =>
        rw [hrec] at h
        simp only [Option.map_some', Option.some.injEq, Prod.mk.injEq] at h
        obtain ⟨hfinal, consumed, rest, last, hsplit, hlast, hgood, hcount, hpolls, hstored⟩ :=
          ih _ hdone (fun q hq => hsig q (List.mem_cons_of_mem _ hq)) r.1 r.2 hrec
        refine ⟨h.1 ▸ hfinal, p :: consumed, rest, last, by rw [hsplit]; rfl, ?_, hgood, ?_, ?_, ?_⟩
        · cases consumed with
          | nil => simp at hlast
          | cons c cs => simpa [List.getLast?_cons_cons] using hlast
        · rw [received_cons, List.length_append]
          cases hr : p.received <;> simp [hr] at hcount ⊢ <;> omega
        · rw [← h.2, poll_calls_append, poll_events_polls lf config _ p hp, hpolls,
            List.length_cons]
          omega
        · rw [← h.2, stored_offsets_append, poll_events_stored lf config _ p hp, hstored,
            received_cons, List.map_append]
    · have hgood : p.received.isSome = true := by
        by_contra hg
        simp only [hg, Bool.false_eq_true, if_false, add_zero] at hdone
        exact hdone hk
      have hk1 : k + 1 = config.message_count := by
        simp only [hgood, if_true] at hdone
        omega
      have hstop : loop_cond config true (k + (if p.received.isSome then 1 else 0)) = false := by
        rw [loop_cond_counting config _ hN]
        simpa using hdone
      rw [consume_loop_done lf config ps true _ hstop] at h
      simp only [Option.map_some', Option.some.injEq, Prod.mk.injEq, List.append_nil] at h
      refine ⟨?_, [p], ps, p, rfl, rfl, hgood, ?_, ?_, ?_⟩
      · rw [← h.1]
        simp only [hgood, if_true]
        exact hk1
      · rw [received_cons]
        cases hr : p.received with
        | none => simp [hr] at hgood
        | some m => simp [received]; omega
      · rw [← h.2, poll_events_polls lf config _ p hp]
        rfl
      · rw [← h.2, poll_events_stored lf config _ p hp, received_cons]
        simp [received]

/-- The poll loop ends once the polls hold enough received messages. -/
theorem consume_loop_ends (lf : Bool) (config : Config) (hN : 0 < config.message_count)
    (polls : List PollStep) :
    ∀ (k : Int), (∀ p ∈ polls, p.signal = none) →
      config.message_count ≤ k + ((received polls).length : Int) →
      (consume_loop lf config polls true k).isSome = true := by
  induction polls with
  | nil =>
    intro k _ hlen
    have hc : loop_cond config true k = false := by
      rw [loop_cond_counting config k hN]
      simp only [received, List.filterMap_nil, List.length_nil, Nat.cast_zero, add_zero] at hlen
      simpa using hlen
    rw [consume_loop_done lf config [] true k hc]
    rfl
  | cons p ps ih =>
    intro k hsig hlen
    by_cases hc : loop_cond config true k = true
    · have hp : p.signal = none := hsig p (List.mem_cons_self _ _)
      rw [consume_loop_step lf config p ps true k hc, hp]
      simp only [Option.isNone_none, Bool.and_self, Option.isSome_map']
      apply ih _ (fun q hq => hsig q (List.mem_cons_of_mem _ hq))
      rw [poll_body_count]
      rw [received_cons, List.length_append] at hlen
      cases hr : p.received <;> simp [hr] at hlen ⊢ <;> omega
    · rw [consume_loop_done lf config _ true k (by simpa using hc)]
      rfl

/-! ## The fuel of the fgets loop -/

theorem fgets_go_append (n : Nat) (l : List Char) :
    (fgets_go n l).1 ++ (fgets_go n l).2 = l := by
  induction n generalizing l with
  | zero => rfl
  | succ n ih =>
    cases l with
    | nil => rfl
    | cons c cs =>
      unfold fgets_go
      split
      · rfl
      · simp only [List.cons_append, ih cs]

theorem fgets_go_length (n : Nat) (l : List Char) : (fgets_go n l).2.length ≤ l.length := by
  have h := congrArg List.length (fgets_go_append n l)
  rw [List.length_append] at h
  omega

/-- Every `fgets` call that returns a line leaves less to read. -/
theorem fgets_progress (unread line rest : List Char)
    (h : fgets MAX_LINE_LENGTH unread = some (line, rest)) :
    line ++ rest = unread ∧ rest.length < unread.length := by
  unfold fgets at h
  cases unread with
  | nil => simp at h
  | cons c cs =>
    simp only [Option.some.injEq] at h
    have h1 : (fgets_go (MAX_LINE_LENGTH - 1) (c :: cs)).1 = line := congrArg Prod.fst h
    have h2 : (fgets_go (MAX_LINE_LENGTH - 1) (c :: cs)).2 = rest := congrArg Prod.snd h
    refine ⟨by rw [← h1, ← h2]; exact fgets_go_append _ _, ?_⟩
    rw [← h2]
    show (fgets_go (1022 + 1) (c :: cs)).2.length < (c :: cs).length
    unfold fgets_go
    split
    · simp
    · simp only [List.length_cons]
      have := fgets_go_length 1022 cs
      omega

/-- Fuel equal to the length of the text is enough: more fuel reads the same lines. -/
theorem fgets_lines_fuel (fuel1 : Nat) :
    ∀ (fuel2 : Nat) (unread : List Char), unread.length ≤ fuel1 → unread.length ≤ fuel2 →
      fgets_lines fuel1 unread = fgets_lines fuel2 unread := by
  induction fuel1 with
  | zero =>
    intro fuel2 unread h1 _
    have hnil : unread = [] := List.length_eq_zero.mp (Nat.le_zero.mp h1)
    subst hnil
    cases fuel2 <;> rfl
  | succ fuel1 ih =>
    intro fuel2 unread h1 h2
    cases fuel2 with
    | zero =>
      have hnil : unread = [] := List.length_eq_zero.mp (Nat.le_zero.mp h2)
      subst hnil
      rfl
    | succ fuel2 =>
      unfold fgets_lines
      cases hget : fgets MAX_LINE_LENGTH unread with
      | none => rfl
      | some lr =>
        obtain ⟨line, rest⟩ := lr
        have hlt := (fgets_progress unread line rest hget).2
        simp only
        rw [ih fuel2 rest (by omega) (by omega)]

/-- The lines read from a text make up the whole text: the loop of
`parse_ini_file` reaches the end of the file. -/
theorem fgets_lines_join (fuel : Nat) :
    ∀ (unread : List Char), unread.length ≤ fuel → (fgets_lines fuel unread).flatten = unread := by
  induction fuel with
  | zero =>
    intro unread h
    have hnil : unread = [] := List.length_eq_zero.mp (Nat.le_zero.mp h)
    subst hnil
    rfl
  | succ fuel ih =>
    intro unread h
    unfold fgets_lines
    cases hget : fgets MAX_LINE_LENGTH unread with
    | none =>
      cases unread with
      | nil => rfl
      | cons c cs => simp [fgets] at hget
    | some lr =>
      obtain ⟨line, rest⟩ := lr
      obtain ⟨hsplit, hlt⟩ := fgets_progress unread line rest hget
      simp only [List.flatten_cons]
      rw [ih rest (by omega), hsplit]

/-- C1 (code defect): `-m 100` is read into `config.message_count` by the argument
loop, but `parse_ini_file` then rewrites every field with its default before
it reads the file, so the count in effect is the default 10 (or the file's
value), never the `-m` value: on `-m 100 -c nocount.ini produce` the
producer makes 10 produce calls.  The config that `parse_ini_file` leaves
never depends on the config it is given. -/
theorem C1_message_count_flag_is_overwritten :
    (∃ st out,
      parse_args "kafka_cli" sample_world.version_str
        ["-m", "100", "-c", "nocount.ini", "produce"] Args.initial = Sum.inr st ∧
      st.config.message_count = 100 ∧
      (loaded_config sample_world ["kafka_cli", "-m", "100", "-c", "nocount.ini", "produce"]
        st).message_count = 10 ∧
      main sample_world ["kafka_cli", "-m", "100", "-c", "nocount.ini", "produce"] = some out ∧
      (out.trace.filter Event.is_producev).length = 10) ∧
    (∀ (w : World) (lf : Bool) (filename : String) (c1 c2 : Config),
      (parse_ini_file w lf filename c1).2.1 = (parse_ini_file w lf filename c2).2.1) := by
  refine ⟨⟨_, _, rfl, by decide, by decide, rfl, by decide⟩, ?_⟩
  intro w lf filename c1 c2
  unfold parse_ini_file
  split <;> rfl

/-- C2: when the loaded security protocol is SSL and one of the CA location,
the certificate location and the key location is empty, `main` exits with
code 1, its trace holds no call on a library configuration or handle (no
client is created), and the one ERROR line it logs names the first missing
field in the order CA location, certificate location, key location. -/
theorem C2_missing_mtls_material_fails_fast (w : World) (argv : List String)
    (events : List Event) (st : Args) (command : String)
    (hread : read_invocation w argv = some (Sum.inr (events, st)))
    (hcmd : st.command = some command)
    (hssl : (loaded_config w argv st).security_protocol = "SSL")
    (hmissing : (loaded_config w argv st).ssl_ca_location.length = 0 ∨
      (loaded_config w argv st).ssl_certificate_location.length = 0 ∨
      (loaded_config w argv st).ssl_key_location.length = 0) :
    ∃ out, main w argv = some out ∧ out.exit_code = 1 ∧
      (∀ e ∈ out.trace, e.is_client_call = false) ∧
      out.trace.filter Event.is_error_log =
        [Event.log "ERROR"
          ("mTLS is enabled but " ++ first_missing_field (loaded_config w argv st) ++
            " is not set")
          (init_log_file w (loaded_config w argv st).topic command).1] := by
  have hval := validate_mtls_missing _ hssl hmissing
  have hev := (read_invocation_spec w argv events st hread).1
  have hclose := close_log_file_events (init_log_file w (loaded_config w argv st).topic command).1
  obtain ⟨head, hhead_eq, hhead⟩ : ∃ head, head = Event.print_version w.version_str ::
        (parse_ini_file w false (st.config_file.getD DEFAULT_INI_FILE) st.config).2.2 ++
        (init_log_file w (loaded_config w argv st).topic command).2 ++
        print_config (init_log_file w (loaded_config w argv st).topic command).1
          (loaded_config w argv st) ∧
      ∀ e ∈ head, e.is_client_call = false ∧ e.is_error_log = false :=
    ⟨_, rfl, main_head_events w argv st command⟩
  have hmain : main w argv = some ⟨1,
      events ++ (head ++
        log_message (init_log_file w (loaded_config w argv st).topic command).1 1 "ERROR"
          ("mTLS is enabled but " ++ first_missing_field (loaded_config w argv st) ++
            " is not set") ++
        close_log_file (init_log_file w (loaded_config w argv st).topic command).1 ++
        [Event.wait_for_key_press])⟩ := by
    unfold main
    rw [hread]
    simp only
    unfold main_after_args
    rw [hcmd, hhead_eq]
    simp only [parse_ini_file_ret, ne_eq, not_true_eq_false, if_false, hval]
  clear hhead_eq
  refine ⟨_, hmain, rfl, ?_, ?_⟩
  · rw [log_message_one]
    exact all_append (fun e he => (hev e he).1)
      (all_append (all_append (all_append (fun e he => (hhead e he).1) (all_cons rfl all_nil))
        (fun e he => (hclose e he).1)) (all_cons rfl all_nil))
  · simp only [List.filter_append, log_message_one]
    rw [filter_eq_nil_of_forall _ events (fun e he => (hev e he).2),
      filter_eq_nil_of_forall _ (close_log_file _) (fun e he => (hclose e he).2),
      filter_eq_nil_of_forall _ head (fun e he => (hhead e he).2)]
    simp [Event.is_error_log]

/-- C2 on `-c nocert.ini consume`: the CA and the key are set, the certificate is not. -/
theorem C2_missing_mtls_material_fails_fast_witness :
    ∃ out, main sample_world ["kafka_cli", "-c", "nocert.ini", "consume"] = some out ∧
      out.exit_code = 1 ∧ (∀ e ∈ out.trace, e.is_client_call = false) ∧
      out.trace.filter Event.is_error_log =
        [Event.log "ERROR" "mTLS is enabled but ssl_certificate_location is not set" true] :=
  C2_missing_mtls_material_fails_fast sample_world ["kafka_cli", "-c", "nocert.ini", "consume"]
    []
    { Args.initial with
      config_file := some "nocert.ini", command := some "consume", is_consumer := true }
    "consume" (by rfl) rfl (by decide) (by decide)

/-- C3, refuted as stated: with a broker that cannot be reached, every
`rd_kafka_producev` call and the `rd_kafka_flush` of the producer run
`-c plain.ini produce` return an error, and `main` still exits with code 0. -/
theorem C3_counterexample :
    ∃ out, main sample_world ["kafka_cli", "-c", "plain.ini", "produce"] = some out ∧
      Event.producev "test-topic" "Test message 1 from Kafka CLI at 1700000000" none (-195)
        ∈ out.trace ∧
      Event.producev "test-topic" "Test message 2 from Kafka CLI at 1700000000" none (-195)
        ∈ out.trace ∧
      Event.flush 10000 (-185) ∈ out.trace ∧
      out.exit_code = 0 :=
  ⟨_, rfl, by decide, by decide, by decide, rfl⟩

/-- C3 as amended: a failed `rd_kafka_subscribe` makes `consume_messages` log
an ERROR and return 1 without polling; `produce_messages` returns 0 whatever
`rd_kafka_producev` and `rd_kafka_flush` return; and on a producer run whose
client was created `main` exits with code 0 whatever they return. -/
theorem C3_unavailable_broker_outcomes (w : World) (argv : List String)
    (events : List Event) (st : Args) (command : String)
    (hread : read_invocation w argv = some (Sum.inr (events, st)))
    (hcmd : st.command = some command)
    (hproducer : st.is_producer = true)
    (hvalid : validate_mtls (loaded_config w argv st) = none)
    (hcreated :
      (create_producer w (init_log_file w (loaded_config w argv st).topic command).1
        (loaded_config w argv st)).1 = true) :
    (∃ out, main w argv = some out ∧ out.exit_code = 0) ∧
    (∀ (lf : Bool) (config : Config), (produce_messages w lf config).1 = 0) ∧
    (∀ (lf : Bool) (config : Config), w.subscribe_err ≠ 0 →
      consume_messages w lf config =
        some (1,
          [Event.subscribe config.topic RD_KAFKA_PARTITION_UA w.subscribe_err,
           Event.log "ERROR" ("Failed to subscribe to topic: " ++ w.err2str w.subscribe_err)
             lf])) := by
  refine ⟨?_, fun _ _ => rfl, ?_⟩
  · rw [main_valid w argv events st command hread hcmd hvalid]
    unfold run_client
    simp only [hproducer, if_true, hcreated, not_true_eq_false, if_false, Option.map_some']
    exact ⟨_, rfl, rfl⟩
  · intro lf config herr
    unfold consume_messages
    rw [if_pos herr, log_message_one]

/-- C3 as amended, on the producer run `-c plain.ini produce` against a broker
that cannot be reached. -/
theorem C3_unavailable_broker_outcomes_witness :
    (∃ out, main sample_world ["kafka_cli", "-c", "plain.ini", "produce"] = some out ∧
      out.exit_code = 0) ∧
    (∀ (lf : Bool) (config : Config), (produce_messages sample_world lf config).1 = 0) ∧
    (∀ (lf : Bool) (config : Config), sample_world.subscribe_err ≠ 0 →
      consume_messages sample_world lf config =
        some (1,
          [Event.subscribe config.topic RD_KAFKA_PARTITION_UA sample_world.subscribe_err,
           Event.log "ERROR"
             ("Failed to subscribe to topic: " ++
               sample_world.err2str sample_world.subscribe_err) lf])) :=
  C3_unavailable_broker_outcomes sample_world ["kafka_cli", "-c", "plain.ini", "produce"] []
    { Args.initial with
      config_file := some "plain.ini", command := some "produce", is_producer := true }
    "produce" (by rfl) rfl rfl (by decide) (by decide)

/-- C4: when the create function that `main` calls (`create_producer` for a
producer, `create_consumer` otherwise) returns no handle, `main` exits with
code 1 and its trace holds no call of `produce_messages` or
`consume_messages` (no produce, poll, flush, subscribe or offset store). -/
theorem C4_no_client_exits_1 (w : World) (argv : List String) (events : List Event)
    (st : Args) (command : String)
    (hread : read_invocation w argv = some (Sum.inr (events, st)))
    (hcmd : st.command = some command)
    (hvalid : validate_mtls (loaded_config w argv st) = none)
    (hnone :
      (if st.is_producer then
        create_producer w (init_log_file w (loaded_config w argv st).topic command).1
          (loaded_config w argv st)
       else
        create_consumer w (init_log_file w (loaded_config w argv st).topic command).1
          (loaded_config w argv st)).1 = false) :
    ∃ out, main w argv = some out ∧ out.exit_code = 1 ∧
      ∀ e ∈ out.trace, e.is_run_call = false := by
  have hcons := (read_invocation_spec w argv events st hread).2 (by rw [hcmd]; rfl)
  rw [main_valid w argv events st command hread hcmd hvalid]
  unfold run_client
  by_cases hp : st.is_producer = true
  · simp only [hp, if_true] at hnone ⊢
    simp only [hnone, Bool.false_eq_true, not_false_eq_true, if_true, Option.map_some']
    exact ⟨_, rfl, rfl, main_prelude_no_run w argv events st command hread _
      (no_client_tail_no_run _ _ _ (create_producer_setup _ _ _))⟩
  · have hc : st.is_consumer = true := by
      rcases hcons with h | h
      · exact absurd h hp
      · exact h
    simp only [hp, Bool.false_eq_true, if_false] at hnone ⊢
    simp only [hc, hnone, Bool.false_eq_true, not_false_eq_true, if_true, Option.map_some']
    exact ⟨_, rfl, rfl, by
      have := main_prelude_no_run w argv events st command hread _
        (no_client_tail_no_run _ _ _ (create_consumer_setup w
          (init_log_file w (loaded_config w argv st).topic command).1
          (loaded_config w argv st)))
      simpa only [hc, if_true] using this⟩

/-- C4 on `-c plain.ini produce` with a library whose `rd_kafka_new` fails. -/
theorem C4_no_client_exits_1_witness :
    ∃ out, main no_client_world ["kafka_cli", "-c", "plain.ini", "produce"] = some out ∧
      out.exit_code = 1 ∧ ∀ e ∈ out.trace, e.is_run_call = false :=
  C4_no_client_exits_1 no_client_world ["kafka_cli", "-c", "plain.ini", "produce"] []
    { Args.initial with
      config_file := some "plain.ini", command := some "produce", is_producer := true }
    "produce" (by rfl) rfl (by decide) (by decide)

/-- C5, refuted as stated: with `producer_ack=all` in the config file
(`ack_all.ini`) the loaded `producer_ack` is 0 and the only `acks` setting
the producer run hands to the library is `acks=0`. -/
theorem C5_counterexample :
    ∃ st out,
      parse_args "kafka_cli" sample_world.version_str ["-c", "ack_all.ini", "produce"]
        Args.initial = Sum.inr st ∧
      (loaded_config sample_world ["kafka_cli", "-c", "ack_all.ini", "produce"]
        st).producer_ack = 0 ∧
      main sample_world ["kafka_cli", "-c", "ack_all.ini", "produce"] = some out ∧
      out.trace.filter Event.sets_acks = [Event.conf_set "acks" "0" 0] :=
  ⟨_, _, rfl, by decide, rfl, by decide⟩

/-- C5 as amended: `producer_ack` is read as a decimal integer.  A line
`producer_ack=<level>` with level `0`, `1` or `-1` (the numeric form of
`all`) sets `producer_ack` to that number; `create_producer` then hands the
library `acks=<level>` before `rd_kafka_new` whenever it reaches
`rd_kafka_new`, and never any other `acks` value.  The word `all` is read
as 0. -/
theorem C5_numeric_ack_levels (w : World) (lf : Bool) (config : Config) (level : String)
    (hlevel : level = "0" ∨ level = "1" ∨ level = "-1") :
    fmt_d (parse_ini_line ("producer_ack=" ++ level ++ "\n").data config).producer_ack = level ∧
    ((∃ e ∈ (create_producer w lf
          (parse_ini_line ("producer_ack=" ++ level ++ "\n").data config)).2,
        e.is_kafka_new = true) →
      Event.conf_set "acks" level (w.conf_set_res "acks" level) ∈
        before_new (create_producer w lf
          (parse_ini_line ("producer_ack=" ++ level ++ "\n").data config)).2) ∧
    (∀ e ∈ (create_producer w lf
          (parse_ini_line ("producer_ack=" ++ level ++ "\n").data config)).2,
      ∀ value res, e = Event.conf_set "acks" value res → value = level) ∧
    (parse_ini_line "producer_ack=all\n".data config).producer_ack = 0 := by
  have hack : fmt_d (parse_ini_line ("producer_ack=" ++ level ++ "\n").data
      config).producer_ack = level := by
    rcases hlevel with h | h | h <;> subst h <;> rfl
  refine ⟨hack, ?_, ?_, rfl⟩
  · have := create_producer_before_acks w lf
      (parse_ini_line ("producer_ack=" ++ level ++ "\n").data config)
    rw [hack] at this
    exact this
  · intro e he value res heq
    have := create_producer_setup w lf _ e he
    rw [heq] at this
    rw [← hack]
    exact this.2.2.2.2.2.2 rfl

/-- C5 as amended, for the level `-1` on the zeroed config. -/
theorem C5_numeric_ack_levels_witness :
    fmt_d (parse_ini_line ("producer_ack=" ++ "-1" ++ "\n").data
      Config.zeroed).producer_ack = "-1" ∧
    ((∃ e ∈ (create_producer sample_world true
          (parse_ini_line ("producer_ack=" ++ "-1" ++ "\n").data Config.zeroed)).2,
        e.is_kafka_new = true) →
      Event.conf_set "acks" "-1" (sample_world.conf_set_res "acks" "-1") ∈
        before_new (create_producer sample_world true
          (parse_ini_line ("producer_ack=" ++ "-1" ++ "\n").data Config.zeroed)).2) ∧
    (∀ e ∈ (create_producer sample_world true
          (parse_ini_line ("producer_ack=" ++ "-1" ++ "\n").data Config.zeroed)).2,
      ∀ value res, e = Event.conf_set "acks" value res → value = "-1") ∧
    (parse_ini_line "producer_ack=all\n".data Config.zeroed).producer_ack = 0 :=
  C5_numeric_ack_levels sample_world true Config.zeroed "-1" (by decide)

/-! ## parse_ini_file line by line -/

theorem parse_ini_lines_eq_foldl (fuel : Nat) (unread : List Char) (config : Config) :
    parse_ini_lines fuel unread config =
      (fgets_lines fuel unread).foldl (fun c line => parse_ini_line line c) config := by
  induction fuel generalizing unread config with
  | zero => rfl
  | succ fuel ih =>
    unfold parse_ini_lines fgets_lines
    cases fgets MAX_LINE_LENGTH unread with
    | none => rfl
    | some lr => simp only [List.foldl_cons]; exact ih _ _

theorem assign_key_skip_verify (key : String) (value : List Char) (config : Config)
    (hkey : key ≠ "ssl_skip_certificate_verify") :
    (assign_key key value config).ssl_skip_certificate_verify =
      config.ssl_skip_certificate_verify := by
  simp only [assign_key, apply_ite Config.ssl_skip_certificate_verify, if_neg hkey, ite_self]

theorem parse_ini_line_skip_verify (line : List Char) (config : Config)
    (hkey : (split_key_value line).map Prod.fst ≠ some "ssl_skip_certificate_verify") :
    (parse_ini_line line config).ssl_skip_certificate_verify =
      config.ssl_skip_certificate_verify := by
  unfold parse_ini_line
  cases h : split_key_value line with
  | none => rfl
  | some kv =>
    obtain ⟨key, value⟩ := kv
    refine assign_key_skip_verify key value config ?_
    intro hk
    rw [h] at hkey
    exact hkey (by simp [hk])

theorem foldl_skip_verify (lines : List (List Char)) (config : Config)
    (hkeys : ∀ line ∈ lines,
      (split_key_value line).map Prod.fst ≠ some "ssl_skip_certificate_verify") :
    (lines.foldl (fun c line => parse_ini_line line c) config).ssl_skip_certificate_verify =
      config.ssl_skip_certificate_verify := by
  induction lines generalizing config with
  | nil => rfl
  | cons line rest ih =>
    rw [List.foldl_cons, ih _ (fun l hl => hkeys l (List.mem_cons_of_mem _ hl)),
      parse_ini_line_skip_verify line config (hkeys line (List.mem_cons_self _ _))]

theorem not_mem_ini_keys (key : String) (content : String) (h : key ∉ ini_keys content) :
    ∀ line ∈ fgets_lines content.length content.data,
      (split_key_value line).map Prod.fst ≠ some key := by
  intro line hline hk
  apply h
  unfold ini_keys
  rw [List.mem_filterMap]
  exact ⟨line, hline, hk⟩

/-! ## Lines of a text and pieces read by fgets -/

theorem text_lines_ne_nil (c : Char) (cs : List Char) : text_lines (c :: cs) ≠ [] := by
  unfold text_lines
  split
  · exact List.cons_ne_nil _ _
  · split <;> exact List.cons_ne_nil _ _

/-- A line that fits the buffer is what one `fgets` call reads. -/
theorem text_lines_fgets_go (l : List Char) :
    ∀ (n : Nat) (c : Char) (cs : List Char), l = c :: cs →
      (∀ line ∈ (text_lines l).head?, line.length ≤ n) →
      text_lines l = (fgets_go n l).1 :: text_lines (fgets_go n l).2 := by
  induction l with
  | nil => intro n c cs h; exact absurd h (by simp)
  | cons d ds ih =>
    intro n c cs _ hfit
    by_cases hd : d = Char.ofNat 10
    · have htl : text_lines (d :: ds) = [d] :: text_lines ds := by
        rw [text_lines, if_pos hd]
      rw [htl] at hfit ⊢
      have hn : 1 ≤ n := hfit [d] (by simp)
      obtain ⟨m, rfl⟩ : ∃ m, n = m + 1 := ⟨n - 1, by omega⟩
      rw [fgets_go, if_pos hd]
    · cases ds with
      | nil =>
        have htl : text_lines [d] = [[d]] := by
          rw [text_lines, if_neg hd]
          rfl
        rw [htl] at hfit ⊢
        have hn : 1 ≤ n := hfit [d] (by simp)
        obtain ⟨m, rfl⟩ : ∃ m, n = m + 1 := ⟨n - 1, by omega⟩
        rw [fgets_go, if_neg hd]
        cases m <;> rfl
      | cons e es =>
        cases htail : text_lines (e :: es) with
        | nil => exact absurd htail (text_lines_ne_nil e es)
        | cons line rest =>
          have htl : text_lines (d :: e :: es) = (d :: line) :: rest := by
            rw [text_lines, if_neg hd, htail]
          rw [htl] at hfit ⊢
          have hn : line.length + 1 ≤ n := hfit (d :: line) (by simp)
          obtain ⟨m, rfl⟩ : ∃ m, n = m + 1 := ⟨n - 1, by omega⟩
          have hrec := ih m e es rfl (by
            intro l2 hl2
            rw [htail] at hl2
            simp only [List.head?_cons, Option.mem_def, Option.some.injEq] at hl2
            rw [← hl2]
            omega)
          rw [htail] at hrec
          simp only [List.cons.injEq] at hrec
          rw [fgets_go, if_neg hd, ← hrec.1, ← hrec.2]

/-- When every line of a text fits the buffer, the pieces `fgets` reads are
the lines of the text. -/
theorem fgets_lines_eq_text_lines (fuel : Nat) :
    ∀ (unread : List Char), unread.length ≤ fuel →
      (∀ line ∈ text_lines unread, line.length ≤ MAX_LINE_LENGTH - 1) →
      fgets_lines fuel unread = text_lines unread := by
  induction fuel with
  | zero =>
    intro unread h _
    have hnil : unread = [] := List.length_eq_zero.mp (Nat.le_zero.mp h)
    subst hnil
    rfl
  | succ fuel ih =>
    intro unread h hfit
    cases unread with
    | nil => rfl
    | cons c cs =>
      have hsplit := text_lines_fgets_go (c :: cs) (MAX_LINE_LENGTH - 1) c cs rfl (by
        intro line hline
        exact hfit line (List.mem_of_mem_head? hline))
      have hget : fgets MAX_LINE_LENGTH (c :: cs) =
          some ((fgets_go (MAX_LINE_LENGTH - 1) (c :: cs)).1,
            (fgets_go (MAX_LINE_LENGTH - 1) (c :: cs)).2) := rfl
      have hlt := (fgets_progress _ _ _ hget).2
      rw [fgets_lines, hget]
      simp only
      rw [hsplit, ih _ (by omega) (by
        intro line hline
        apply hfit
        rw [hsplit]
        exact List.mem_cons_of_mem _ hline)]

/-- For a file whose lines fit the buffer, the keys `parse_ini_file` finds
are the keys the file has. -/
theorem ini_keys_eq_line_keys (content : String)
    (hfit : ∀ line ∈ text_lines content.data, line.length ≤ MAX_LINE_LENGTH - 1) :
    ini_keys content = line_keys content := by
  unfold ini_keys line_keys
  rw [fgets_lines_eq_text_lines content.length content.data (Nat.le_refl _) hfit]

/-! ## A comment line longer than the buffer -/

theorem fgets_go_exact (pre rest : List Char) (h : ∀ c ∈ pre, c ≠ Char.ofNat 10) :
    fgets_go pre.length (pre ++ rest) = (pre, rest) := by
  induction pre with
  | nil => cases rest <;> rfl
  | cons c cs ih =>
    have hc : ¬ c = Char.ofNat 10 := h c (List.mem_cons_self _ _)
    rw [List.length_cons, List.cons_append, fgets_go, if_neg hc,
      ih (fun d hd => h d (List.mem_cons_of_mem _ hd))]

theorem text_lines_single (l : List Char) (h : ∀ c ∈ l, c ≠ Char.ofNat 10) :
    text_lines (l ++ [Char.ofNat 10]) = [l ++ [Char.ofNat 10]] := by
  induction l with
  | nil => rfl
  | cons c cs ih =>
    have hc : ¬ c = Char.ofNat 10 := h c (List.mem_cons_self _ _)
    rw [List.cons_append, text_lines, if_neg hc,
      ih (fun d hd => h d (List.mem_cons_of_mem _ hd))]

theorem split_key_value_comment (rest : List Char) : split_key_value ('#' :: rest) = none := by
  have hcut : cut_at '#' (cut_at ';' (c_str ('#' :: rest))) = [] := by
    simp +decide [cut_at, c_str, List.takeWhile_cons]
  unfold split_key_value
  rw [hcut]
  rfl

theorem long_comment_data (text : String) :
    (long_comment text).data =
      ('#' :: List.replicate 1022 ' ') ++ (text.data ++ [Char.ofNat 10]) := by
  rw [long_comment, String.data_append, String.data_append, List.append_assoc]

/-- A file that is one long comment line has no key. -/
theorem line_keys_long_comment (text : String) (h : ∀ c ∈ text.data, c ≠ Char.ofNat 10) :
    line_keys (long_comment text) = [] := by
  have hline : ∀ c ∈ '#' :: (List.replicate 1022 ' ' ++ text.data), c ≠ Char.ofNat 10 := by
    intro c hc
    rcases List.mem_cons.mp hc with h1 | h1
    · rw [h1]; decide
    · rcases List.mem_append.mp h1 with h2 | h2
      · rw [(List.mem_replicate.mp h2).2]; decide
      · exact h c h2
  unfold line_keys
  rw [long_comment_data, List.cons_append, ← List.append_assoc, ← List.cons_append,
    text_lines_single _ hline, List.cons_append]
  simp only [List.filterMap_cons, List.filterMap_nil, split_key_value_comment, Option.map_none']

/-- The loop reads such a file in two pieces: the first 1023 characters, a
comment, and the rest of the line as a line of its own. -/
theorem parse_long_comment (text : String) (config : Config) :
    parse_ini_lines (long_comment text).length (long_comment text).data config =
      parse_ini_lines (text.length + 1) (text.data ++ [Char.ofNat 10]) config := by
  have hlen : (long_comment text).length = (text.length + 1 + 1022) + 1 := by
    rw [String.length, long_comment_data]
    simp only [List.length_append, List.length_cons, List.length_replicate, List.length_nil,
      String.length]
    omega
  have hget : fgets MAX_LINE_LENGTH
      (('#' :: List.replicate 1022 ' ') ++ (text.data ++ [Char.ofNat 10])) =
      some ('#' :: List.replicate 1022 ' ', text.data ++ [Char.ofNat 10]) := by
    have h := fgets_go_exact ('#' :: List.replicate 1022 ' ') (text.data ++ [Char.ofNat 10])
      (by
        intro c hc
        rcases List.mem_cons.mp hc with h1 | h1
        · rw [h1]; decide
        · rw [(List.mem_replicate.mp h1).2]; decide)
    rw [List.length_cons, List.length_replicate] at h
    rw [List.cons_append] at h ⊢
    unfold fgets
    exact congrArg some h
  rw [hlen, long_comment_data, parse_ini_lines, hget]
  simp only
  have hskip : parse_ini_line ('#' :: List.replicate 1022 ' ') config = config := by
    unfold parse_ini_line
    rw [split_key_value_comment]
  rw [hskip, parse_ini_lines_eq_foldl, parse_ini_lines_eq_foldl,
    fgets_lines_fuel (text.length + 1 + 1022) (text.length + 1) _
      (by rw [List.length_append, List.length_singleton, String.length]; omega)
      (by rw [List.length_append, List.length_singleton, String.length])]

theorem parse_ini_file_config (w : World) (lf : Bool) (filename : String) (config : Config)
    (content : String) (h : w.read_file filename = some content) :
    (parse_ini_file w lf filename config).2.1 =
      parse_ini_lines content.length content.data (set_defaults config) := by
  unfold parse_ini_file
  rw [h]

/-- C6, refuted as stated: the file `skip.ini` is one comment line (`#`, 1022
blanks, then `ssl_skip_certificate_verify = 1`), so it has no key at all; yet
after `parse_ini_file` the skip flag is 1, the rest of the config is the
defaults, and `create_consumer` on that config hands
`enable.ssl.certificate.verification=false` to the library. -/
theorem C6_counterexample :
    long_comment_world.read_file "skip.ini" =
      some (long_comment "ssl_skip_certificate_verify = 1") ∧
    line_keys (long_comment "ssl_skip_certificate_verify = 1") = [] ∧
    (parse_ini_file long_comment_world false "skip.ini" Config.zeroed).2.1 =
      { default_config with ssl_skip_certificate_verify := 1 } ∧
    Event.conf_set "enable.ssl.certificate.verification" "false" 0 ∈
      (create_consumer long_comment_world false
        (parse_ini_file long_comment_world false "skip.ini" Config.zeroed).2.1).2 := by
  have hparse : (parse_ini_file long_comment_world false "skip.ini" Config.zeroed).2.1 =
      { default_config with ssl_skip_certificate_verify := 1 } := by
    rw [parse_ini_file_config long_comment_world false "skip.ini" Config.zeroed _ rfl,
      parse_long_comment]
    decide
  refine ⟨rfl, line_keys_long_comment _ (by decide), hparse, ?_⟩
  rw [hparse]
  decide

/-- C6 as amended: certificate verification is on unless a line the loader
reads asks otherwise.  After `parse_ini_file` the skip flag is 0 when the file
cannot be opened, when every line of the file fits the line buffer (at most
1023 characters, newline included) and no line has the key
`ssl_skip_certificate_verify`, and, for any file, when none of the pieces
that `fgets` reads has that key; and for every config, whenever
`create_producer` or `create_consumer` sets
`enable.ssl.certificate.verification`, it sets it to `false` and the skip
flag of the config is nonzero. -/
theorem C6_verification_enabled_by_default (w : World) (lf : Bool) (filename : String)
    (config : Config) :
    (w.read_file filename = none →
      (parse_ini_file w lf filename config).2.1.ssl_skip_certificate_verify = 0) ∧
    (∀ content, w.read_file filename = some content →
      (∀ line ∈ text_lines content.data, line.length ≤ MAX_LINE_LENGTH - 1) →
      "ssl_skip_certificate_verify" ∉ line_keys content →
      (parse_ini_file w lf filename config).2.1.ssl_skip_certificate_verify = 0) ∧
    (∀ content, w.read_file filename = some content →
      "ssl_skip_certificate_verify" ∉ ini_keys content →
      (parse_ini_file w lf filename config).2.1.ssl_skip_certificate_verify = 0) ∧
    (∀ (producer : Bool) (c : Config) (e : Event), e ∈ (create_client producer w lf c).2 →
      ∀ value res, e = Event.conf_set "enable.ssl.certificate.verification" value res →
        value = "false" ∧ c.ssl_skip_certificate_verify ≠ 0) := by
  have hpieces : ∀ content, w.read_file filename = some content →
      "ssl_skip_certificate_verify" ∉ ini_keys content →
      (parse_ini_file w lf filename config).2.1.ssl_skip_certificate_verify = 0 := by
    intro content hfile hkey
    unfold parse_ini_file
    rw [hfile]
    simp only
    rw [parse_ini_lines_eq_foldl, foldl_skip_verify _ _ (not_mem_ini_keys _ _ hkey)]
    rfl
  refine ⟨?_, ?_, hpieces, ?_⟩
  · intro hfile
    unfold parse_ini_file
    rw [hfile]
    rfl
  · intro content hfile hfit hkey
    exact hpieces content hfile (by rw [ini_keys_eq_line_keys content hfit]; exact hkey)
  · intro producer c e he value res heq
    have hsetup : e.is_setup c lf := by
      unfold create_client at he
      split at he
      · exact create_producer_setup w lf c e he
      · exact create_consumer_setup w lf c e he
    rw [heq] at hsetup
    exact hsetup.1 rfl

/-- C6 as amended on `plain.ini`, whose two lines fit the buffer and have the
keys `security_protocol` and `message_count`. -/
theorem C6_verification_enabled_by_default_witness :
    sample_world.read_file "plain.ini" =
      some "security_protocol = PLAINTEXT\nmessage_count = 2\n" ∧
    (∀ line ∈ text_lines "security_protocol = PLAINTEXT\nmessage_count = 2\n".data,
      line.length ≤ MAX_LINE_LENGTH - 1) ∧
    line_keys "security_protocol = PLAINTEXT\nmessage_count = 2\n" =
      ["security_protocol", "message_count"] ∧
    (parse_ini_file sample_world false "plain.ini"
      Config.zeroed).2.1.ssl_skip_certificate_verify = 0 :=
  ⟨rfl, by decide, by decide,
    (C6_verification_enabled_by_default sample_world false "plain.ini" Config.zeroed).2.1
      "security_protocol = PLAINTEXT\nmessage_count = 2\n" rfl (by decide) (by decide)⟩

/-- C7: whenever `create_producer` or `create_consumer` successfully sets
`enable.ssl.certificate.verification=false`, its trace holds the WARNING
line `SSL certificate verification is DISABLED - use only for testing!`,
for every config (so whatever `verbose` is); and `log_message` emits a
WARNING line for every value of its `verbose` argument. -/
theorem C7_disabled_verification_is_warned (producer : Bool) (w : World) (lf : Bool)
    (config : Config)
    (hdisabled :
      Event.conf_set "enable.ssl.certificate.verification" "false" RD_KAFKA_CONF_OK ∈
        (create_client producer w lf config).2) :
    Event.log "WARNING" "SSL certificate verification is DISABLED - use only for testing!" lf ∈
        (create_client producer w lf config).2 ∧
    (∀ (verbose : Int) (text : String),
      log_message lf verbose "WARNING" text = [Event.log "WARNING" text lf]) := by
  constructor
  · unfold create_client at hdisabled ⊢
    split
    · rename_i hp
      rw [if_pos hp] at hdisabled
      exact create_producer_warns w lf config hdisabled
    · rename_i hp
      rw [if_neg hp] at hdisabled
      exact create_consumer_warns w lf config hdisabled
  · intro verbose text
    unfold log_message
    rw [if_neg]
    rintro ⟨_, h⟩
    exact absurd h (by decide)

/-- C7 on the consumer for `mtls.ini`, which sets `ssl_skip_certificate_verify = 1`
and leaves `verbose` at 0. -/
theorem C7_disabled_verification_is_warned_witness :
    Event.log "WARNING" "SSL certificate verification is DISABLED - use only for testing!"
        true ∈
      (create_client false sample_world true
        (parse_ini_file sample_world false "mtls.ini" Config.zeroed).2.1).2 ∧
    (∀ (verbose : Int) (text : String),
      log_message true verbose "WARNING" text = [Event.log "WARNING" text true]) :=
  C7_disabled_verification_is_warned false sample_world true
    (parse_ini_file sample_world false "mtls.ini" Config.zeroed).2.1
    (by set_option maxRecDepth 100000 in decide)

/-- C8: for a config with security protocol SSL that passes the mTLS
validation of `main`, whenever `create_producer` or `create_consumer` reaches
`rd_kafka_new`, it has before that successfully set `security.protocol=SSL`
and `ssl.ca.location`, `ssl.certificate.location`, `ssl.key.location` to the
values of the config, and `ssl.key.password` to the configured password when
that is non-empty; and no call in the trace sets one of these properties to
another value, or sets `ssl.key.password` for an empty password. -/
theorem C8_mtls_settings_passed_before_new (producer : Bool) (w : World) (lf : Bool)
    (config : Config) (hssl : config.security_protocol = "SSL")
    (hvalid : validate_mtls config = none)
    (hnew : ∃ e ∈ (create_client producer w lf config).2, e.is_kafka_new = true) :
    Event.conf_set "security.protocol" "SSL" RD_KAFKA_CONF_OK ∈
      before_new (create_client producer w lf config).2 ∧
    Event.conf_set "ssl.ca.location" config.ssl_ca_location RD_KAFKA_CONF_OK ∈
      before_new (create_client producer w lf config).2 ∧
    Event.conf_set "ssl.certificate.location" config.ssl_certificate_location
        RD_KAFKA_CONF_OK ∈ before_new (create_client producer w lf config).2 ∧
    Event.conf_set "ssl.key.location" config.ssl_key_location RD_KAFKA_CONF_OK ∈
      before_new (create_client producer w lf config).2 ∧
    (config.ssl_key_password.length > 0 →
      Event.conf_set "ssl.key.password" config.ssl_key_password RD_KAFKA_CONF_OK ∈
        before_new (create_client producer w lf config).2) ∧
    (∀ e ∈ (create_client producer w lf config).2, ∀ name value res,
      e = Event.conf_set name value res →
        (name = "security.protocol" → value = "SSL") ∧
        (name = "ssl.ca.location" → value = config.ssl_ca_location) ∧
        (name = "ssl.certificate.location" → value = config.ssl_certificate_location) ∧
        (name = "ssl.key.location" → value = config.ssl_key_location) ∧
        (name = "ssl.key.password" →
          value = config.ssl_key_password ∧ config.ssl_key_password.length > 0)) := by
  obtain ⟨hca, hcert, hkey⟩ := validate_mtls_passes config hssl hvalid
  have hbefore : ∀ x,
      (x = Event.conf_set "security.protocol" "SSL" RD_KAFKA_CONF_OK ∨
        (config.ssl_ca_location.length > 0 ∧
          x = Event.conf_set "ssl.ca.location" config.ssl_ca_location RD_KAFKA_CONF_OK) ∨
        (config.ssl_certificate_location.length > 0 ∧
          x = Event.conf_set "ssl.certificate.location" config.ssl_certificate_location
            RD_KAFKA_CONF_OK) ∨
        (config.ssl_key_location.length > 0 ∧
          x = Event.conf_set "ssl.key.location" config.ssl_key_location RD_KAFKA_CONF_OK) ∨
        (config.ssl_key_password.length > 0 ∧
          x = Event.conf_set "ssl.key.password" config.ssl_key_password RD_KAFKA_CONF_OK)) →
      x ∈ before_new (create_client producer w lf config).2 := by
    intro x hx
    have hmtls := fun rest => configure_mtls_before w lf config rest hssl x hx
    unfold create_client at hnew ⊢
    split
    · rename_i hp
      rw [if_pos hp] at hnew
      exact create_producer_before_mtls w lf config x hmtls hnew
    · rename_i hp
      rw [if_neg hp] at hnew
      exact create_consumer_before_mtls w lf config x hmtls hnew
  refine ⟨hbefore _ (Or.inl rfl), hbefore _ (Or.inr (Or.inl ⟨hca, rfl⟩)),
    hbefore _ (Or.inr (Or.inr (Or.inl ⟨hcert, rfl⟩))),
    hbefore _ (Or.inr (Or.inr (Or.inr (Or.inl ⟨hkey, rfl⟩)))),
    fun hpw => hbefore _ (Or.inr (Or.inr (Or.inr (Or.inr ⟨hpw, rfl⟩)))), ?_⟩
  intro e he name value res heq
  have hsetup : e.is_setup config lf := by
    unfold create_client at he
    split at he
    · exact create_producer_setup w lf config e he
    · exact create_consumer_setup w lf config e he
  rw [heq] at hsetup
  exact ⟨hsetup.2.1, hsetup.2.2.1, hsetup.2.2.2.1, hsetup.2.2.2.2.1, hsetup.2.2.2.2.2.1⟩

set_option maxRecDepth 100000 in
/-- C8 on the producer for `mtls.ini`, which sets the three locations and a password. -/
theorem C8_mtls_settings_passed_before_new_witness :
    Event.conf_set "security.protocol" "SSL" RD_KAFKA_CONF_OK ∈
      before_new (create_client true sample_world true
        (parse_ini_file sample_world false "mtls.ini" Config.zeroed).2.1).2 ∧
    Event.conf_set "ssl.ca.location" "ca.pem" RD_KAFKA_CONF_OK ∈
      before_new (create_client true sample_world true
        (parse_ini_file sample_world false "mtls.ini" Config.zeroed).2.1).2 ∧
    Event.conf_set "ssl.certificate.location" "client.pem" RD_KAFKA_CONF_OK ∈
      before_new (create_client true sample_world true
        (parse_ini_file sample_world false "mtls.ini" Config.zeroed).2.1).2 ∧
    Event.conf_set "ssl.key.location" "client.key" RD_KAFKA_CONF_OK ∈
      before_new (create_client true sample_world true
        (parse_ini_file sample_world false "mtls.ini" Config.zeroed).2.1).2 ∧
    Event.conf_set "ssl.key.password" "secret" RD_KAFKA_CONF_OK ∈
      before_new (create_client true sample_world true
        (parse_ini_file sample_world false "mtls.ini" Config.zeroed).2.1).2 :=
  have h := C8_mtls_settings_passed_before_new true sample_world true
    (parse_ini_file sample_world false "mtls.ini" Config.zeroed).2.1 (by decide) (by decide)
    ⟨Event.kafka_new true true, by set_option maxRecDepth 100000 in decide, rfl⟩
  ⟨h.1, h.2.1, h.2.2.1, h.2.2.2.1, h.2.2.2.2.1 (by decide)⟩

/-- C9: a polled event whose error is PARTITION_EOF leaves the message
count as it is, produces only the DEBUG line `Reached end of partition`
(nothing when `verbose` is 0) and the release of the event, so no ERROR line
and no stored offset, and the loop goes on: it polls the remaining results
from the same state. -/
theorem C9_partition_eof_is_not_an_error (lf : Bool) (config : Config) (m : Message)
    (msg_count : Int) (heof : m.err = RD_KAFKA_RESP_ERR__PARTITION_EOF) :
    (poll_body lf config msg_count (some m)).1 = msg_count ∧
    (poll_body lf config msg_count (some m)).2 =
      log_message lf config.verbose "DEBUG" "Reached end of partition" ++
        [Event.message_destroy] ∧
    (∀ e ∈ (poll_body lf config msg_count (some m)).2,
      e.is_error_log = false ∧ e.is_offset_store = false) ∧
    (∀ (ps : List PollStep) (run : Bool), loop_cond config run msg_count = true →
      consume_loop lf config (⟨none, some m⟩ :: ps) run msg_count =
        (consume_loop lf config ps run msg_count).map
          (fun r => (r.1, poll_events lf config msg_count ⟨none, some m⟩ ++ r.2))) := by
  have hne : m.err ≠ 0 := by rw [heof]; decide
  have hbody : poll_body lf config msg_count (some m) =
      (msg_count, log_message lf config.verbose "DEBUG" "Reached end of partition" ++
        [Event.message_destroy]) := by
    simp only [poll_body, if_pos hne, if_pos heof]
  refine ⟨by rw [hbody], by rw [hbody], ?_, ?_⟩
  · rw [hbody]
    exact all_append (log_message_all _ _ _ _ ⟨rfl, rfl⟩) (all_cons ⟨rfl, rfl⟩ all_nil)
  · intro ps run hcond
    rw [consume_loop_step lf config _ ps run msg_count hcond, hbody]
    simp

/-- C9 on the partition end polled by a consumer with `verbose` 0. -/
theorem C9_partition_eof_is_not_an_error_witness :
    (poll_body true Config.zeroed 3 (some eof_message)).1 = 3 ∧
    (poll_body true Config.zeroed 3 (some eof_message)).2 =
      log_message true Config.zeroed.verbose "DEBUG" "Reached end of partition" ++
        [Event.message_destroy] ∧
    (∀ e ∈ (poll_body true Config.zeroed 3 (some eof_message)).2,
      e.is_error_log = false ∧ e.is_offset_store = false) ∧
    (∀ (ps : List PollStep) (run : Bool), loop_cond Config.zeroed run 3 = true →
      consume_loop true Config.zeroed (⟨none, some eof_message⟩ :: ps) run 3 =
        (consume_loop true Config.zeroed ps run 3).map
          (fun r => (r.1, poll_events true Config.zeroed 3 ⟨none, some eof_message⟩ ++ r.2))) :=
  C9_partition_eof_is_not_an_error true Config.zeroed eof_message 3 rfl

theorem consume_messages_subscribed (w : World) (lf : Bool) (config : Config)
    (hsub : w.subscribe_err = 0) :
    consume_messages w lf config =
      (consume_loop lf config w.polls true 0).map (fun r =>
        (0,
          [Event.subscribe config.topic RD_KAFKA_PARTITION_UA w.subscribe_err] ++
          log_message lf 1 "INFO" ("Subscribed to topic '" ++ config.topic ++ "'") ++
          log_message lf 1 "INFO" "Waiting for messages... (Press Ctrl+C to stop)" ++
          r.2 ++
          log_message lf 1 "INFO" ("Consumed " ++ fmt_d r.1 ++ " messages"))) := by
  unfold consume_messages
  rw [if_neg (by simp [hsub])]
  cases consume_loop lf config w.polls true 0 <;> rfl

/-- C10: `consume_messages` counts and stores exactly the successfully
received messages.  With `message_count = N > 0`, a successful subscription
and no signal: when it returns, it has polled a run of the poll results that
ends with a received message and holds exactly N received messages (so it
stopped at the N-th one), it made one poll call per result of that run, it
stored the offsets of exactly the received messages of the run, in order,
and it reports N; and it does return once the poll results hold N received
messages.  A poll adds 1 to the count when it is a received message and 0
otherwise (timeout, partition end, error).  With `message_count = 0` the
loop condition is the `run` flag alone. -/
theorem C10_consume_counts_received_messages (w : World) (lf : Bool) (config : Config)
    (hN : 0 < config.message_count) (hsub : w.subscribe_err = 0)
    (hnosig : ∀ p ∈ w.polls, p.signal = none) :
    (∀ ret events, consume_messages w lf config = some (ret, events) →
      ∃ consumed rest last, w.polls = consumed ++ rest ∧ consumed.getLast? = some last ∧
        last.received.isSome = true ∧
        ((received consumed).length : Int) = config.message_count ∧
        poll_calls events = consumed.length ∧
        stored_offsets events =
          (received consumed).map (fun m => (m.topic, m.partition, m.offset)) ∧
        Event.log "INFO" ("Consumed " ++ fmt_d config.message_count ++ " messages") lf ∈
          events) ∧
    (config.message_count ≤ ((received w.polls).length : Int) →
      (consume_messages w lf config).isSome = true) ∧
    (∀ (k : Int) (p : PollStep),
      (poll_body lf config k p.msg).1 = k + (if p.received.isSome then 1 else 0)) ∧
    (∀ (c : Config) (run : Bool) (k : Int), c.message_count = 0 → loop_cond c run k = run) := by
  refine ⟨?_, ?_, fun k p => poll_body_count lf config k p, ?_⟩
  · intro ret events h
    rw [consume_messages_subscribed w lf config hsub] at h
    cases hloop : consume_loop lf config w.polls true 0 with
    | none => rw [hloop] at h; simp at h
    | some r =>
      rw [hloop] at h
      simp only [Option.map_some', Option.some.injEq, Prod.mk.injEq] at h
      obtain ⟨hfinal, consumed, rest, last, hsplit, hlast, hgood, hcount, hpolls, hstored⟩ :=
        consume_loop_counts lf config hN w.polls 0 hN hnosig r.1 r.2 hloop
      refine ⟨consumed, rest, last, hsplit, hlast, hgood, by simpa using hcount, ?_, ?_, ?_⟩
      · rw [← h.2]
        simp only [poll_calls_append, poll_calls_log, hpolls]
        simp [poll_calls, Event.is_consumer_poll]
      · rw [← h.2]
        simp only [stored_offsets_append, stored_offsets_log, hstored]
        simp [stored_offsets]
      · rw [← h.2, hfinal, log_message_one lf "INFO" ("Consumed " ++ _ ++ " messages")]
        simp
  · intro hlen
    rw [consume_messages_subscribed w lf config hsub, Option.isSome_map']
    exact consume_loop_ends lf config hN w.polls 0 hnosig (by simpa using hlen)
  · intro c run k h0
    simp [loop_cond, h0]

/-- C10 on six polls (timeout, message, partition end, error, message,
message) with `message_count = 2`: the consumer returns. -/
theorem C10_consume_counts_received_messages_witness :
    (0 : Int) < consumer_config.message_count ∧ consumer_world.subscribe_err = 0 ∧
    (consume_messages consumer_world true consumer_config).isSome = true :=
  ⟨by decide, rfl,
    (C10_consume_counts_received_messages consumer_world true consumer_config (by decide) rfl
      (by decide)).2.1 (by decide)⟩

/-! ## The events of produce_messages -/

theorem serve_reports_all {P : Event → Prop} (w : World) (lf : Bool) (config : Config)
    (hlog : ∀ level text, P (Event.log level text lf)) (reports : List Delivery) :
    ∀ e ∈ serve_reports w lf config reports, P e := by
  induction reports with
  | nil => exact all_nil
  | cons r rs ih =>
    unfold serve_reports
    refine all_append ?_ ih
    unfold dr_msg_cb
    split <;> exact log_message_all _ _ _ _ (hlog _ _)

theorem produce_iteration_all {P : Event → Prop} (w : World) (lf : Bool) (config : Config)
    (i : Nat) (hlog : ∀ level text, P (Event.log level text lf))
    (hproduce : P (Event.producev config.topic (message_text w i) none (w.producev_err i)))
    (hpoll : P (Event.kafka_poll 0)) (hsleep : P (Event.usleep 10000)) :
    ∀ e ∈ produce_iteration w lf config i, P e := by
  unfold produce_iteration
  refine all_append (all_append (all_append (all_append (all_cons hproduce all_nil) ?_)
    (all_cons hpoll all_nil)) (serve_reports_all w lf config hlog _)) (all_cons hsleep all_nil)
  split <;> exact log_message_all _ _ _ _ (hlog _ _)

theorem produce_loop_all {P : Event → Prop} (w : World) (lf : Bool) (config : Config)
    (hlog : ∀ level text, P (Event.log level text lf))
    (hproduce : ∀ i, P (Event.producev config.topic (message_text w i) none (w.producev_err i)))
    (hpoll : P (Event.kafka_poll 0)) (hsleep : P (Event.usleep 10000)) (remaining : Nat) :
    ∀ i, ∀ e ∈ produce_loop w lf config remaining i, P e := by
  induction remaining with
  | zero => intro i; exact all_nil
  | succ n ih =>
    intro i
    unfold produce_loop
    exact all_append (produce_iteration_all w lf config i hlog (hproduce i) hpoll hsleep)
      (ih (i + 1))

/-- C11, refuted as stated: every produce call is accepted and the final
flush times out (error -185); `produce_messages` still ends with the line
`Produced 2 messages successfully` and returns 0. -/
theorem C11_counterexample :
    flush_timeout_world.flush_err ≠ 0 ∧
    Event.flush 10000 (-185) ∈ (produce_messages flush_timeout_world true producer_config).2 ∧
    (produce_messages flush_timeout_world true producer_config).2.getLast? =
      some (Event.log "INFO" "Produced 2 messages successfully" true) ∧
    (produce_messages flush_timeout_world true producer_config).1 = 0 := by
  refine ⟨by decide, by decide, by decide, rfl⟩

/-- C11 as amended: `produce_messages` calls `rd_kafka_flush` once, with a
timeout of 10000 ms, after the last produce call, and ignores its result:
whatever `rd_kafka_flush` returns, `produce_messages` returns 0. -/
theorem C11_flush_result_is_ignored (w : World) (lf : Bool) (config : Config) :
    (produce_messages w lf config).1 = 0 ∧
    ∃ before after,
      (produce_messages w lf config).2 = before ++ Event.flush 10000 w.flush_err :: after ∧
      (∀ e ∈ before, e.is_flush = false) ∧
      (∀ e ∈ after, e.is_flush = false ∧ e.is_producev = false) := by
  refine ⟨rfl,
    log_message lf 1 "INFO"
      ("Starting to produce " ++ fmt_d config.message_count ++ " messages to topic '" ++
        config.topic ++ "'...") ++
      produce_loop w lf config config.message_count.toNat 0 ++
      log_message lf 1 "INFO" "Flushing messages...",
    serve_reports w lf config w.flush_reports ++
      log_message lf 1 "INFO"
        ("Produced " ++ fmt_d config.message_count ++ " messages successfully"),
    ?_, ?_, ?_⟩
  · simp only [produce_messages, List.append_assoc, List.singleton_append, List.cons_append,
      List.nil_append]
  · exact all_append (all_append (log_message_all _ _ _ _ rfl)
      (produce_loop_all (P := fun e => e.is_flush = false) w lf config (fun _ _ => rfl)
        (fun _ => rfl) rfl rfl _ 0))
      (log_message_all _ _ _ _ rfl)
  · exact all_append (serve_reports_all w lf config (fun _ _ => ⟨rfl, rfl⟩) _)
      (log_message_all _ _ _ _ ⟨rfl, rfl⟩)

theorem produce_loop_mem (w : World) (lf : Bool) (config : Config) (remaining : Nat) :
    ∀ (start i : Nat), start ≤ i → i < start + remaining →
      ∀ e ∈ produce_iteration w lf config i, e ∈ produce_loop w lf config remaining start := by
  induction remaining with
  | zero => intro start i h1 h2; omega
  | succ n ih =>
    intro start i h1 h2 e he
    unfold produce_loop
    by_cases hi : i = start
    · subst hi
      exact List.mem_append_left _ he
    · exact List.mem_append_right _ (ih (start + 1) i (by omega) (by omega) e he)

/-- C12 (code defect): the final report of `produce_messages` always carries the
configured `message_count`, not the number of produce calls that succeeded.
When the first of two produce calls fails, the failure is reported at ERROR
level with its number, one call has succeeded, and the run still ends with
`Produced 2 messages successfully`.  In general every failed produce call is
reported at ERROR level with its message number, and the last line is
`Produced <message_count> messages successfully` whatever the calls returned. -/
theorem C12_final_report_ignores_failures :
    (Event.log "ERROR" "Failed to produce message 1: Local: Queue full" true ∈
        (produce_messages first_fails_world true producer_config).2 ∧
      ((produce_messages first_fails_world true producer_config).2.filter
        Event.is_produced).length = 1 ∧
      (produce_messages first_fails_world true producer_config).2.getLast? =
        some (Event.log "INFO" "Produced 2 messages successfully" true)) ∧
    (∀ (w : World) (lf : Bool) (config : Config) (i : Nat),
      i < config.message_count.toNat → w.producev_err i ≠ 0 →
      Event.log "ERROR"
          ("Failed to produce message " ++ fmt_d (i + 1) ++ ": " ++
            w.err2str (w.producev_err i)) lf ∈
        (produce_messages w lf config).2) ∧
    (∀ (w : World) (lf : Bool) (config : Config),
      (produce_messages w lf config).2.getLast? =
        some (Event.log "INFO"
          ("Produced " ++ fmt_d config.message_count ++ " messages successfully") lf)) := by
  refine ⟨⟨by decide, by decide, by decide⟩, ?_, ?_⟩
  · intro w lf config i hi herr
    have hiter : Event.log "ERROR"
        ("Failed to produce message " ++ fmt_d (i + 1) ++ ": " ++
          w.err2str (w.producev_err i)) lf ∈ produce_iteration w lf config i := by
      unfold produce_iteration
      rw [if_pos herr, log_message_one]
      simp
    have hloop := produce_loop_mem w lf config config.message_count.toNat 0 i (by omega)
      (by omega) _ hiter
    unfold produce_messages
    simp only [List.mem_append]
    exact Or.inl (Or.inl (Or.inl (Or.inl (Or.inr hloop))))
  · intro w lf config
    unfold produce_messages
    rw [log_message_one lf "INFO" ("Produced " ++ _ ++ " messages successfully")]
    exact List.getLast?_concat _

/-- C13: `print_config` masks the key password.  Two configs that differ only
in their non-empty `ssl_key_password` give exactly the same sequence of log
lines; the password line (the eighth) is `Key Password: ***` when a password
is set and `Key Password: (not set)` when it is empty. -/
theorem C13_print_config_masks_password (lf : Bool) (c1 c2 : Config)
    (hsame : { c2 with ssl_key_password := c1.ssl_key_password } = c1)
    (h1 : c1.ssl_key_password.length > 0) (h2 : c2.ssl_key_password.length > 0) :
    print_config lf c1 = print_config lf c2 ∧
    (print_config lf c1)[7]? = some (Event.log "CONFIG" "Key Password: ***" lf) ∧
    (∀ c : Config, c.ssl_key_password.length = 0 →
      (print_config lf c)[7]? = some (Event.log "CONFIG" "Key Password: (not set)" lf)) := by
  refine ⟨?_, ?_, ?_⟩
  · rw [← hsame]
    simp only [print_config, if_pos h1, if_pos h2]
  · simp only [print_config, log_message, if_pos h1]
    rfl
  · intro c hc
    have hc' : ¬ c.ssl_key_password.length > 0 := by omega
    simp only [print_config, log_message, if_neg hc']
    rfl

/-- C13 on the defaults with the passwords `secret` and `hunter2`. -/
theorem C13_print_config_masks_password_witness :
    print_config true { set_defaults Config.zeroed with ssl_key_password := "secret" } =
      print_config true { set_defaults Config.zeroed with ssl_key_password := "hunter2" } ∧
    (print_config true { set_defaults Config.zeroed with ssl_key_password := "secret" })[7]? =
      some (Event.log "CONFIG" "Key Password: ***" true) :=
  have h := C13_print_config_masks_password true
    { set_defaults Config.zeroed with ssl_key_password := "secret" }
    { set_defaults Config.zeroed with ssl_key_password := "hunter2" } rfl (by decide) (by decide)
  ⟨h.1, h.2.1⟩

/-- The argument loop returns at the first `-h` or `-V` it reaches. -/
theorem parse_args_help (program version_str : String) (args : List String) (st : Args) :
    reaches_help args = true →
      parse_args program version_str args st = Sum.inl ⟨0, [Event.print_usage program]⟩ ∨
      parse_args program version_str args st =
        Sum.inl ⟨0, [Event.print_version version_str]⟩ := by
  induction args, st using parse_args.induct program version_str <;> intro h
  all_goals unfold parse_args
  all_goals unfold reaches_help at h
  all_goals simp +decide only [*, if_true, if_false, reduceCtorEq, or_self, or_true, true_or,
    or_false, false_or, Bool.false_eq_true] at h ⊢
  all_goals first
    | (rename_i ih; exact ih h)
    | (split at h <;> simp [reaches_help] at h)

/-- C14: when the arguments after the program name hold a `-h` or `-V` that
the left-to-right scan reaches (not taken as the operand of a `-c` or `-m`
before it), `main` exits with code 0, and all it does is print the usage or
the version: it loads no config file, opens no log file and makes no call
on the client library. -/
theorem C14_help_and_version_exit_0 (w : World) (program : String) (args : List String)
    (hreach : reaches_help args = true) :
    ∃ out, main w (program :: args) = some out ∧ out.exit_code = 0 ∧
      (out.trace = [Event.print_usage program] ∨
        out.trace = [Event.print_version w.version_str]) ∧
      ∀ e ∈ out.trace, e.is_startup_work = false := by
  have hargs : (program :: args).length ≠ 1 := by
    cases args with
    | nil => simp [reaches_help] at hreach
    | cons a rest => simp
  have hmain : ∀ out, parse_args program w.version_str args Args.initial = Sum.inl out →
      main w (program :: args) = some out := by
    intro out h
    unfold main read_invocation
    rw [if_neg hargs]
    simp only [List.headD_cons, List.tail_cons, h]
  rcases parse_args_help program w.version_str args Args.initial hreach with h | h
  · exact ⟨_, hmain _ h, rfl, Or.inl rfl, by simp [Event.is_startup_work, Event.is_client_call]⟩
  · exact ⟨_, hmain _ h, rfl, Or.inr rfl, by simp [Event.is_startup_work, Event.is_client_call]⟩

/-- C14 on `-c x.ini -m -h -V produce`: the `-h` is the operand of `-m`, the `-V` is reached. -/
theorem C14_help_and_version_exit_0_witness :
    ∃ out, main sample_world ["kafka_cli", "-c", "x.ini", "-m", "-h", "-V", "produce"] =
        some out ∧ out.exit_code = 0 ∧
      (out.trace = [Event.print_usage "kafka_cli"] ∨
        out.trace = [Event.print_version sample_world.version_str]) ∧
      ∀ e ∈ out.trace, e.is_startup_work = false :=
  C14_help_and_version_exit_0 sample_world "kafka_cli"
    ["-c", "x.ini", "-m", "-h", "-V", "produce"] (by decide)

/-! ## The verbose setting -/

/-- A key that is none of the 17 names leaves the config as it is. -/
theorem assign_key_unrecognised (key : String) (value : List Char) (config : Config)
    (h : key ∉ recognised_keys) : assign_key key value config = config := by
  simp only [recognised_keys, List.mem_cons, List.mem_singleton, List.not_mem_nil, or_false,
    not_or] at h
  obtain ⟨h1, h2, h3, h4, h5, h6, h7, h8, h9, h10, h11, h12, h13, h14, h15, h16, h17⟩ := h
  simp only [assign_key, if_neg h1, if_neg h2, if_neg h3, if_neg h4, if_neg h5, if_neg h6,
    if_neg h7, if_neg h8, if_neg h9, if_neg h10, if_neg h11, if_neg h12, if_neg h13, if_neg h14,
    if_neg h15, if_neg h16, if_neg h17]

/-- A line sets at most the field its key names. -/
theorem assign_key_field (key k : String) (value : List Char) (config : Config)
    (hk : k ≠ key) : (assign_key k value config).field key = config.field key := by
  by_cases hrec : k ∈ recognised_keys
  · have hk2 : ¬ key = k := fun h => hk h.symm
    simp only [recognised_keys, List.mem_cons, List.mem_singleton, List.not_mem_nil,
      or_false] at hrec
    rcases hrec with h | h | h | h | h | h | h | h | h | h | h | h | h | h | h | h | h <;>
      subst h <;> simp +decide only [assign_key, Config.field, if_true, if_false, hk2]
  · rw [assign_key_unrecognised k value config hrec]

/-- A field keeps its value over lines none of which has its key. -/
theorem foldl_field_absent (key : String) (lines : List (List Char)) :
    ∀ (config : Config),
      (∀ line ∈ lines, (split_key_value line).map Prod.fst ≠ some key) →
      (lines.foldl (fun c line => parse_ini_line line c) config).field key =
        config.field key := by
  induction lines with
  | nil => intro config _; rfl
  | cons line rest ih =>
    intro config hkeys
    rw [List.foldl_cons, ih _ (fun l hl => hkeys l (List.mem_cons_of_mem _ hl))]
    unfold parse_ini_line
    cases h : split_key_value line with
    | none => rfl
    | some kv =>
      obtain ⟨k, v⟩ := kv
      refine assign_key_field key k v config ?_
      intro hk
      exact hkeys line (List.mem_cons_self _ _) (by rw [h, hk]; rfl)

/-- Lines without a recognised key leave the config as it is. -/
theorem foldl_unrecognised (lines : List (List Char)) :
    ∀ (config : Config),
      (∀ line ∈ lines, ∀ k, (split_key_value line).map Prod.fst = some k →
        k ∉ recognised_keys) →
      lines.foldl (fun c line => parse_ini_line line c) config = config := by
  induction lines with
  | nil => intro config _; rfl
  | cons line rest ih =>
    intro config hkeys
    have hline : parse_ini_line line config = config := by
      unfold parse_ini_line
      cases h : split_key_value line with
      | none => rfl
      | some kv =>
        obtain ⟨k, v⟩ := kv
        exact assign_key_unrecognised k v config
          (hkeys line (List.mem_cons_self _ _) k (by rw [h]; rfl))
    rw [List.foldl_cons, hline]
    exact ih config (fun l hl => hkeys l (List.mem_cons_of_mem _ hl))

theorem mem_ini_keys (key : String) (content : String) (line : List Char)
    (hline : line ∈ fgets_lines content.length content.data)
    (hkey : (split_key_value line).map Prod.fst = some key) : key ∈ ini_keys content := by
  unfold ini_keys
  rw [List.mem_filterMap]
  exact ⟨line, hline, hkey⟩

/-- C16, refuted as stated: the file `topic.ini` is one comment line (`#`,
1022 blanks, then `topic = hidden`), so it contains no key, recognised or
not, and the key `topic` is absent from it; yet `parse_ini_file` leaves the
topic `hidden`, not the default `test-topic`. -/
theorem C16_counterexample :
    long_comment_world.read_file "topic.ini" = some (long_comment "topic = hidden") ∧
    line_keys (long_comment "topic = hidden") = [] ∧
    (parse_ini_file long_comment_world false "topic.ini" Config.zeroed).2.1 =
      { default_config with topic := "hidden" } ∧
    (parse_ini_file long_comment_world false "topic.ini" Config.zeroed).2.1 ≠ default_config ∧
    (parse_ini_file long_comment_world false "topic.ini" Config.zeroed).2.1.field "topic" ≠
      default_config.field "topic" := by
  have hparse : (parse_ini_file long_comment_world false "topic.ini" Config.zeroed).2.1 =
      { default_config with topic := "hidden" } := by
    rw [parse_ini_file_config long_comment_world false "topic.ini" Config.zeroed _ rfl,
      parse_long_comment]
    decide
  refine ⟨rfl, line_keys_long_comment _ (by decide), hparse, ?_, ?_⟩
  · rw [hparse]
    decide
  · rw [hparse]
    decide

/-- C16 as amended: `parse_ini_file` returns 0.  When the file cannot be
opened the config is the built-in defaults: brokers `localhost:9092`, topic
`test-topic`, security protocol `SSL`, empty CA, certificate and key paths
and key password, skip-verify 0, batch size 16384, linger 5, acks 1, group id
`kafka-cli-consumer`, auto-offset-reset `earliest`, session timeout 45000,
auto-commit `true`, verbose 0, message count 10.  For a file every line of
which fits the line buffer (at most 1023 characters, newline included): when
the file contains no recognised key the config is those defaults, and a key
that is absent from the file keeps its default.  For any file the same holds
of the keys of the pieces that `fgets` reads (`file_keys`). -/
theorem C16_parse_ini_file_defaults (w : World) (lf : Bool) (filename : String)
    (config : Config) :
    (parse_ini_file w lf filename config).1 = 0 ∧
    (w.read_file filename = none →
      (parse_ini_file w lf filename config).2.1 = default_config) ∧
    (∀ content, w.read_file filename = some content →
      (∀ line ∈ text_lines content.data, line.length ≤ MAX_LINE_LENGTH - 1) →
      ((∀ k ∈ line_keys content, k ∉ recognised_keys) →
        (parse_ini_file w lf filename config).2.1 = default_config) ∧
      (∀ key, key ∉ line_keys content →
        (parse_ini_file w lf filename config).2.1.field key = default_config.field key)) ∧
    (∀ key, key ∉ file_keys w filename →
      (parse_ini_file w lf filename config).2.1.field key = default_config.field key) ∧
    ((∀ k ∈ file_keys w filename, k ∉ recognised_keys) →
      (parse_ini_file w lf filename config).2.1 = default_config) := by
  have habsent : ∀ key, key ∉ file_keys w filename →
      (parse_ini_file w lf filename config).2.1.field key = default_config.field key := by
    intro key hkey
    unfold parse_ini_file
    unfold file_keys at hkey
    cases hfile : w.read_file filename with
    | none => rfl
    | some content =>
      rw [hfile] at hkey
      simp only
      rw [parse_ini_lines_eq_foldl, foldl_field_absent key _ _ (not_mem_ini_keys key content hkey)]
      rfl
  have hnone : (∀ k ∈ file_keys w filename, k ∉ recognised_keys) →
      (parse_ini_file w lf filename config).2.1 = default_config := by
    intro hnone
    unfold parse_ini_file
    unfold file_keys at hnone
    cases hfile : w.read_file filename with
    | none => rfl
    | some content =>
      rw [hfile] at hnone
      simp only
      rw [parse_ini_lines_eq_foldl, foldl_unrecognised _ _
        (fun line hline k hk => hnone k (mem_ini_keys k content line hline hk))]
      rfl
  have hkeys : ∀ content, w.read_file filename = some content →
      (∀ line ∈ text_lines content.data, line.length ≤ MAX_LINE_LENGTH - 1) →
      file_keys w filename = line_keys content := by
    intro content hfile hfit
    unfold file_keys
    rw [hfile]
    exact ini_keys_eq_line_keys content hfit
  refine ⟨parse_ini_file_ret w lf filename config, ?_, ?_, habsent, hnone⟩
  · intro hfile
    unfold parse_ini_file
    rw [hfile]
    rfl
  · intro content hfile hfit
    constructor
    · intro h
      exact hnone (by rw [hkeys content hfile hfit]; exact h)
    · intro key hkey
      exact habsent key (by rw [hkeys content hfile hfit]; exact hkey)

/-- C16 as amended on `plain.ini`, whose two lines fit the buffer and which
has no `topic` line. -/
theorem C16_parse_ini_file_defaults_witness :
    sample_world.read_file "plain.ini" =
      some "security_protocol = PLAINTEXT\nmessage_count = 2\n" ∧
    (∀ line ∈ text_lines "security_protocol = PLAINTEXT\nmessage_count = 2\n".data,
      line.length ≤ MAX_LINE_LENGTH - 1) ∧
    "topic" ∉ line_keys "security_protocol = PLAINTEXT\nmessage_count = 2\n" ∧
    (parse_ini_file sample_world false "plain.ini" Config.zeroed).1 = 0 ∧
    (parse_ini_file sample_world false "plain.ini" Config.zeroed).2.1.field "topic" =
      some (Sum.inl "test-topic") :=
  have h := C16_parse_ini_file_defaults sample_world false "plain.ini" Config.zeroed
  ⟨rfl, by decide, by decide, h.1,
    ((h.2.2.1 "security_protocol = PLAINTEXT\nmessage_count = 2\n" rfl (by decide)).2 "topic"
      (by decide)).trans (by decide)⟩

/-! ## sanitize_filename -/

/-- The character `sanitize_filename` stores: the character itself when it is
an ASCII letter, a digit, `-` or `_`, else `_`. -/
theorem sanitize_char_spec (c : Char) :
    sanitize_char c = if is_filename_char c then c else '_' := by
  unfold sanitize_char is_filename_char
  simp only [Char.isAlpha, Char.isUpper, Char.isLower, Char.isDigit, Bool.or_eq_true,
    Bool.and_eq_true, decide_eq_true_eq, beq_iff_eq, Char.le_def, UInt32.le_def]
  have ha : 'a'.val = (97 : UInt32) := rfl
  have hz : 'z'.val = (122 : UInt32) := rfl
  have hA : 'A'.val = (65 : UInt32) := rfl
  have hZ : 'Z'.val = (90 : UInt32) := rfl
  have h0 : '0'.val = (48 : UInt32) := rfl
  have h9 : '9'.val = (57 : UInt32) := rfl
  rw [ha, hz, hA, hZ, h0, h9]
  congr 1
  exact propext (by tauto)

theorem sanitize_loop_eq (limit : Nat) (src : List Char) :
    ∀ j, sanitize_loop limit src j = (src.take (limit - j)).map sanitize_char := by
  induction src with
  | nil => intro j; simp [sanitize_loop]
  | cons c cs ih =>
    intro j
    unfold sanitize_loop
    by_cases h : j < limit
    · rw [if_pos h, ih (j + 1)]
      have : limit - j = (limit - (j + 1)) + 1 := by omega
      rw [this, List.take_succ_cons, List.map_cons]
    · rw [if_neg h]
      have : limit - j = 0 := by omega
      rw [this]
      rfl

theorem sanitize_filename_eq (src : List Char) (size : Nat) (h1 : 1 ≤ size)
    (h2 : size < 2 ^ 64) :
    sanitize_filename src size = (src.take (size - 1)).map sanitize_char := by
  unfold sanitize_filename
  rw [sanitize_loop_eq]
  have : (size + 2 ^ 64 - 1) % 2 ^ 64 = size - 1 := by
    have h3 : size + 2 ^ 64 - 1 = (size - 1) + 2 ^ 64 := by omega
    rw [h3, Nat.add_mod_right, Nat.mod_eq_of_lt (by omega)]
  rw [this, Nat.sub_zero]

/-- C17: for a C string `src` and a buffer size from 1 up (a `size_t`),
`sanitize_filename` leaves a string of length `min(len(src), size - 1)`
whose character at every position is the character of `src` there when that
is an ASCII letter, a digit, `-` or `_`, and `_` otherwise. -/
theorem C17_sanitize_filename (src : List Char) (size : Nat) (h1 : 1 ≤ size)
    (h2 : size < 2 ^ 64) :
    (sanitize_filename src size).length = min src.length (size - 1) ∧
    ∀ i, i < (sanitize_filename src size).length →
      (sanitize_filename src size)[i]? =
        (src[i]?).map (fun c => if is_filename_char c then c else '_') := by
  rw [sanitize_filename_eq src size h1 h2]
  refine ⟨?_, ?_⟩
  · rw [List.length_map, List.length_take, Nat.min_comm]
  · intro i hi
    rw [List.length_map, List.length_take] at hi
    rw [List.getElem?_map, List.getElem?_take_of_lt (by omega)]
    cases src[i]? with
    | none => rfl
    | some c => simp only [Option.map_some', sanitize_char_spec]

/-- C17 on the topic `my.topic/1` with a buffer of 8 bytes. -/
theorem C17_sanitize_filename_witness :
    (sanitize_filename "my.topic/1".data 8).length = min "my.topic/1".data.length (8 - 1) ∧
    ∀ i, i < (sanitize_filename "my.topic/1".data 8).length →
      (sanitize_filename "my.topic/1".data 8)[i]? =
        ("my.topic/1".data[i]?).map (fun c => if is_filename_char c then c else '_') :=
  C17_sanitize_filename "my.topic/1".data 8 (by decide) (by decide)

/-! ## trim_whitespace -/

theorem dropWhile_head_false (p : Char → Bool) (l : List Char) (c : Char) (rest : List Char)
    (h : l.dropWhile p = c :: rest) : p c = false := by
  induction l with
  | nil => simp at h
  | cons x xs ih =>
    rw [List.dropWhile_cons] at h
    split at h
    · exact ih h
    · rename_i hx
      simp only [List.cons.injEq] at h
      rw [← h.1]
      simpa using hx

theorem takeWhile_all (p : Char → Bool) (l : List Char) : ∀ c ∈ l.takeWhile p, p c = true := by
  intro c hc
  exact (List.mem_takeWhile_imp hc)

/-- C18: `trim_whitespace` cuts white space off both ends and keeps the rest:
the string is some leading white space, the result, and some trailing white
space; the result neither begins nor ends with a white-space character; an
empty or all-white-space string gives the empty string.  White space is
space, tab, newline, vertical tab, form feed and carriage return. -/
theorem C18_trim_whitespace (s : List Char) :
    (∃ leading trailing, s = leading ++ trim_whitespace s ++ trailing ∧
      (∀ c ∈ leading, isspace c = true) ∧ (∀ c ∈ trailing, isspace c = true)) ∧
    (∀ c, (trim_whitespace s).head? = some c → isspace c = false) ∧
    (∀ c, (trim_whitespace s).getLast? = some c → isspace c = false) ∧
    ((∀ c ∈ s, isspace c = true) → trim_whitespace s = []) ∧
    (∀ c, isspace c = true ↔
      c ∈ [' ', Char.ofNat 9, Char.ofNat 10, Char.ofNat 11, Char.ofNat 12, Char.ofNat 13]) := by
  have hsplit : s = s.takeWhile isspace ++ s.dropWhile isspace :=
    (List.takeWhile_append_dropWhile isspace s).symm
  refine ⟨?_, ?_, ?_, ?_, ?_⟩
  · unfold trim_whitespace
    cases hdrop : s.dropWhile isspace with
    | nil =>
      refine ⟨s.takeWhile isspace, [], ?_, takeWhile_all _ _, by simp⟩
      rw [hdrop] at hsplit
      simpa using hsplit
    | cons c rest =>
      refine ⟨s.takeWhile isspace, (rest.reverse.takeWhile isspace).reverse, ?_,
        takeWhile_all _ _, ?_⟩
      · have hrest : rest = (rest.reverse.dropWhile isspace).reverse ++
            (rest.reverse.takeWhile isspace).reverse := by
          rw [← List.reverse_append, List.takeWhile_append_dropWhile, List.reverse_reverse]
        rw [hdrop] at hsplit
        simp only [List.append_assoc, List.cons_append]
        rw [← hrest]
        exact hsplit
      · intro x hx
        exact takeWhile_all isspace _ x (List.mem_reverse.mp hx)
  · intro c hc
    unfold trim_whitespace at hc
    cases hdrop : s.dropWhile isspace with
    | nil => rw [hdrop] at hc; simp at hc
    | cons x rest =>
      rw [hdrop] at hc
      simp only [List.head?_cons, Option.some.injEq] at hc
      rw [← hc]
      exact dropWhile_head_false isspace s x rest hdrop
  · intro c hc
    unfold trim_whitespace at hc
    cases hdrop : s.dropWhile isspace with
    | nil => rw [hdrop] at hc; simp at hc
    | cons x rest =>
      rw [hdrop] at hc
      simp only at hc
      cases hrev : rest.reverse.dropWhile isspace with
      | nil =>
        rw [hrev] at hc
        simp only [List.reverse_nil, List.getLast?_singleton, Option.some.injEq] at hc
        rw [← hc]
        exact dropWhile_head_false isspace s x rest hdrop
      | cons y ys =>
        rw [hrev] at hc
        have hlast : (x :: (y :: ys).reverse).getLast? = some y := by
          rw [List.reverse_cons, ← List.cons_append, List.getLast?_concat]
        rw [hlast] at hc
        simp only [Option.some.injEq] at hc
        rw [← hc]
        exact dropWhile_head_false isspace _ y ys hrev
  · intro hall
    unfold trim_whitespace
    have : s.dropWhile isspace = [] := by
      rw [List.dropWhile_eq_nil_iff]
      exact hall
    rw [this]
  · intro c
    simp only [isspace, Bool.or_eq_true, decide_eq_true_eq, List.mem_cons, List.mem_singleton,
      List.not_mem_nil, or_false]
    tauto

set_option maxRecDepth 100000 in
/-- C19, refuted as stated: for a topic of 300 letters `a` and the mode
`produce`, `init_log_file` opens `logs/` followed by 255 letters `a`: the
name holds only the first 255 characters of the topic, does not end in
`.log` and does not contain the mode. -/
theorem C19_counterexample :
    (init_log_file sample_world long_topic "produce").2 =
      [Event.mkdir_logs,
       Event.open_log ("logs/" ++ String.mk (List.replicate 255 'a')) true] ∧
    ¬ (".log".data <:+ ("logs/" ++ String.mk (List.replicate 255 'a')).data) ∧
    ¬ ("produce".data <:+: ("logs/" ++ String.mk (List.replicate 255 'a')).data) := by
  refine ⟨by decide, by decide, by decide⟩

theorem log_file_path_eq (datetime topic mode : String) :
    log_file_path datetime topic mode =
      "logs/" ++ String.mk ((String.mk ((topic.data.take 255).map sanitize_char) ++ "_" ++ mode ++
        "_" ++ datetime ++ ".log").data.take 255) := by
  unfold log_file_path
  rw [sanitize_filename_eq topic.data 256 (by decide) (by decide)]
  rfl

/-- C19 as amended: `init_log_file` creates the directory `logs` and opens
`logs/` followed by the first 255 characters of `<T>_<mode>_<datetime>.log`,
where `<T>` is the sanitized image of the first 255 characters of the topic
and `<datetime>` the start time as `strftime` formats it.  When the topic,
the mode and the datetime are short enough for the whole name to fit in 255
characters, the path is `logs/<T>_<mode>_<datetime>.log` with `<T>` the
image of the whole topic; it then ends in `.log` and contains the mode. -/
theorem C19_log_file_path (w : World) (topic mode : String)
    (hfit : topic.length + mode.length + w.datetime.length + 6 ≤ 255) :
    (init_log_file w topic mode).2 =
      [Event.mkdir_logs,
       Event.open_log (log_file_path w.datetime topic mode)
         (w.log_file_opens (log_file_path w.datetime topic mode))] ∧
    log_file_path w.datetime topic mode =
      "logs/" ++ String.mk (topic.data.map sanitize_char) ++ "_" ++ mode ++ "_" ++
        w.datetime ++ ".log" ∧
    ".log".data <:+ (log_file_path w.datetime topic mode).data ∧
    mode.data <:+: (log_file_path w.datetime topic mode).data ∧
    (∀ topic2 mode2 : String,
      log_file_path w.datetime topic2 mode2 =
        "logs/" ++ String.mk ((String.mk ((topic2.data.take 255).map sanitize_char) ++ "_" ++
          mode2 ++ "_" ++ w.datetime ++ ".log").data.take 255)) := by
  have hpath : log_file_path w.datetime topic mode =
      "logs/" ++ String.mk (topic.data.map sanitize_char) ++ "_" ++ mode ++ "_" ++
        w.datetime ++ ".log" := by
    rw [log_file_path_eq]
    have hfit2 : topic.data.length + mode.data.length + w.datetime.data.length + 6 ≤ 255 :=
      hfit
    have htopic : topic.data.take 255 = topic.data := List.take_of_length_le (by omega)
    rw [htopic]
    have hlen : (String.mk (topic.data.map sanitize_char) ++ "_" ++ mode ++ "_" ++
        w.datetime ++ ".log").data.length ≤ 255 := by
      simp only [String.data_append, List.length_append, List.length_map, List.length_cons,
        List.length_nil]
      omega
    rw [List.take_of_length_le hlen]
    simp only [String.append_assoc]
  refine ⟨rfl, hpath, ?_, ?_, fun topic2 mode2 => log_file_path_eq _ _ _⟩
  · rw [hpath]
    exact ⟨_, (String.data_append _ _).symm⟩
  · rw [hpath]
    refine ⟨("logs/" ++ String.mk (topic.data.map sanitize_char) ++ "_").data,
      ("_" ++ w.datetime ++ ".log").data, ?_⟩
    simp only [String.data_append, List.append_assoc]

/-- C19 as amended, on the topic `orders.v1` and the mode `consume`. -/
theorem C19_log_file_path_witness :
    log_file_path sample_world.datetime "orders.v1" "consume" =
      "logs/orders_v1_consume_20240102_030405.log" ∧
    ".log".data <:+ (log_file_path sample_world.datetime "orders.v1" "consume").data ∧
    "consume".data <:+: (log_file_path sample_world.datetime "orders.v1" "consume").data :=
  have h := C19_log_file_path sample_world "orders.v1" "consume" (by decide)
  ⟨h.2.1, h.2.2.1, h.2.2.2.1⟩

/-- C20: `log_message` emits nothing exactly when the level is `DEBUG` and
`verbose` is 0; in every other case, whatever `verbose` is, it emits the one
line `[timestamp] [level] text` on the console, and the same line goes to the
log file exactly when the file is open. -/
theorem C20_log_message_levels (lf : Bool) (verbose : Int) (level text : String) :
    (log_message lf verbose level text = [] ↔ (level = "DEBUG" ∧ verbose = 0)) ∧
    (¬ (level = "DEBUG" ∧ verbose = 0) →
      log_message lf verbose level text = [Event.log level text lf]) ∧
    (∀ (timestamp : String) (e : Event), e ∈ log_message lf verbose level text →
      console_line timestamp e =
        some ("[" ++ timestamp ++ "] [" ++ level ++ "] " ++ text ++ "\n") ∧
      (lf = true → file_line timestamp e = console_line timestamp e) ∧
      (lf = false → file_line timestamp e = none)) ∧
    (∀ other, other ∈ ["INFO", "WARNING", "ERROR", "CONFIG"] →
      log_message lf verbose other text = [Event.log other text lf]) := by
  have hlog : ¬ (level = "DEBUG" ∧ verbose = 0) →
      log_message lf verbose level text = [Event.log level text lf] := by
    intro h
    unfold log_message
    rw [if_neg (fun hc => h ⟨hc.2, hc.1⟩)]
  refine ⟨⟨?_, ?_⟩, hlog, ?_, ?_⟩
  · intro h
    by_contra hc
    rw [hlog hc] at h
    exact absurd h (by simp)
  · intro h
    unfold log_message
    rw [if_pos ⟨h.2, h.1⟩]
  · intro timestamp e he
    have he2 : e = Event.log level text lf :=
      log_message_all (P := fun x => x = Event.log level text lf) _ _ _ _ rfl e he
    subst he2
    refine ⟨rfl, ?_, ?_⟩ <;> intro h <;> subst h <;> rfl
  · intro other hother
    unfold log_message
    rw [if_neg]
    rintro ⟨_, h⟩
    subst h
    simp at hother

/-! ## show_main_menu -/

theorem show_main_menu_loop_range (fuel : Nat) :
    ∀ (keys : List Int) (selected : Int), 0 ≤ selected → selected ≤ 2 →
      ∀ r rest, show_main_menu_loop fuel keys selected = some (r, rest) →
        r = 1 ∨ r = 2 ∨ r = 3 := by
  induction fuel with
  | zero => intro keys selected _ _ r rest h; simp [show_main_menu_loop] at h
  | succ fuel ih =>
    intro keys selected h0 h2 r rest h
    unfold show_main_menu_loop at h
    cases keys with
    | nil => simp at h
    | cons key ks =>
      simp only at h
      split at h
      · split at h
        · refine ih _ _ ?_ ?_ r rest h <;> split <;> omega
        · split at h
          · refine ih _ _ ?_ ?_ r rest h <;> split <;> omega
          · exact ih _ _ h0 h2 r rest h
      · split at h
        · simp only [Option.some.injEq, Prod.mk.injEq] at h
          omega
        · split at h
          · simp only [Option.some.injEq, Prod.mk.injEq] at h
            omega
          · exact ih _ _ h0 h2 r rest h

/-- C21 (code defect): `show_main_menu` returns 3, not 0, when Exit is chosen,
with the quick-select key `3` as with Enter on the third option (Down, Down,
Enter); Produce gives 1 and Consume gives 2 both ways.  No key sequence makes
it return 0: every value it returns is 1, 2 or 3.  Its caller `run_tui`
takes 3 for Exit. -/
theorem C21_exit_returns_3 :
    show_main_menu [51] = some (3, []) ∧
    show_main_menu [27, 91, 66, 27, 91, 66, 10] = some (3, []) ∧
    show_main_menu [49] = some (1, []) ∧ show_main_menu [10] = some (1, []) ∧
    show_main_menu [50] = some (2, []) ∧ show_main_menu [27, 91, 66, 10] = some (2, []) ∧
    (∀ keys r rest, show_main_menu keys = some (r, rest) → r = 1 ∨ r = 2 ∨ r = 3) ∧
    run_tui { sample_world with keys := [51] } = some (0, "", 3, [Event.tui_goodbye]) := by
  refine ⟨by decide, by decide, by decide, by decide, by decide, by decide, ?_, by decide⟩
  intro keys r rest h
  exact show_main_menu_loop_range _ keys 0 (by omega) (by omega) r rest h

/-! ## show_ini_selector -/

/-- The loop of `show_ini_selector` is its body, pass after pass. -/
theorem show_ini_selector_loop_step (file_count : Int) (fuel : Nat) (key : Int)
    (ks : List Int) (selected : Int) :
    show_ini_selector_loop file_count (fuel + 1) (key :: ks) selected =
      match ini_selector_step file_count key ks selected with
      | Sum.inl r => some r
      | Sum.inr (ks2, s2) => show_ini_selector_loop file_count fuel ks2 s2 := by
  rw [show_ini_selector_loop]
  unfold ini_selector_step
  simp only
  split_ifs <;> rfl

/-- One pass keeps the highlighted index in range and returns only -1 or an index in range. -/
theorem ini_selector_step_range (file_count : Int) (key : Int) (ks : List Int)
    (selected : Int) (h0 : 0 ≤ selected) (h1 : selected < file_count) :
    (∀ r rest, ini_selector_step file_count key ks selected = Sum.inl (r, rest) →
      r = -1 ∨ (0 ≤ r ∧ r < file_count)) ∧
    (∀ ks2 s2, ini_selector_step file_count key ks selected = Sum.inr (ks2, s2) →
      0 ≤ s2 ∧ s2 < file_count) := by
  unfold ini_selector_step
  constructor
  · intro r rest h
    split_ifs at h <;> simp only [Sum.inl.injEq, Prod.mk.injEq, reduceCtorEq] at h <;> omega
  · intro ks2 s2 h
    split_ifs at h <;> simp only [Sum.inr.injEq, Prod.mk.injEq, reduceCtorEq] at h <;> omega

theorem show_ini_selector_loop_range (file_count : Int) (fuel : Nat) :
    ∀ (keys : List Int) (selected : Int), 0 ≤ selected → selected < file_count →
      ∀ r rest, show_ini_selector_loop file_count fuel keys selected = some (r, rest) →
        r = -1 ∨ (0 ≤ r ∧ r < file_count) := by
  induction fuel with
  | zero => intro keys selected _ _ r rest h; simp [show_ini_selector_loop] at h
  | succ fuel ih =>
    intro keys selected h0 h1 r rest h
    cases keys with
    | nil => simp [show_ini_selector_loop] at h
    | cons key ks =>
      rw [show_ini_selector_loop_step] at h
      have hstep := ini_selector_step_range file_count key ks selected h0 h1
      cases hs : ini_selector_step file_count key ks selected with
      | inl res =>
        rw [hs] at h
        simp only [Option.some.injEq] at h
        exact hstep.1 r rest (by rw [hs, h])
      | inr next =>
        obtain ⟨ks2, s2⟩ := next
        rw [hs] at h
        obtain ⟨h2, h3⟩ := hstep.2 ks2 s2 hs
        exact ih ks2 s2 h2 h3 r rest h

/-- C22: for `file_count >= 1`, `show_ini_selector` starts with index 0
highlighted and every pass of its loop keeps the highlighted index within
`0 .. file_count-1` (Up from 0 wraps to `file_count-1`, Down from
`file_count-1` wraps to 0); whatever the keys, a value it returns is -1 or an
index `i` with `0 <= i < file_count`; a digit key `d` in 1..9 returns `d-1`
when `d-1 < file_count` and otherwise changes nothing. -/
theorem C22_ini_selector_index_in_range (file_count : Int) (hcount : 1 ≤ file_count) :
    (∀ keys r rest, show_ini_selector file_count keys = some (r, rest) →
      r = -1 ∨ (0 ≤ r ∧ r < file_count)) ∧
    (∀ fuel key ks selected,
      show_ini_selector_loop file_count (fuel + 1) (key :: ks) selected =
        match ini_selector_step file_count key ks selected with
        | Sum.inl r => some r
        | Sum.inr (ks2, s2) => show_ini_selector_loop file_count fuel ks2 s2) ∧
    (∀ key ks selected, 0 ≤ selected → selected < file_count →
      ∀ ks2 s2, ini_selector_step file_count key ks selected = Sum.inr (ks2, s2) →
        0 ≤ s2 ∧ s2 < file_count) ∧
    (∀ ks, ini_selector_step file_count 27 (91 :: 65 :: ks) 0 = Sum.inr (ks, file_count - 1)) ∧
    (∀ ks, ini_selector_step file_count 27 (91 :: 66 :: ks) (file_count - 1) =
      Sum.inr (ks, 0)) ∧
    (∀ (d : Int) ks selected, 1 ≤ d → d ≤ 9 →
      ini_selector_step file_count (48 + d) ks selected =
        if d - 1 < file_count then Sum.inl (d - 1, ks) else Sum.inr (ks, selected)) := by
  refine ⟨?_, fun fuel key ks selected => show_ini_selector_loop_step _ _ _ _ _, ?_, ?_, ?_, ?_⟩
  · intro keys r rest h
    exact show_ini_selector_loop_range file_count _ keys 0 (by omega) (by omega) r rest h
  · intro key ks selected h0 h1 ks2 s2 h
    exact (ini_selector_step_range file_count key ks selected h0 h1).2 ks2 s2 h
  · intro ks
    simp [ini_selector_step, getchar]
  · intro ks
    simp [ini_selector_step, getchar]
  · intro d ks selected h1 h9
    unfold ini_selector_step
    have hne27 : ¬ (48 + d = 27) := by omega
    have hne10 : ¬ (48 + d = 10) := by omega
    have hdigit : 49 ≤ 48 + d ∧ 48 + d ≤ 57 := by omega
    have hsub : 48 + d - 49 = d - 1 := by omega
    rw [if_neg hne27, if_neg hne10, if_pos hdigit, hsub]

/-- C22 for three files. -/
theorem C22_ini_selector_index_in_range_witness :
    (1 : Int) ≤ 3 ∧
    (∀ keys r rest, show_ini_selector 3 keys = some (r, rest) → r = -1 ∨ (0 ≤ r ∧ r < 3)) ∧
    (∀ ks, ini_selector_step 3 27 (91 :: 65 :: ks) 0 = Sum.inr (ks, 3 - 1)) ∧
    (∀ ks, ini_selector_step 3 27 (91 :: 66 :: ks) (3 - 1) = Sum.inr (ks, 0)) ∧
    (∀ (d : Int) ks selected, 1 ≤ d → d ≤ 9 →
      ini_selector_step 3 (48 + d) ks selected =
        if d - 1 < 3 then Sum.inl (d - 1, ks) else Sum.inr (ks, selected)) :=
  have h := C22_ini_selector_index_in_range 3 (by decide)
  ⟨by decide, h.1, h.2.2.2.1, h.2.2.2.2.1, h.2.2.2.2.2⟩

/-! ## Leaving the group before the teardown -/

theorem not_client_not_destroy (e : Event) (h : e.is_client_call = false) :
    e ≠ Event.kafka_destroy := by
  intro he
  subst he
  simp [Event.is_client_call] at h

theorem is_setup_not_destroy (c : Config) (lf : Bool) (e : Event) (h : e.is_setup c lf) :
    e ≠ Event.kafka_destroy := by
  intro he
  subst he
  exact h

theorem stop_consumer_no_destroy (lf : Bool) (handle_set : Bool) (sig : Int) :
    ∀ e ∈ stop_consumer lf handle_set sig, e ≠ Event.kafka_destroy := by
  unfold stop_consumer
  refine all_append (log_message_all _ _ _ _ (by simp)) ?_
  split
  · exact all_cons (by simp) all_nil
  · exact all_nil

theorem poll_body_no_destroy (lf : Bool) (config : Config) (k : Int) (msg : Option Message) :
    ∀ e ∈ (poll_body lf config k msg).2, e ≠ Event.kafka_destroy := by
  cases msg with
  | none => exact all_nil
  | some m =>
    by_cases h : m.err = 0
    · rw [poll_body_good lf config k m h]
      simp [log_message_one]
    · obtain ⟨v, level, text, heq⟩ := poll_body_error lf config k m h
      rw [heq]
      exact all_append (log_message_all _ _ _ _ (by simp)) (all_cons (by simp) all_nil)

theorem poll_events_no_destroy (lf : Bool) (config : Config) (k : Int) (p : PollStep) :
    ∀ e ∈ poll_events lf config k p, e ≠ Event.kafka_destroy := by
  unfold poll_events
  refine all_append (all_append (all_cons (by simp) all_nil) ?_) (poll_body_no_destroy _ _ _ _)
  cases p.signal with
  | none => exact all_nil
  | some sig => exact all_cons (by simp) (stop_consumer_no_destroy _ _ _)

theorem consume_loop_no_destroy (lf : Bool) (config : Config) (polls : List PollStep) :
    ∀ run k r, consume_loop lf config polls run k = some r →
      ∀ e ∈ r.2, e ≠ Event.kafka_destroy := by
  induction polls with
  | nil =>
    intro run k r h
    unfold consume_loop at h
    split at h
    · exact absurd h (by simp)
    · simp only [Option.some.injEq] at h
      rw [← h]
      exact all_nil
  | cons p ps ih =>
    intro run k r h
    by_cases hc : loop_cond config run k = true
    · rw [consume_loop_step lf config p ps run k hc] at h
      cases hrec : consume_loop lf config ps (run && p.signal.isNone)
          (poll_body lf config k p.msg).1 with
      | none => rw [hrec] at h; exact absurd h (by simp)
      | some r2 =>
        rw [hrec] at h
        simp only [Option.map_some', Option.some.injEq] at h
        rw [← h]
        exact all_append (poll_events_no_destroy _ _ _ _) (ih _ _ r2 hrec)
    · rw [consume_loop_done lf config (p :: ps) run k (by simpa using hc)] at h
      simp only [Option.some.injEq] at h
      rw [← h]
      exact all_nil

theorem consume_messages_no_destroy (w : World) (lf : Bool) (config : Config)
    (r : Int × List Event) (h : consume_messages w lf config = some r) :
    ∀ e ∈ r.2, e ≠ Event.kafka_destroy := by
  unfold consume_messages at h
  split at h
  · simp only [Option.some.injEq] at h
    rw [← h]
    exact all_cons (by simp) (log_message_all _ _ _ _ (by simp))
  · cases hloop : consume_loop lf config w.polls true 0 with
    | none => rw [hloop] at h; exact absurd h (by simp)
    | some r2 =>
      rw [hloop] at h
      simp only [Option.some.injEq] at h
      rw [← h]
      exact all_append (all_append (all_append (all_append (all_cons (by simp) all_nil)
        (log_message_all _ _ _ _ (by simp))) (log_message_all _ _ _ _ (by simp)))
        (consume_loop_no_destroy lf config w.polls true 0 r2 hloop))
        (log_message_all _ _ _ _ (by simp))

/-- Once a recorded poll carries a signal the loop ends. -/
theorem consume_loop_signal_ends (lf : Bool) (config : Config) (polls : List PollStep) :
    ∀ run k, (∃ p ∈ polls, p.signal.isSome = true) →
      (consume_loop lf config polls run k).isSome = true := by
  induction polls with
  | nil => intro run k h; obtain ⟨p, hp, _⟩ := h; exact absurd hp (List.not_mem_nil p)
  | cons p ps ih =>
    intro run k h
    by_cases hc : loop_cond config run k = true
    · rw [consume_loop_step lf config p ps run k hc]
      rw [Option.isSome_map']
      cases hsig : p.signal with
      | some sig =>
        rw [consume_loop_done]
        · rfl
        · simp [loop_cond]
      | none =>
        apply ih
        obtain ⟨q, hq, hqs⟩ := h
        rcases List.mem_cons.mp hq with h1 | h1
        · rw [h1, hsig] at hqs
          exact absurd hqs (by simp)
        · exact ⟨q, h1, hqs⟩
    · rw [consume_loop_done lf config (p :: ps) run k (by simpa using hc)]
      rfl

theorem consume_messages_signal_ends (w : World) (lf : Bool) (config : Config)
    (h : ∃ p ∈ w.polls, p.signal.isSome = true) :
    (consume_messages w lf config).isSome = true := by
  unfold consume_messages
  split
  · rfl
  · have := consume_loop_signal_ends lf config w.polls true 0 h
    cases hloop : consume_loop lf config w.polls true 0 with
    | none => rw [hloop] at this; exact absurd this (by simp)
    | some r => rfl

/-- C23: on a consumer run of `main` (command read, mTLS validation passed,
consumer mode) that returns with a created handle, the trace reads
`pre ++ rd_kafka_consumer_close :: rd_kafka_destroy :: post` with no
`rd_kafka_destroy` in `pre` and no library call in `post`, also when
subscribing failed or a signal ended the loop; when no handle was created
nothing is torn down.  A signal handled during a poll ends the run: the
handler (`stop_consumer`) calls `rd_kafka_consumer_close` itself and clears
`run`, so the loop stops at its next condition check whatever polls would
follow, and `main` returns. -/
theorem C23_consumer_close_before_destroy (w : World) (argv : List String)
    (events : List Event) (st : Args) (command : String)
    (hread : read_invocation w argv = some (Sum.inr (events, st)))
    (hcmd : st.command = some command)
    (hcons : st.is_consumer = true) (hprod : st.is_producer = false)
    (hvalid : validate_mtls (loaded_config w argv st) = none) :
    (∀ out, main w argv = some out →
      ((create_consumer w (init_log_file w (loaded_config w argv st).topic command).1
          (loaded_config w argv st)).1 = true →
        out.exit_code = 0 ∧
        ∃ pre post,
          out.trace = pre ++ Event.consumer_close :: Event.kafka_destroy :: post ∧
          (∀ e ∈ pre, e ≠ Event.kafka_destroy) ∧
          (∀ e ∈ post, e.is_client_call = false)) ∧
      ((create_consumer w (init_log_file w (loaded_config w argv st).topic command).1
          (loaded_config w argv st)).1 = false →
        out.exit_code = 1 ∧ ∀ e ∈ out.trace, e ≠ Event.kafka_destroy)) ∧
    ((∃ p ∈ w.polls, p.signal.isSome = true) → (main w argv).isSome = true) ∧
    (∀ lf config sig msg ps k, loop_cond config true k = true →
      consume_loop lf config (⟨some sig, msg⟩ :: ps) true k =
        some ((poll_body lf config k msg).1, poll_events lf config k ⟨some sig, msg⟩)) ∧
    (∀ lf config sig msg k,
      Event.consumer_close ∈ stop_consumer lf true sig ∧
      Event.consumer_close ∈ poll_events lf config k ⟨some sig, msg⟩) := by
  have hmain := main_valid w argv events st command hread hcmd hvalid
  have hhead : ∀ e ∈ events ++
      ((Event.print_version w.version_str ::
          (parse_ini_file w false (st.config_file.getD DEFAULT_INI_FILE) st.config).2.2 ++
          (init_log_file w (loaded_config w argv st).topic command).2 ++
          print_config (init_log_file w (loaded_config w argv st).topic command).1
            (loaded_config w argv st)) ++
        [Event.install_signal_handlers]), e ≠ Event.kafka_destroy :=
    all_append
      (fun e he => not_client_not_destroy e
        ((read_invocation_spec w argv events st hread).1 e he).1)
      (all_append
        (fun e he => not_client_not_destroy e (main_head_events w argv st command e he).1)
        (all_cons (by simp) all_nil))
  have hsetup := create_consumer_setup w
    (init_log_file w (loaded_config w argv st).topic command).1 (loaded_config w argv st)
  have htail : ∀ lf, ∀ e ∈ close_log_file lf ++ [Event.wait_for_key_press],
      e.is_client_call = false :=
    fun lf => all_append (fun e he => (close_log_file_events lf e he).1) (all_cons rfl all_nil)
  simp only [hcons, if_true] at hmain
  unfold run_client at hmain
  simp only [hprod, hcons, Bool.false_eq_true, if_false, if_true] at hmain
  refine ⟨?_, ?_, ?_, ?_⟩
  · intro out hout
    rw [hmain] at hout
    constructor
    · intro hcreated
      simp only [hcreated, not_true_eq_false, if_false] at hout
      cases hcm : consume_messages w
          (init_log_file w (loaded_config w argv st).topic command).1
          (loaded_config w argv st) with
      | none => rw [hcm] at hout; exact absurd hout (by simp)
      | some r =>
        rw [hcm] at hout
        simp only [Option.map_some', Option.some.injEq] at hout
        rw [← hout]
        refine ⟨rfl,
          (events ++
            ((Event.print_version w.version_str ::
                (parse_ini_file w false (st.config_file.getD DEFAULT_INI_FILE) st.config).2.2 ++
                (init_log_file w (loaded_config w argv st).topic command).2 ++
                print_config (init_log_file w (loaded_config w argv st).topic command).1
                  (loaded_config w argv st)) ++
              [Event.install_signal_handlers])) ++
          ((create_consumer w (init_log_file w (loaded_config w argv st).topic command).1
              (loaded_config w argv st)).2 ++ r.2 ++
            log_message (init_log_file w (loaded_config w argv st).topic command).1 1 "INFO"
              "Closing consumer..."),
          log_message (init_log_file w (loaded_config w argv st).topic command).1 1 "INFO"
              "Application finished" ++
            close_log_file (init_log_file w (loaded_config w argv st).topic command).1 ++
            [Event.wait_for_key_press], ?_, ?_, ?_⟩
        · simp only [List.append_assoc, List.cons_append, List.nil_append,
            List.singleton_append]
        · exact all_append hhead (all_append (all_append
            (fun e he => is_setup_not_destroy _ _ e (hsetup e he))
            (consume_messages_no_destroy _ _ _ r hcm)) (log_message_all _ _ _ _ (by simp)))
        · rw [List.append_assoc]
          exact all_append (log_message_all _ _ _ _ rfl) (htail _)
    · intro hcreated
      simp only [hcreated, Bool.false_eq_true, not_false_eq_true, if_true, Option.map_some',
        Option.some.injEq] at hout
      rw [← hout]
      refine ⟨rfl, ?_⟩
      rw [← List.append_assoc]
      refine all_append hhead ?_
      rw [List.append_assoc]
      exact all_append (fun e he => is_setup_not_destroy _ _ e (hsetup e he))
        (fun e he => not_client_not_destroy e (htail _ e he))
  · intro hsig
    rw [hmain, Option.isSome_map']
    split
    · rfl
    · have := consume_messages_signal_ends w
        (init_log_file w (loaded_config w argv st).topic command).1
        (loaded_config w argv st) hsig
      cases hcm : consume_messages w
          (init_log_file w (loaded_config w argv st).topic command).1
          (loaded_config w argv st) with
      | none => rw [hcm] at this; exact absurd this (by simp)
      | some r => rfl
  · intro lf config sig msg ps k hc
    rw [consume_loop_step lf config _ ps true k hc, consume_loop_done]
    · simp
    · simp [loop_cond]
  · intro lf config sig msg k
    constructor
    · simp [stop_consumer]
    · simp [poll_events, stop_consumer]

set_option maxRecDepth 100000 in
/-- C23 on `-c forever.ini consume` with SIGINT arriving during the second
poll: `main` returns, and its trace reads
`pre ++ rd_kafka_consumer_close :: rd_kafka_destroy :: post`. -/
theorem C23_consumer_close_before_destroy_witness :
    ∃ out, main interrupted_world ["kafka_cli", "-c", "forever.ini", "consume"] = some out ∧
      out.exit_code = 0 ∧
      ∃ pre post,
        out.trace = pre ++ Event.consumer_close :: Event.kafka_destroy :: post ∧
        (∀ e ∈ pre, e ≠ Event.kafka_destroy) ∧
        (∀ e ∈ post, e.is_client_call = false) :=
  have h := C23_consumer_close_before_destroy interrupted_world
    ["kafka_cli", "-c", "forever.ini", "consume"] []
    { Args.initial with
      config_file := some "forever.ini", command := some "consume", is_consumer := true }
    "consume" (by rfl) rfl rfl rfl (by decide)
  match hm : main interrupted_world ["kafka_cli", "-c", "forever.ini", "consume"],
    h.2.1 ⟨⟨some 2, none⟩, by decide, rfl⟩ with
  | some out, _ => ⟨out, rfl, (h.1 out hm).1 (by decide)⟩

/-! ## Comment removal in parse_ini_file -/

/-- The two cuts of `/* Remove comments */` leave the C string that ends
before the first `;` or `#`. -/
theorem cut_comment_eq (line : List Char) :
    cut_at '#' (cut_at ';' (c_str line)) = c_str (before_comment line) := by
  induction line with
  | nil => rfl
  | cons c cs ih =>
    unfold cut_at c_str before_comment at ih ⊢
    by_cases h0 : c = Char.ofNat 0
    · subst h0
      simp +decide [List.takeWhile_cons]
    · by_cases h1 : c = ';'
      · subst h1
        simp +decide [List.takeWhile_cons]
      · by_cases h2 : c = '#'
        · subst h2
          simp +decide [List.takeWhile_cons]
        · simp only [List.takeWhile_cons, ne_eq, h0, h1, h2, not_false_eq_true, decide_True,
            and_self, if_true]
          rw [ih]

theorem before_comment_idem (line : List Char) :
    before_comment (before_comment line) = before_comment line := by
  induction line with
  | nil => rfl
  | cons c cs ih =>
    unfold before_comment at ih ⊢
    by_cases h : decide (c ≠ ';' ∧ c ≠ '#') = true
    · rw [List.takeWhile_cons, if_pos h, List.takeWhile_cons, if_pos h, ih]
    · rw [List.takeWhile_cons, if_neg h, List.takeWhile_nil]

theorem before_comment_clean (line : List Char) :
    ∀ c ∈ before_comment line, c ≠ ';' ∧ c ≠ '#' := by
  intro c hc
  have := takeWhile_all (fun c => decide (c ≠ ';' ∧ c ≠ '#')) line c hc
  simpa using this

theorem trimmed_line_eq (line : List Char) :
    trimmed_line line = trim_whitespace (c_str (before_comment line)) := by
  unfold trimmed_line
  rw [cut_comment_eq]

theorem split_key_value_trimmed (line : List Char) :
    split_key_value line =
      if (trimmed_line line).length = 0 then none
      else if (trimmed_line line).head? = some '[' then none
      else match strchr_split '=' (trimmed_line line) with
        | none => none
        | some (before, after) =>
          some (String.mk (trim_whitespace before), trim_whitespace after) := rfl

theorem split_key_value_before_comment (l1 l2 : List Char)
    (h : before_comment l1 = before_comment l2) : split_key_value l1 = split_key_value l2 := by
  rw [split_key_value_trimmed, split_key_value_trimmed, trimmed_line_eq, trimmed_line_eq, h]

/-! ## What is left of a line is part of the line -/

theorem mem_of_mem_dropWhile (p : Char → Bool) (l : List Char) :
    ∀ c ∈ l.dropWhile p, c ∈ l :=
  fun _ hc => (List.dropWhile_sublist p).subset hc

theorem mem_of_mem_trim_whitespace (s : List Char) : ∀ c ∈ trim_whitespace s, c ∈ s := by
  intro c hc
  unfold trim_whitespace at hc
  cases hdrop : s.dropWhile isspace with
  | nil => rw [hdrop] at hc; exact absurd hc (List.not_mem_nil c)
  | cons d rest =>
    rw [hdrop] at hc
    apply mem_of_mem_dropWhile isspace s
    rw [hdrop]
    rcases List.mem_cons.mp hc with h | h
    · rw [h]; exact List.mem_cons_self _ _
    · refine List.mem_cons_of_mem _ ?_
      have h2 := List.mem_reverse.mp h
      exact List.mem_reverse.mp (mem_of_mem_dropWhile isspace _ c h2)

theorem strchr_split_some (ch : Char) (s : List Char) :
    ∀ before after, strchr_split ch s = some (before, after) →
      s = before ++ ch :: after ∧ ch ∉ before := by
  induction s with
  | nil => intro before after h; exact absurd h (by simp [strchr_split])
  | cons c cs ih =>
    intro before after h
    unfold strchr_split at h
    by_cases hc : c = ch
    · rw [if_pos hc] at h
      simp only [Option.some.injEq, Prod.mk.injEq] at h
      rw [← h.1, ← h.2, hc]
      exact ⟨rfl, List.not_mem_nil ch⟩
    · rw [if_neg hc] at h
      cases hrec : strchr_split ch cs with
      | none => rw [hrec] at h; exact absurd h (by simp)
      | some ba =>
        obtain ⟨b, a⟩ := ba
        rw [hrec] at h
        simp only [Option.some.injEq, Prod.mk.injEq] at h
        obtain ⟨hcs, hnot⟩ := ih b a hrec
        rw [← h.1, ← h.2]
        refine ⟨by rw [List.cons_append, ← hcs], ?_⟩
        intro hmem
        rcases List.mem_cons.mp hmem with h1 | h1
        · exact hc h1.symm
        · exact hnot h1

theorem strchr_split_none (ch : Char) (s : List Char) (h : ch ∉ s) :
    strchr_split ch s = none := by
  induction s with
  | nil => rfl
  | cons c cs ih =>
    unfold strchr_split
    have hc : ¬ c = ch := fun hc => h (hc ▸ List.mem_cons_self _ _)
    rw [if_neg hc, ih (fun hmem => h (List.mem_cons_of_mem _ hmem))]

theorem strchr_split_first (ch : Char) (before after : List Char) (h : ch ∉ before) :
    strchr_split ch (before ++ ch :: after) = some (before, after) := by
  induction before with
  | nil => simp [strchr_split]
  | cons c cs ih =>
    have hc : ¬ c = ch := fun hc => h (hc ▸ List.mem_cons_self _ _)
    rw [List.cons_append, strchr_split, if_neg hc, ih (fun hmem => h (List.mem_cons_of_mem _ hmem))]

/-- The key and the value of a line are made of characters of the line that
stand before its first `;` or `#`. -/
theorem split_key_value_mem (line : List Char) (key : String) (value : List Char)
    (h : split_key_value line = some (key, value)) :
    (∀ c ∈ key.data, c ∈ before_comment line) ∧ (∀ c ∈ value, c ∈ before_comment line) := by
  rw [split_key_value_trimmed] at h
  split at h
  · exact absurd h (by simp)
  · split at h
    · exact absurd h (by simp)
    · cases hsplit : strchr_split '=' (trimmed_line line) with
      | none => rw [hsplit] at h; exact absurd h (by simp)
      | some ba =>
        obtain ⟨b, a⟩ := ba
        rw [hsplit] at h
        simp only [Option.some.injEq, Prod.mk.injEq] at h
        obtain ⟨hline, _⟩ := strchr_split_some '=' _ b a hsplit
        have hsub : ∀ c ∈ trimmed_line line, c ∈ before_comment line := by
          intro c hc
          rw [trimmed_line_eq] at hc
          exact (List.takeWhile_sublist _).subset (mem_of_mem_trim_whitespace _ c hc)
        constructor
        · intro c hc
          rw [← h.1] at hc
          apply hsub
          rw [hline]
          exact List.mem_append_left _ (mem_of_mem_trim_whitespace _ c hc)
        · intro c hc
          rw [← h.2] at hc
          apply hsub
          rw [hline]
          exact List.mem_append_right _ (List.mem_cons_of_mem _ (mem_of_mem_trim_whitespace _ c hc))

/-! ## The field a line sets -/

/-- A name that is none of the 17 keys names no field. -/
theorem field_unrecognised (key : String) (config : Config) (h : key ∉ recognised_keys) :
    config.field key = none := by
  simp only [recognised_keys, List.mem_cons, List.mem_singleton, List.not_mem_nil, or_false,
    not_or] at h
  obtain ⟨h1, h2, h3, h4, h5, h6, h7, h8, h9, h10, h11, h12, h13, h14, h15, h16, h17⟩ := h
  simp only [Config.field, if_neg h1, if_neg h2, if_neg h3, if_neg h4, if_neg h5, if_neg h6,
    if_neg h7, if_neg h8, if_neg h9, if_neg h10, if_neg h11, if_neg h12, if_neg h13, if_neg h14,
    if_neg h15, if_neg h16, if_neg h17]

/-- A line with a recognised key stores its value in the field the key names. -/
theorem assign_key_sets (key : String) (value : List Char) (config : Config)
    (h : key ∈ recognised_keys) :
    (assign_key key value config).field key = some (field_of_value key value) := by
  simp only [recognised_keys, List.mem_cons, List.mem_singleton, List.not_mem_nil,
    or_false] at h
  rcases h with h | h | h | h | h | h | h | h | h | h | h | h | h | h | h | h | h <;>
    subst h <;> simp +decide only [assign_key, Config.field, field_of_value, if_true, if_false]

theorem default_fields_clean (key : String) (s : String)
    (h : default_config.field key = some (Sum.inl s)) : ∀ c ∈ s.data, c ≠ ';' ∧ c ≠ '#' := by
  by_cases hrec : key ∈ recognised_keys
  · simp only [recognised_keys, List.mem_cons, List.mem_singleton, List.not_mem_nil,
      or_false] at hrec
    rcases hrec with h1 | h1 | h1 | h1 | h1 | h1 | h1 | h1 | h1 | h1 | h1 | h1 | h1 | h1 | h1 |
        h1 | h1 <;>
      subst h1 <;>
      simp +decide only [Config.field, default_config, if_true, if_false, Option.some.injEq,
        Sum.inl.injEq, reduceCtorEq] at h <;>
      subst h <;> decide
  · rw [field_unrecognised key _ hrec] at h
    exact absurd h (by simp)

/-- A line keeps the string fields free of `;` and `#`. -/
theorem parse_ini_line_clean (line : List Char) (config : Config)
    (hconfig : ∀ key s, config.field key = some (Sum.inl s) →
      ∀ c ∈ s.data, c ≠ ';' ∧ c ≠ '#') :
    ∀ key s, (parse_ini_line line config).field key = some (Sum.inl s) →
      ∀ c ∈ s.data, c ≠ ';' ∧ c ≠ '#' := by
  intro key s hfield
  unfold parse_ini_line at hfield
  cases hsplit : split_key_value line with
  | none => rw [hsplit] at hfield; exact hconfig key s hfield
  | some kv =>
    obtain ⟨k, v⟩ := kv
    rw [hsplit] at hfield
    simp only at hfield
    by_cases hk : k = key
    · subst hk
      by_cases hrec : k ∈ recognised_keys
      · rw [assign_key_sets k v config hrec] at hfield
        unfold field_of_value at hfield
        split at hfield
        · exact absurd hfield (by simp)
        · simp only [Option.some.injEq, Sum.inl.injEq] at hfield
          rw [← hfield]
          intro c hc
          exact before_comment_clean line c
            ((split_key_value_mem line k v hsplit).2 c (List.mem_of_mem_take hc))
      · rw [assign_key_unrecognised k v config hrec] at hfield
        exact hconfig k s hfield
    · rw [assign_key_field key k v config hk] at hfield
      exact hconfig key s hfield

theorem foldl_clean (lines : List (List Char)) :
    ∀ (config : Config),
      (∀ key s, config.field key = some (Sum.inl s) → ∀ c ∈ s.data, c ≠ ';' ∧ c ≠ '#') →
      ∀ key s, (lines.foldl (fun c line => parse_ini_line line c) config).field key =
          some (Sum.inl s) →
        ∀ c ∈ s.data, c ≠ ';' ∧ c ≠ '#' := by
  induction lines with
  | nil => intro config h; exact h
  | cons line rest ih =>
    intro config h
    rw [List.foldl_cons]
    exact ih _ (parse_ini_line_clean line config h)

theorem foldl_before_comment (lines1 lines2 : List (List Char))
    (h : List.Forall₂ (fun a b => before_comment a = before_comment b) lines1 lines2) :
    ∀ (config : Config),
      lines1.foldl (fun c line => parse_ini_line line c) config =
        lines2.foldl (fun c line => parse_ini_line line c) config := by
  induction h with
  | nil => intro config; rfl
  | cons hab _ ih =>
    intro config
    rw [List.foldl_cons, List.foldl_cons]
    unfold parse_ini_line
    rw [split_key_value_before_comment _ _ hab]
    exact ih _

/-- C24: the loop body of `parse_ini_file` treats every line `fgets` has
read as if it ended just before its first `;` or `#`: the config after the
line is that after the line cut there, so two lines that agree up to that
point give the same config, and so do two files whose lines agree pairwise up
to that point.  The key and the value of a line hold no `;` and no `#`, and
after `parse_ini_file` no string field of the config (the key password among
them) holds one. -/
theorem C24_comment_cut_at_first_marker :
    (∀ line config, parse_ini_line line config = parse_ini_line (before_comment line) config) ∧
    (∀ l1 l2 config, before_comment l1 = before_comment l2 →
      parse_ini_line l1 config = parse_ini_line l2 config) ∧
    (∀ line key value, split_key_value line = some (key, value) →
      (∀ c ∈ key.data, c ≠ ';' ∧ c ≠ '#') ∧ (∀ c ∈ value, c ≠ ';' ∧ c ≠ '#')) ∧
    (∀ (w1 w2 : World) lf f1 f2 config c1 c2,
      w1.read_file f1 = some c1 → w2.read_file f2 = some c2 →
      List.Forall₂ (fun a b => before_comment a = before_comment b)
        (fgets_lines c1.length c1.data) (fgets_lines c2.length c2.data) →
      (parse_ini_file w1 lf f1 config).2.1 = (parse_ini_file w2 lf f2 config).2.1) ∧
    (∀ (w : World) lf filename config,
      (∀ key s, (parse_ini_file w lf filename config).2.1.field key = some (Sum.inl s) →
        ∀ c ∈ s.data, c ≠ ';' ∧ c ≠ '#') ∧
      ∀ c ∈ (parse_ini_file w lf filename config).2.1.ssl_key_password.data,
        c ≠ ';' ∧ c ≠ '#') := by
  have hfields : ∀ (w : World) lf filename config,
      ∀ key s, (parse_ini_file w lf filename config).2.1.field key = some (Sum.inl s) →
        ∀ c ∈ s.data, c ≠ ';' ∧ c ≠ '#' := by
    intro w lf filename config key s h
    unfold parse_ini_file at h
    cases hfile : w.read_file filename with
    | none =>
      rw [hfile] at h
      exact default_fields_clean key s h
    | some content =>
      rw [hfile] at h
      simp only at h
      rw [parse_ini_lines_eq_foldl] at h
      exact foldl_clean _ _ default_fields_clean key s h
  refine ⟨?_, ?_, ?_, ?_, ?_⟩
  · intro line config
    unfold parse_ini_line
    rw [split_key_value_before_comment line (before_comment line)
      (before_comment_idem line).symm]
  · intro l1 l2 config h
    unfold parse_ini_line
    rw [split_key_value_before_comment l1 l2 h]
  · intro line key value h
    exact ⟨fun c hc => before_comment_clean line c ((split_key_value_mem line key value h).1 c hc),
      fun c hc => before_comment_clean line c ((split_key_value_mem line key value h).2 c hc)⟩
  · intro w1 w2 lf f1 f2 config c1 c2 h1 h2 hall
    unfold parse_ini_file
    rw [h1, h2]
    simp only
    rw [parse_ini_lines_eq_foldl, parse_ini_lines_eq_foldl]
    exact foldl_before_comment _ _ hall _
  · intro w lf filename config
    exact ⟨hfields w lf filename config,
      hfields w lf filename config "ssl_key_password" _
        (by simp +decide only [Config.field, if_true, if_false])⟩

/-- C24 on a password line with a `;` inside the value and the same line
with a `#` there: both agree up to the marker, give the same config, and the
password is read as `se`. -/
theorem C24_comment_cut_at_first_marker_witness :
    before_comment "ssl_key_password = se;cret\n".data =
      before_comment "ssl_key_password = se#x".data ∧
    parse_ini_line "ssl_key_password = se;cret\n".data Config.zeroed =
      parse_ini_line "ssl_key_password = se#x".data Config.zeroed ∧
    (parse_ini_line "ssl_key_password = se;cret\n".data Config.zeroed).ssl_key_password =
      "se" :=
  ⟨by decide, C24_comment_cut_at_first_marker.2.1 _ _ _ (by decide), by decide⟩

/-! ## One line, one field -/

/-- A line that is empty after comment removal and trimming, starts with `[`
or has no `=` is skipped. -/
theorem split_key_value_skipped (line : List Char)
    (h : trimmed_line line = [] ∨ (trimmed_line line).head? = some '[' ∨
      '=' ∉ trimmed_line line) : split_key_value line = none := by
  rw [split_key_value_trimmed]
  by_cases hlen : (trimmed_line line).length = 0
  · rw [if_pos hlen]
  · rw [if_neg hlen]
    by_cases hsection : (trimmed_line line).head? = some '['
    · rw [if_pos hsection]
    · rw [if_neg hsection]
      rcases h with h | h | h
      · exact absurd (by rw [h]; rfl) hlen
      · exact absurd h hsection
      · rw [strchr_split_none '=' _ h]

/-- A line that is not skipped splits at its first `=`. -/
theorem split_key_value_at_first (line before after : List Char)
    (hline : trimmed_line line = before ++ '=' :: after) (hfirst : '=' ∉ before)
    (hsection : (trimmed_line line).head? ≠ some '[') :
    split_key_value line = some (String.mk (trim_whitespace before), trim_whitespace after) := by
  rw [split_key_value_trimmed]
  have hlen : ¬ (trimmed_line line).length = 0 := by
    rw [hline, List.length_append, List.length_cons]
    omega
  rw [if_neg hlen, if_neg hsection, hline, strchr_split_first '=' before after hfirst]

/-- Over the lines of a file, the field of a recognised key ends as what its
last line stores, or stays as it was when no line has the key. -/
theorem foldl_field (key : String) (hkey : key ∈ recognised_keys) (lines : List (List Char)) :
    ∀ (config : Config),
      (lines.foldl (fun c line => parse_ini_line line c) config).field key =
        match (((lines.filterMap split_key_value).filter
            (fun kv => kv.1 = key)).getLast?).map Prod.snd with
        | none => config.field key
        | some value => some (field_of_value key value) := by
  induction lines with
  | nil => intro config; rfl
  | cons line rest ih =>
    intro config
    rw [List.foldl_cons, ih]
    unfold parse_ini_line
    cases hsplit : split_key_value line with
    | none => simp only [List.filterMap_cons, hsplit]
    | some kv =>
      obtain ⟨k, v⟩ := kv
      simp only [List.filterMap_cons, hsplit]
      by_cases hk : k = key
      · subst hk
        simp only [List.filter_cons, decide_True, if_true]
        cases hrest : (rest.filterMap split_key_value).filter (fun kv => kv.1 = k) with
        | nil =>
          simp only [List.getLast?_singleton, Option.map_some']
          exact assign_key_sets k v config hkey
        | cons x xs =>
          rw [List.getLast?_cons_cons, List.getLast?_eq_getLast _ (List.cons_ne_nil x xs)]
          simp only [Option.map_some']
      · simp only [List.filter_cons, hk, decide_False, Bool.false_eq_true, if_false]
        rw [assign_key_field key k v config hk]

/-- A config is determined by the fields the 17 keys name. -/
theorem config_eq_of_fields (c1 c2 : Config)
    (h : ∀ key ∈ recognised_keys, c1.field key = c2.field key) : c1 = c2 := by
  have h1 := h "brokers" (by decide)
  have h2 := h "topic" (by decide)
  have h3 := h "security_protocol" (by decide)
  have h4 := h "ssl_ca_location" (by decide)
  have h5 := h "ssl_certificate_location" (by decide)
  have h6 := h "ssl_key_location" (by decide)
  have h7 := h "ssl_key_password" (by decide)
  have h8 := h "ssl_skip_certificate_verify" (by decide)
  have h9 := h "producer_batch_size" (by decide)
  have h10 := h "producer_linger_ms" (by decide)
  have h11 := h "producer_ack" (by decide)
  have h12 := h "consumer_group_id" (by decide)
  have h13 := h "consumer_auto_offset_reset" (by decide)
  have h14 := h "consumer_session_timeout_ms" (by decide)
  have h15 := h "consumer_enable_auto_commit" (by decide)
  have h16 := h "verbose" (by decide)
  have h17 := h "message_count" (by decide)
  simp +decide only [Config.field, if_true, if_false, Option.some.injEq, Sum.inl.injEq,
    Sum.inr.injEq] at h1 h2 h3 h4 h5 h6 h7 h8 h9 h10 h11 h12 h13 h14 h15 h16 h17
  cases c1
  cases c2
  simp only at h1 h2 h3 h4 h5 h6 h7 h8 h9 h10 h11 h12 h13 h14 h15 h16 h17
  simp only [Config.mk.injEq]
  exact ⟨h1, h2, h3, h4, h5, h6, h7, h8, h9, h10, h11, h12, h13, h14, h15, h16, h17⟩

/-- C25: each line read by `parse_ini_file` updates one config field or
changes nothing.  With `trimmed_line` the line after comment removal and
trimming: a line that is empty, starts with `[` or holds no `=` leaves the
config as it is; any other line is handled as the key (the trimmed text
before the first `=`) and the value (the trimmed text after it, further `=`
included); a key that is none of the 17 names leaves the config as it is; a
recognised key stores the value in its own field (`atoi` for the `int`
fields, the first 767 characters for the string fields) and every other
field keeps its value.  So over a file the field of a key ends as what the
last line with that key stores, and keeps its earlier value (the default,
in `parse_ini_file`) when no line has the key.  The 17 fields are the whole
config. -/
theorem C25_line_sets_one_field :
    (∀ line config,
      (trimmed_line line = [] ∨ (trimmed_line line).head? = some '[' ∨
        '=' ∉ trimmed_line line) →
      parse_ini_line line config = config) ∧
    (∀ line before after config,
      trimmed_line line = before ++ '=' :: after → '=' ∉ before →
      (trimmed_line line).head? ≠ some '[' →
      parse_ini_line line config =
        assign_key (String.mk (trim_whitespace before)) (trim_whitespace after) config) ∧
    (∀ key value config, key ∉ recognised_keys → assign_key key value config = config) ∧
    (∀ key value config, key ∈ recognised_keys →
      (assign_key key value config).field key = some (field_of_value key value) ∧
      ∀ k, k ≠ key → (assign_key key value config).field k = config.field k) ∧
    (∀ line config,
      parse_ini_line line config = config ∨
      ∃ key value, key ∈ recognised_keys ∧ split_key_value line = some (key, value) ∧
        (parse_ini_line line config).field key = some (field_of_value key value) ∧
        ∀ k, k ≠ key → (parse_ini_line line config).field k = config.field k) ∧
    (∀ key content config, key ∈ recognised_keys →
      (parse_ini_lines content.length content.data config).field key =
        match ini_value key content with
        | none => config.field key
        | some value => some (field_of_value key value)) ∧
    (∀ (w : World) lf filename config key content, key ∈ recognised_keys →
      w.read_file filename = some content →
      (parse_ini_file w lf filename config).2.1.field key =
        match ini_value key content with
        | none => default_config.field key
        | some value => some (field_of_value key value)) ∧
    (∀ c1 c2 : Config, (∀ key ∈ recognised_keys, c1.field key = c2.field key) → c1 = c2) := by
  refine ⟨?_, ?_, fun key value config h => assign_key_unrecognised key value config h, ?_, ?_,
    ?_, ?_, config_eq_of_fields⟩
  · intro line config h
    unfold parse_ini_line
    rw [split_key_value_skipped line h]
  · intro line before after config hline hfirst hsection
    unfold parse_ini_line
    rw [split_key_value_at_first line before after hline hfirst hsection]
  · intro key value config h
    exact ⟨assign_key_sets key value config h,
      fun k hk => assign_key_field k key value config (fun heq => hk heq.symm)⟩
  · intro line config
    unfold parse_ini_line
    cases hsplit : split_key_value line with
    | none => exact Or.inl rfl
    | some kv =>
      obtain ⟨key, value⟩ := kv
      by_cases hrec : key ∈ recognised_keys
      · exact Or.inr ⟨key, value, hrec, rfl, assign_key_sets key value config hrec,
          fun k hk => assign_key_field k key value config (fun heq => hk heq.symm)⟩
      · exact Or.inl (assign_key_unrecognised key value config hrec)
  · intro key content config hkey
    rw [parse_ini_lines_eq_foldl]
    exact foldl_field key hkey _ config
  · intro w lf filename config key content hkey hfile
    unfold parse_ini_file
    rw [hfile]
    simp only
    rw [parse_ini_lines_eq_foldl]
    exact foldl_field key hkey _ _

/-- C25 on the line `topic = a=b # c`: the key is `topic`, the value `a=b`;
and on a file with two `topic` lines, where the second one wins. -/
theorem C25_line_sets_one_field_witness :
    parse_ini_line "topic = a=b # c\n".data default_config =
      assign_key (String.mk (trim_whitespace "topic ".data)) (trim_whitespace " a=b".data)
        default_config ∧
    (parse_ini_line "topic = a=b # c\n".data default_config).topic = "a=b" ∧
    (parse_ini_lines 22 "topic = a\ntopic = b\nx\n".data default_config).field "topic" =
      some (Sum.inl "b") :=
  ⟨C25_line_sets_one_field.2.1 "topic = a=b # c\n".data "topic ".data " a=b".data default_config
      (by decide) (by decide) (by decide),
    by decide,
    (C25_line_sets_one_field.2.2.2.2.2.1 "topic" "topic = a\ntopic = b\nx\n" default_config
      (by decide)).trans (by decide)⟩

/-! ## The produce calls of produce_messages -/

theorem produce_iteration_calls (w : World) (lf : Bool) (config : Config) (i : Nat) :
    (produce_iteration w lf config i).filter Event.is_producev =
      [Event.producev config.topic (message_text w i) none (w.producev_err i)] := by
  unfold produce_iteration
  have hlog : ∀ v level text, (log_message lf v level text).filter Event.is_producev = [] :=
    fun v level text => filter_eq_nil_of_forall _ _ (log_message_all _ _ _ _ rfl)
  have hrep : (serve_reports w lf config (w.poll_reports i)).filter Event.is_producev = [] :=
    filter_eq_nil_of_forall _ _ (serve_reports_all (P := fun e => e.is_producev = false)
      w lf config (fun _ _ => rfl) _)
  simp only [List.filter_append, hrep, List.append_nil]
  split <;> simp [hlog, Event.is_producev]

theorem produce_loop_calls (w : World) (lf : Bool) (config : Config) (remaining : Nat) :
    ∀ start, (produce_loop w lf config remaining start).filter Event.is_producev =
      (List.range' start remaining).map
        (fun i => Event.producev config.topic (message_text w i) none (w.producev_err i)) := by
  induction remaining with
  | zero => intro start; rfl
  | succ n ih =>
    intro start
    unfold produce_loop
    rw [List.filter_append, produce_iteration_calls, ih (start + 1), List.range'_succ]
    rfl

/-- C26: for a config with `message_count = N`, `produce_messages` makes
exactly `max(N, 0)` produce calls, in order, each to the configured topic and
with no key, the i-th (from 1) with a payload that starts with
`Test message i from Kafka CLI at `; this holds whatever the produce calls
return, so a failed call does not stop the loop.  The function then flushes
once and returns 0. -/
theorem C26_produce_messages_calls (w : World) (lf : Bool) (config : Config) :
    (produce_messages w lf config).2.filter Event.is_producev =
      (List.range config.message_count.toNat).map
        (fun i => Event.producev config.topic (message_text w i) none (w.producev_err i)) ∧
    ((config.message_count.toNat : Int) = max config.message_count 0) ∧
    (∀ i : Nat,
      ("Test message " ++ fmt_d ((i : Int) + 1) ++ " from Kafka CLI at ").data <+:
        (message_text w i).data) ∧
    (produce_messages w lf config).2.filter Event.is_flush = [Event.flush 10000 w.flush_err] ∧
    (∃ before after,
      (produce_messages w lf config).2 = before ++ Event.flush 10000 w.flush_err :: after ∧
      ∀ e ∈ after, e.is_producev = false) ∧
    (produce_messages w lf config).1 = 0 := by
  have hlogp : ∀ v level text, (log_message lf v level text).filter Event.is_producev = [] :=
    fun v level text => filter_eq_nil_of_forall _ _ (log_message_all _ _ _ _ rfl)
  have hlogf : ∀ v level text, (log_message lf v level text).filter Event.is_flush = [] :=
    fun v level text => filter_eq_nil_of_forall _ _ (log_message_all _ _ _ _ rfl)
  refine ⟨?_, ?_, ?_, ?_, ?_, rfl⟩
  · unfold produce_messages
    simp only [List.filter_append, hlogp, produce_loop_calls, List.nil_append, List.append_nil,
      filter_eq_nil_of_forall _ _ (serve_reports_all (P := fun e => e.is_producev = false)
        w lf config (fun _ _ => rfl) w.flush_reports)]
    rw [List.range_eq_range']
    simp [Event.is_producev]
  · rw [Int.toNat_eq_max]
  · intro i
    exact ⟨(fmt_d (w.time_at i)).data, by
      simp only [message_text, String.data_append, List.append_assoc]⟩
  · unfold produce_messages
    simp only [List.filter_append, hlogf, List.nil_append, List.append_nil,
      filter_eq_nil_of_forall _ _ (serve_reports_all (P := fun e => e.is_flush = false)
        w lf config (fun _ _ => rfl) w.flush_reports),
      filter_eq_nil_of_forall _ _ (produce_loop_all (P := fun e => e.is_flush = false)
        w lf config (fun _ _ => rfl) (fun _ => rfl) rfl rfl _ 0)]
    rfl
  · refine ⟨log_message lf 1 "INFO"
        ("Starting to produce " ++ fmt_d config.message_count ++ " messages to topic '" ++
          config.topic ++ "'...") ++
        produce_loop w lf config config.message_count.toNat 0 ++
        log_message lf 1 "INFO" "Flushing messages...",
      serve_reports w lf config w.flush_reports ++
        log_message lf 1 "INFO"
          ("Produced " ++ fmt_d config.message_count ++ " messages successfully"), ?_, ?_⟩
    · simp only [produce_messages, List.append_assoc, List.singleton_append, List.cons_append,
        List.nil_append]
    · exact all_append (serve_reports_all (P := fun e => e.is_producev = false)
        w lf config (fun _ _ => rfl) _) (log_message_all _ _ _ _ rfl)

end KafkaCli
